import Mathlib

/-!
Verification development for the spicetestlib fault-injection library
(`base.py`, `errors.py`, `faults.py`, `test_utilities.py`).

The netlist store itself (the `SpiceEditor` object of the external
`spicelib`/`PyLTSpice` packages) is an external collaborator of this
repository; its primitives are modelled from the spec as a keyed component
store.  Everything else (the lifecycle state machines, the fault and
test-utility variants, the reference allocator, the signal-interpretation
logic) is translated from the Python source.

Python floats are modelled as rationals.  Because the kernel cannot reduce
the library's `Rat.add`/`Rat.sub`, the embedding uses its own reducible
`ratAdd`/`ratSub` (proved equal to `+`/`-` below).  Python in-place mutation
with exceptions is modelled by step results that carry the partially
mutated netlist and object next to an optional error: mutations performed
before an exception is raised persist, exactly as in Python.
-/

/-- Subtraction on rationals written so that the kernel can evaluate it;
proved equal to `Sub.sub` in `ratSub_eq`. -/
def ratSub (a b : ℚ) : ℚ := mkRat (a.num * b.den - b.num * a.den) (a.den * b.den)

/-- Addition on rationals written so that the kernel can evaluate it;
proved equal to `Add.add` in `ratAdd_eq`. -/
def ratAdd (a b : ℚ) : ℚ := mkRat (a.num * b.den + b.num * a.den) (a.den * b.den)

/-- Decimal digits of a natural number, least significant first, with
explicit fuel (`fuel ≥ n` suffices).  Mirrors Python's decimal rendering
of `int`. -/
def natDigitsRev (fuel n : Nat) : List Nat :=
  match fuel with
  | 0 => []
  | f + 1 => if n = 0 then [] else (n % 10) :: natDigitsRev f (n / 10)

/-- Decimal rendering of a natural number, as Python's `str(int)` produces
inside f-strings such as `f'M{index}'`. -/
def natRepr (n : Nat) : String :=
  if n = 0 then "0"
  else String.mk (((natDigitsRev n n).reverse).map (fun d => Char.ofNat (48 + d)))

/-- Reference string `f'{pre}{i}'`, e.g. `M3`, `V1`, `R12`. -/
def refName (pre : String) (i : Nat) : String := pre ++ natRepr i

/-- Python's `str.startswith`, over the character lists. -/
def strStartsWith (s pre : String) : Bool := pre.data.isPrefixOf s.data

/-- Python's `str.lower`, over the character lists. -/
def strLower (s : String) : String := String.mk (s.data.map Char.toLower)

/-- Component value: either a numeric value (a Python float such as a
resistance) or a free-form string (a model name or a `PULSE(...)` form). -/
inductive SpiceVal where
  | num (x : ℚ)
  | str (s : String)
deriving DecidableEq

/-- Modelled from the spec: a component of the external netlist store,
"keyed by unique reference", with its ordered port list and its value. -/
structure Component where
  reference : String
  ports : List String
  value : SpiceVal
deriving DecidableEq

/-- Errors of the library (`errors.py`) plus the store-level failures of the
external netlist store ("a collision … must surface as a store-level
insertion conflict") and Python-level slips (`ValueError`, indexing). -/
inductive Err where
  | notInjected
  | alreadyInjected
  | notActive
  | alreadyActive
  | observerExpectationUnknown
  | faultDoesNotSupportComponent
  | componentNotFound
  | duplicateReference
  | valueError
  | traceNotFound
deriving DecidableEq

/-- The `NetList` handle of `base.py`: the wrapped store (components plus
free-form directive instructions), the circuit-wide constants, and the three
lazy allocation counters (`-1` = not yet scanned). -/
structure NetList where
  components : List Component
  instructions : List String
  ground_node : String
  supply_node : String
  vdd : ℚ
  vss : ℚ
  fetIdx : Int
  sourceIdx : Int
  resistorIdx : Int
deriving DecidableEq

/-- Modelled from the spec: reference-list query of the store
(`self.net.get_components()`). -/
def NetList.get_components (n : NetList) : List String :=
  n.components.map Component.reference

/-- Modelled from the spec: component lookup by reference. -/
def NetList.get_component (n : NetList) (ref : String) : Option Component :=
  n.components.find? (fun c => c.reference == ref)

/-- Modelled from the spec: keyed insert; inserting an already present
reference is a store-level insertion conflict. -/
def NetList.add_component (n : NetList) (c : Component) : Except Err NetList :=
  if c.reference ∈ n.get_components then .error .duplicateReference
  else .ok { n with components := n.components ++ [c] }

/-- Modelled from the spec: removal by reference; a missing reference is a
store-level error. -/
def NetList.remove_component (n : NetList) (ref : String) : Except Err NetList :=
  match n.get_component ref with
  | some _ => .ok { n with components := n.components.filter (fun c => c.reference ≠ ref) }
  | none => .error .componentNotFound

/-- Modelled from the spec: ordered port-list query
(`self.net.get_component_nodes(ref)`). -/
def NetList.get_component_nodes (n : NetList) (ref : String) : Except Err (List String) :=
  match n.get_component ref with
  | some c => .ok c.ports
  | none => .error .componentNotFound

/-- Modelled from the spec: scalar value query. -/
def NetList.get_component_value (n : NetList) (ref : String) : Except Err SpiceVal :=
  match n.get_component ref with
  | some c => .ok c.value
  | none => .error .componentNotFound

/-- Modelled from the spec: scalar value update by reference. -/
def NetList.set_component_value (n : NetList) (ref : String) (v : SpiceVal) :
    Except Err NetList :=
  let upd := n.components.map (fun c => if c.reference = ref then { c with value := v } else c)
  match n.get_component ref with
  | some _ => .ok { n with components := upd }
  | none => .error .componentNotFound

/-- Modelled from the spec: free-form directive insertion
(`add_instructions`). -/
def NetList.add_instructions (n : NetList) (l : List String) : NetList :=
  { n with instructions := n.instructions ++ l }

/-- Modelled from the spec: pattern-based directive removal
(`remove_Xinstruction`); the patterns the library passes are a literal
prefix followed by `.*`, so matching is prefix matching. -/
def NetList.remove_instructions_matching (n : NetList) (pre : String) : NetList :=
  { n with instructions := n.instructions.filter (fun i => ¬ strStartsWith i pre) }

/-- Scan of `get_next_*_descriptor_index`: starting at `i`, increment while
`f'{pre}{i}'` is an existing reference.  The Python `while` loop is given the
explicit fuel `refs.length + 1`, which always suffices (`scanFree_free`). -/
def scanFree (pre : String) (refs : List String) (i : Nat) : Nat → Nat
  | 0 => i
  | fuel + 1 => if refName pre i ∈ refs then scanFree pre refs (i + 1) fuel else i

/-- Counter logic shared by the three allocators of `base.py`: on first use
scan the store from index 1 and cache, afterwards increment the cache. -/
def nextDescriptorIndex (idx : Int) (pre : String) (refs : List String) : Nat × Int :=
  if idx = -1 then
    let i := scanFree pre refs 1 (refs.length + 1)
    (i, (i : Int))
  else
    ((idx + 1).toNat, idx + 1)

/-- Allocator `NetList.get_next_fet_descriptor_index`. -/
def NetList.get_next_fet_descriptor_index (n : NetList) : Nat × NetList :=
  let p := nextDescriptorIndex n.fetIdx "M" n.get_components
  (p.1, { n with fetIdx := p.2 })

/-- Allocator `NetList.get_next_source_descriptor_index`. -/
def NetList.get_next_source_descriptor_index (n : NetList) : Nat × NetList :=
  let p := nextDescriptorIndex n.sourceIdx "V" n.get_components
  (p.1, { n with sourceIdx := p.2 })

/-- Allocator `NetList.get_next_resistor_descriptor_index`. -/
def NetList.get_next_resistor_descriptor_index (n : NetList) : Nat × NetList :=
  let p := nextDescriptorIndex n.resistorIdx "R" n.get_components
  (p.1, { n with resistorIdx := p.2 })

/-- `NetList.insert_fet`: the inserted transistor's ports are
`[drain, gate, source, source]` — the bulk terminal is tied to the source. -/
def NetList.insert_fet (n : NetList) (drain_node gate_node source_node model : String) :
    Except Err (String × NetList) :=
  let p := n.get_next_fet_descriptor_index
  let ref := refName "M" p.1
  match p.2.add_component ⟨ref, [drain_node, gate_node, source_node, source_node], .str model⟩ with
  | .ok n2 => .ok (ref, n2)
  | .error e => .error e

/-- `NetList.update_fet_ports`: replace a transistor (reference must start
with `M`) by a copy with the given four ports; the copy's value is the old
component's stored value. -/
def NetList.update_fet_ports (n : NetList) (ref : String) (ports : List String) :
    Except Err NetList :=
  if ¬ strStartsWith ref "M" then .error .valueError
  else
    match ports with
    | [d, g, s, b] =>
      match n.get_component ref with
      | none => .error .componentNotFound
      | some old =>
        match n.remove_component ref with
        | .error e => .error e
        | .ok n1 => n1.add_component ⟨old.reference, [d, g, s, b], old.value⟩
    | _ => .error .valueError

/-- `NetList.insert_source`. -/
def NetList.insert_source (n : NetList) (plus_node minus_node : String) (v : SpiceVal) :
    Except Err (String × NetList) :=
  let p := n.get_next_source_descriptor_index
  let ref := refName "V" p.1
  match p.2.add_component ⟨ref, [plus_node, minus_node], v⟩ with
  | .ok n2 => .ok (ref, n2)
  | .error e => .error e

/-- `NetList.insert_resistor`. -/
def NetList.insert_resistor (n : NetList) (node1 node2 : String) (v : SpiceVal) :
    Except Err (String × NetList) :=
  let p := n.get_next_resistor_descriptor_index
  let ref := refName "R" p.1
  match p.2.add_component ⟨ref, [node1, node2], v⟩ with
  | .ok n2 => .ok (ref, n2)
  | .error e => .error e

/-- Observable state of a netlist in the sense of round-trip idempotence:
the components (reference, ports, value), irrespective of textual order. -/
def NetList.obs (n : NetList) : Multiset Component := (n.components : Multiset Component)

/-- Lifecycle states of `Fault` (`faults.py`). -/
inductive FState where
  | notInjected
  | injected
deriving DecidableEq

/-- Result of one Python lifecycle call: the optional raised error, the
object after the call, the netlist after the call.  Mutations performed
before an exception persist, as they do for Python's in-place mutation. -/
structure StepR (σ : Type) where
  err : Option Err
  obj : σ
  net : NetList
deriving DecidableEq

/-- Base `Fault.inject` transition: guard, then move to INJECTED. -/
def Fault.inject_guard (st : FState) : Except Err FState :=
  if st ≠ FState.notInjected then .error .alreadyInjected else .ok .injected

/-- Base `Fault.eject` transition: guard, then move to NOT_INJECTED. -/
def Fault.eject_guard (st : FState) : Except Err FState :=
  if st = FState.notInjected then .error .notInjected else .ok .notInjected

/-- Python `remove_component` applied to an attribute that may still be
`None` (never injected). -/
def NetList.remove_component_opt (n : NetList) (ref : Option String) : Except Err NetList :=
  match ref with
  | none => .error .componentNotFound
  | some r => n.remove_component r

/-- `DrainOpenFault.OPEN_RESISTANCE`, `SourceOpenFault.OPEN_RESISTANCE`,
`ResistorOpen.OPEN_RESISTANCE` = 1e11. -/
def OPEN_RESISTANCE : ℚ := 100000000000

/-- `GateOpenFault.COUPLING_RESISTANCE` = 5e11. -/
def COUPLING_RESISTANCE : ℚ := 500000000000

/-- `GateOpenFault.GATE_RESISTANCE` = 1e12. -/
def GATE_RESISTANCE : ℚ := 1000000000000

/-- `SHORT_RESISTANCE` = 1 of the short-fault variants. -/
def SHORT_RESISTANCE : ℚ := 1

/-- Instance state of `DrainOpenFault`. -/
structure DrainOpenFault where
  component : String
  state : FState
  open_resistor : Option String
  fault_free_ports : List String
deriving DecidableEq

/-- Constructor of `DrainOpenFault`: requires an `M` reference and captures
the fault-free port snapshot. -/
def DrainOpenFault.make (n : NetList) (component : String) : Except Err DrainOpenFault :=
  if ¬ strStartsWith component "M" then .error .faultDoesNotSupportComponent
  else
    match n.get_component_nodes component with
    | .ok ports => .ok ⟨component, .notInjected, none, ports⟩
    | .error e => .error e

/-- `DrainOpenFault.inject`: base transition first, then rename the drain
port to `<drain>_<ref>_open` and insert the 1e11 Ω resistor between the
synthetic node and the original drain. -/
def DrainOpenFault.inject (f : DrainOpenFault) (n : NetList) : StepR DrainOpenFault :=
  match Fault.inject_guard f.state with
  | .error e => ⟨some e, f, n⟩
  | .ok st =>
    let f1 := { f with state := st }
    match f.fault_free_ports with
    | [] => ⟨some .valueError, f1, n⟩
    | p0 :: rest =>
      let p0' := p0 ++ "_" ++ f.component ++ "_open"
      match n.update_fet_ports f.component (p0' :: rest) with
      | .error e => ⟨some e, f1, n⟩
      | .ok n1 =>
        match n1.insert_resistor p0' p0 (.num OPEN_RESISTANCE) with
        | .error e => ⟨some e, f1, n1⟩
        | .ok (r, n2) => ⟨none, { f1 with open_resistor := some r }, n2⟩

/-- `DrainOpenFault.eject`: restore the snapshot ports and remove the
resistor, then (only at the end) the base transition. -/
def DrainOpenFault.eject (f : DrainOpenFault) (n : NetList) : StepR DrainOpenFault :=
  match n.update_fet_ports f.component f.fault_free_ports with
  | .error e => ⟨some e, f, n⟩
  | .ok n1 =>
    match n1.remove_component_opt f.open_resistor with
    | .error e => ⟨some e, f, n1⟩
    | .ok n2 =>
      match Fault.eject_guard f.state with
      | .error e => ⟨some e, f, n2⟩
      | .ok st => ⟨none, { f with state := st }, n2⟩

/-- Instance state of `SourceOpenFault`. -/
structure SourceOpenFault where
  component : String
  state : FState
  open_resistor : Option String
  fault_free_ports : List String
deriving DecidableEq

/-- Constructor of `SourceOpenFault`. -/
def SourceOpenFault.make (n : NetList) (component : String) : Except Err SourceOpenFault :=
  if ¬ strStartsWith component "M" then .error .faultDoesNotSupportComponent
  else
    match n.get_component_nodes component with
    | .ok ports => .ok ⟨component, .notInjected, none, ports⟩
    | .error e => .error e

/-- `SourceOpenFault.inject`: rename source and bulk (`new_ports[2]` and
`new_ports[3]`) to the synthetic node, insert the 1e11 Ω resistor between the
synthetic node and the original source. -/
def SourceOpenFault.inject (f : SourceOpenFault) (n : NetList) : StepR SourceOpenFault :=
  match Fault.inject_guard f.state with
  | .error e => ⟨some e, f, n⟩
  | .ok st =>
    let f1 := { f with state := st }
    match f.fault_free_ports with
    | [p0, p1, p2, _] =>
      let p2' := p2 ++ "_" ++ f.component ++ "_open"
      match n.update_fet_ports f.component [p0, p1, p2', p2'] with
      | .error e => ⟨some e, f1, n⟩
      | .ok n1 =>
        match n1.insert_resistor p2' p2 (.num OPEN_RESISTANCE) with
        | .error e => ⟨some e, f1, n1⟩
        | .ok (r, n2) => ⟨none, { f1 with open_resistor := some r }, n2⟩
    | _ => ⟨some .valueError, f1, n⟩

/-- `SourceOpenFault.eject`. -/
def SourceOpenFault.eject (f : SourceOpenFault) (n : NetList) : StepR SourceOpenFault :=
  match n.update_fet_ports f.component f.fault_free_ports with
  | .error e => ⟨some e, f, n⟩
  | .ok n1 =>
    match n1.remove_component_opt f.open_resistor with
    | .error e => ⟨some e, f, n1⟩
    | .ok n2 =>
      match Fault.eject_guard f.state with
      | .error e => ⟨some e, f, n2⟩
      | .ok st => ⟨none, { f with state := st }, n2⟩

/-- Instance state of `GateOpenFault`. -/
structure GateOpenFault where
  component : String
  state : FState
  open_resistor : Option String
  drain_coupling_resistor : Option String
  source_coupling_resistor : Option String
  fault_free_ports : List String
deriving DecidableEq

/-- Constructor of `GateOpenFault`. -/
def GateOpenFault.make (n : NetList) (component : String) : Except Err GateOpenFault :=
  if ¬ strStartsWith component "M" then .error .faultDoesNotSupportComponent
  else
    match n.get_component_nodes component with
    | .ok ports => .ok ⟨component, .notInjected, none, none, none, ports⟩
    | .error e => .error e

/-- `GateOpenFault.inject`: rename the gate to a synthetic node, then insert
the 1e12 Ω gate resistor to a coupling node and two 5e11 Ω coupling
resistors to the original drain and source. -/
def GateOpenFault.inject (f : GateOpenFault) (n : NetList) : StepR GateOpenFault :=
  match Fault.inject_guard f.state with
  | .error e => ⟨some e, f, n⟩
  | .ok st =>
    let f1 := { f with state := st }
    match f.fault_free_ports with
    | [p0, p1, p2, p3] =>
      let p1' := p1 ++ "_" ++ f.component ++ "_open"
      let couple := p1' ++ "_couple"
      match n.update_fet_ports f.component [p0, p1', p2, p3] with
      | .error e => ⟨some e, f1, n⟩
      | .ok n1 =>
        match n1.insert_resistor p1' couple (.num GATE_RESISTANCE) with
        | .error e => ⟨some e, f1, n1⟩
        | .ok (r1, n2) =>
          let f2 := { f1 with open_resistor := some r1 }
          match n2.insert_resistor p0 couple (.num COUPLING_RESISTANCE) with
          | .error e => ⟨some e, f2, n2⟩
          | .ok (r2, n3) =>
            let f3 := { f2 with drain_coupling_resistor := some r2 }
            match n3.insert_resistor p2 couple (.num COUPLING_RESISTANCE) with
            | .error e => ⟨some e, f3, n3⟩
            | .ok (r3, n4) => ⟨none, { f3 with source_coupling_resistor := some r3 }, n4⟩
    | _ => ⟨some .valueError, f1, n⟩

/-- `GateOpenFault.eject`. -/
def GateOpenFault.eject (f : GateOpenFault) (n : NetList) : StepR GateOpenFault :=
  match n.update_fet_ports f.component f.fault_free_ports with
  | .error e => ⟨some e, f, n⟩
  | .ok n1 =>
    match n1.remove_component_opt f.open_resistor with
    | .error e => ⟨some e, f, n1⟩
    | .ok n2 =>
      match n2.remove_component_opt f.drain_coupling_resistor with
      | .error e => ⟨some e, f, n2⟩
      | .ok n3 =>
        match n3.remove_component_opt f.source_coupling_resistor with
        | .error e => ⟨some e, f, n3⟩
        | .ok n4 =>
          match Fault.eject_guard f.state with
          | .error e => ⟨some e, f, n4⟩
          | .ok st => ⟨none, { f with state := st }, n4⟩

/-- Instance state of `GateDrainShort`. -/
structure GateDrainShort where
  component : String
  state : FState
  short_resistor : Option String
  fault_free_ports : List String
deriving DecidableEq

/-- Constructor of `GateDrainShort`. -/
def GateDrainShort.make (n : NetList) (component : String) : Except Err GateDrainShort :=
  if ¬ strStartsWith component "M" then .error .faultDoesNotSupportComponent
  else
    match n.get_component_nodes component with
    | .ok ports => .ok ⟨component, .notInjected, none, ports⟩
    | .error e => .error e

/-- List indexing as Python's `l[i]` (an out-of-range index raises). -/
def pyIndex (l : List String) (i : Nat) : Except Err String :=
  match l.get? i with
  | some x => .ok x
  | none => .error .valueError

/-- `GateDrainShort.inject`: insert a 1 Ω resistor between the original gate
and drain nodes. -/
def GateDrainShort.inject (f : GateDrainShort) (n : NetList) : StepR GateDrainShort :=
  match Fault.inject_guard f.state with
  | .error e => ⟨some e, f, n⟩
  | .ok st =>
    let f1 := { f with state := st }
    match pyIndex f.fault_free_ports 1, pyIndex f.fault_free_ports 0 with
    | .ok p1, .ok p0 =>
      match n.insert_resistor p1 p0 (.num SHORT_RESISTANCE) with
      | .error e => ⟨some e, f1, n⟩
      | .ok (r, n1) => ⟨none, { f1 with short_resistor := some r }, n1⟩
    | _, _ => ⟨some .valueError, f1, n⟩

/-- `GateDrainShort.eject`. -/
def GateDrainShort.eject (f : GateDrainShort) (n : NetList) : StepR GateDrainShort :=
  match n.remove_component_opt f.short_resistor with
  | .error e => ⟨some e, f, n⟩
  | .ok n1 =>
    match Fault.eject_guard f.state with
    | .error e => ⟨some e, f, n1⟩
    | .ok st => ⟨none, { f with state := st }, n1⟩

/-- Instance state of `GateSourceShort`. -/
structure GateSourceShort where
  component : String
  state : FState
  short_resistor : Option String
  fault_free_ports : List String
deriving DecidableEq

/-- Constructor of `GateSourceShort`. -/
def GateSourceShort.make (n : NetList) (component : String) : Except Err GateSourceShort :=
  if ¬ strStartsWith component "M" then .error .faultDoesNotSupportComponent
  else
    match n.get_component_nodes component with
    | .ok ports => .ok ⟨component, .notInjected, none, ports⟩
    | .error e => .error e

/-- `GateSourceShort.inject`: insert a 1 Ω resistor between the original
gate and source nodes. -/
def GateSourceShort.inject (f : GateSourceShort) (n : NetList) : StepR GateSourceShort :=
  match Fault.inject_guard f.state with
  | .error e => ⟨some e, f, n⟩
  | .ok st =>
    let f1 := { f with state := st }
    match pyIndex f.fault_free_ports 1, pyIndex f.fault_free_ports 2 with
    | .ok p1, .ok p2 =>
      match n.insert_resistor p1 p2 (.num SHORT_RESISTANCE) with
      | .error e => ⟨some e, f1, n⟩
      | .ok (r, n1) => ⟨none, { f1 with short_resistor := some r }, n1⟩
    | _, _ => ⟨some .valueError, f1, n⟩

/-- `GateSourceShort.eject`. -/
def GateSourceShort.eject (f : GateSourceShort) (n : NetList) : StepR GateSourceShort :=
  match n.remove_component_opt f.short_resistor with
  | .error e => ⟨some e, f, n⟩
  | .ok n1 =>
    match Fault.eject_guard f.state with
    | .error e => ⟨some e, f, n1⟩
    | .ok st => ⟨none, { f with state := st }, n1⟩

/-- Instance state of `DrainSourceShort`. -/
structure DrainSourceShort where
  component : String
  state : FState
  short_resistor : Option String
  fault_free_ports : List String
deriving DecidableEq

/-- Constructor of `DrainSourceShort`. -/
def DrainSourceShort.make (n : NetList) (component : String) : Except Err DrainSourceShort :=
  if ¬ strStartsWith component "M" then .error .faultDoesNotSupportComponent
  else
    match n.get_component_nodes component with
    | .ok ports => .ok ⟨component, .notInjected, none, ports⟩
    | .error e => .error e

/-- `DrainSourceShort.inject`: insert a 1 Ω resistor between the original
drain and source nodes. -/
def DrainSourceShort.inject (f : DrainSourceShort) (n : NetList) : StepR DrainSourceShort :=
  match Fault.inject_guard f.state with
  | .error e => ⟨some e, f, n⟩
  | .ok st =>
    let f1 := { f with state := st }
    match pyIndex f.fault_free_ports 0, pyIndex f.fault_free_ports 2 with
    | .ok p0, .ok p2 =>
      match n.insert_resistor p0 p2 (.num SHORT_RESISTANCE) with
      | .error e => ⟨some e, f1, n⟩
      | .ok (r, n1) => ⟨none, { f1 with short_resistor := some r }, n1⟩
    | _, _ => ⟨some .valueError, f1, n⟩

/-- `DrainSourceShort.eject`. -/
def DrainSourceShort.eject (f : DrainSourceShort) (n : NetList) : StepR DrainSourceShort :=
  match n.remove_component_opt f.short_resistor with
  | .error e => ⟨some e, f, n⟩
  | .ok n1 =>
    match Fault.eject_guard f.state with
    | .error e => ⟨some e, f, n1⟩
    | .ok st => ⟨none, { f with state := st }, n1⟩

/-- Instance state of `ResistorOpen`. -/
structure ResistorOpen where
  component : String
  state : FState
  fault_free_value : SpiceVal
deriving DecidableEq

/-- Constructor of `ResistorOpen`: requires an `R` reference and captures
the fault-free value snapshot. -/
def ResistorOpen.make (n : NetList) (component : String) : Except Err ResistorOpen :=
  if ¬ strStartsWith component "R" then .error .faultDoesNotSupportComponent
  else
    match n.get_component_value component with
    | .ok v => .ok ⟨component, .notInjected, v⟩
    | .error e => .error e

/-- `ResistorOpen.inject`: overwrite the target's value with 1e11 Ω. -/
def ResistorOpen.inject (f : ResistorOpen) (n : NetList) : StepR ResistorOpen :=
  match Fault.inject_guard f.state with
  | .error e => ⟨some e, f, n⟩
  | .ok st =>
    let f1 := { f with state := st }
    match n.set_component_value f.component (.num OPEN_RESISTANCE) with
    | .error e => ⟨some e, f1, n⟩
    | .ok n1 => ⟨none, f1, n1⟩

/-- `ResistorOpen.eject`: restore the snapshot value, then (only at the
end) the base transition. -/
def ResistorOpen.eject (f : ResistorOpen) (n : NetList) : StepR ResistorOpen :=
  match n.set_component_value f.component f.fault_free_value with
  | .error e => ⟨some e, f, n⟩
  | .ok n1 =>
    match Fault.eject_guard f.state with
    | .error e => ⟨some e, f, n1⟩
    | .ok st => ⟨none, { f with state := st }, n1⟩

/-- Instance state of `ResistorShort`. -/
structure ResistorShort where
  component : String
  state : FState
  fault_free_value : SpiceVal
deriving DecidableEq

/-- Constructor of `ResistorShort`. -/
def ResistorShort.make (n : NetList) (component : String) : Except Err ResistorShort :=
  if ¬ strStartsWith component "R" then .error .faultDoesNotSupportComponent
  else
    match n.get_component_value component with
    | .ok v => .ok ⟨component, .notInjected, v⟩
    | .error e => .error e

/-- `ResistorShort.inject`: overwrite the target's value with 1 Ω. -/
def ResistorShort.inject (f : ResistorShort) (n : NetList) : StepR ResistorShort :=
  match Fault.inject_guard f.state with
  | .error e => ⟨some e, f, n⟩
  | .ok st =>
    let f1 := { f with state := st }
    match n.set_component_value f.component (.num SHORT_RESISTANCE) with
    | .error e => ⟨some e, f1, n⟩
    | .ok n1 => ⟨none, f1, n1⟩

/-- `ResistorShort.eject`. -/
def ResistorShort.eject (f : ResistorShort) (n : NetList) : StepR ResistorShort :=
  match n.set_component_value f.component f.fault_free_value with
  | .error e => ⟨some e, f, n⟩
  | .ok n1 =>
    match Fault.eject_guard f.state with
    | .error e => ⟨some e, f, n1⟩
    | .ok st => ⟨none, { f with state := st }, n1⟩

/-- Instance state of `CapacitorShort`. -/
structure CapacitorShort where
  component : String
  state : FState
  short_resistor : Option String
  fault_free_ports : List String
deriving DecidableEq

/-- Constructor of `CapacitorShort`: requires a `C` reference. -/
def CapacitorShort.make (n : NetList) (component : String) : Except Err CapacitorShort :=
  if ¬ strStartsWith component "C" then .error .faultDoesNotSupportComponent
  else
    match n.get_component_nodes component with
    | .ok ports => .ok ⟨component, .notInjected, none, ports⟩
    | .error e => .error e

/-- `CapacitorShort.inject`: insert a 1 Ω resistor between the capacitor's
two terminals. -/
def CapacitorShort.inject (f : CapacitorShort) (n : NetList) : StepR CapacitorShort :=
  match Fault.inject_guard f.state with
  | .error e => ⟨some e, f, n⟩
  | .ok st =>
    let f1 := { f with state := st }
    match pyIndex f.fault_free_ports 0, pyIndex f.fault_free_ports 1 with
    | .ok p0, .ok p1 =>
      match n.insert_resistor p0 p1 (.num SHORT_RESISTANCE) with
      | .error e => ⟨some e, f1, n⟩
      | .ok (r, n1) => ⟨none, { f1 with short_resistor := some r }, n1⟩
    | _, _ => ⟨some .valueError, f1, n⟩

/-- `CapacitorShort.eject`. -/
def CapacitorShort.eject (f : CapacitorShort) (n : NetList) : StepR CapacitorShort :=
  match n.remove_component_opt f.short_resistor with
  | .error e => ⟨some e, f, n⟩
  | .ok n1 =>
    match Fault.eject_guard f.state with
    | .error e => ⟨some e, f, n1⟩
    | .ok st => ⟨none, { f with state := st }, n1⟩

/-- Lifecycle states of `TestUtility` (`test_utilities.py`). -/
inductive UState where
  | notInjected
  | injected
  | active
deriving DecidableEq

/-- `NMOS_MODEL` constant. -/
def NMOS_MODEL : String := "BSS123"

/-- `PMOS_MODEL` constant. -/
def PMOS_MODEL : String := "BSS84"

/-- `INJECTION_TIMING` constant (delay, rise, fall, duration). -/
def INJECTION_TIMING : String := "10n 10n 10n 1u"

/-- `TRIGGER_TIME` = 10e-9 seconds. -/
def TRIGGER_TIME : ℚ := mkRat 1 100000000

/-- Rendering of a Python float into an instruction string; the precise
text is irrelevant to every claim (directives are compared only by their
fixed prefixes). -/
def ratToStr (q : ℚ) : String := reprStr q

/-- Base `TestUtility.inject` transition. -/
def TestUtility.inject_guard (st : UState) : Except Err UState :=
  if st ≠ UState.notInjected then .error .alreadyInjected else .ok .injected

/-- Base `TestUtility.activate` transition. -/
def TestUtility.activate_guard (st : UState) : Except Err UState :=
  if st = UState.notInjected then .error .notInjected
  else if st = UState.active then .error .alreadyActive
  else .ok .active

/-- Base `TestUtility.deactivate` transition. -/
def TestUtility.deactivate_guard (st : UState) : Except Err UState :=
  if st = UState.notInjected then .error .notInjected
  else if st = UState.injected then .error .notActive
  else .ok .injected

/-- Base `TestUtility.eject`: guard, implicit (dynamically dispatched)
deactivate when ACTIVE, then move to NOT_INJECTED. -/
def TestUtility.eject_base {σ : Type} (getSt : σ → UState) (setSt : σ → UState → σ)
    (deactivate : σ → NetList → StepR σ) (self : σ) (n : NetList) : StepR σ :=
  if getSt self = UState.notInjected then ⟨some .notInjected, self, n⟩
  else if getSt self = UState.active then
    let r := deactivate self n
    match r.err with
    | some e => ⟨some e, r.obj, r.net⟩
    | none => ⟨none, setSt r.obj .notInjected, r.net⟩
  else ⟨none, setSt self .notInjected, n⟩

/-- Simulation log (external collaborator), modelled from the spec as an
indexable collection of named scalar-measurement lists; a measurement that
never triggered has no entries. -/
def SimLog : Type := List (String × List ℚ)

/-- Operating-point trace (external collaborator), modelled from the spec as
initial values indexed by trace name such as `V(node)`. -/
def OpTrace : Type := List (String × ℚ)

/-- Lookup of `log[name.lower()]`; the log's keys are stored lowercased, as
the simulator writes them. -/
def simLogLookup (log : SimLog) (name : String) : List ℚ :=
  match log.find? (fun p => p.1 == strLower name) with
  | some p => p.2
  | none => []

/-- `MeasureObserver._get_measurement`: first entry of the named measurement,
or the default when the measurement never produced one (`IndexError`). -/
def getMeasurement (log : SimLog) (name : String) (default : ℚ) : ℚ :=
  match (simLogLookup log name).head? with
  | some x => x
  | none => default

/-- `raw_op.get_trace(name).data[0]`: initial value of a named trace of the
operating-point result; a missing trace is an error. -/
def opTraceInitial (rop : OpTrace) (name : String) : Except Err ℚ :=
  match rop.find? (fun p => p.1 == name) with
  | some p => .ok p.2
  | none => .error .traceNotFound

/-- `MeasureObserver.RESULT_NAME_POSTFIX` constant. -/
def RESULT_NAME_TAG : String := "_OBSERVE"

/-- `MeasureObserver.LOW_VALUE`. -/
def LOW_VALUE : Int := -1

/-- `MeasureObserver.UNCERTAIN_VALUE`. -/
def UNCERTAIN_VALUE : Int := 0

/-- `MeasureObserver.HIGH_VALUE`. -/
def HIGH_VALUE : Int := 1

/-- Instance state of `MeasureObserver`. -/
structure MeasureObserver where
  state : UState
  meas_node : String
  low_threshold : ℚ
  high_threshold : ℚ
  expectation : Option (Int × ℚ)
deriving DecidableEq

/-- Constructor of `MeasureObserver`. -/
def MeasureObserver.make (observer_node : String) (low_threshold high_threshold : ℚ) :
    MeasureObserver :=
  ⟨.notInjected, observer_node, low_threshold, high_threshold, none⟩

/-- `self.low_result_variable`. -/
def MeasureObserver.low_result_variable (m : MeasureObserver) : String :=
  m.meas_node ++ RESULT_NAME_TAG ++ "_LOW"

/-- `self.high_result_variable`. -/
def MeasureObserver.high_result_variable (m : MeasureObserver) : String :=
  m.meas_node ++ RESULT_NAME_TAG ++ "_HIGH"

/-- One `.meas TRAN` directive string of `MeasureObserver.activate`. -/
def measDirective (resultVar node : String) (threshold : ℚ) (edge : String) : String :=
  ".meas TRAN " ++ resultVar ++ " FIND V(" ++ node ++ ") WHEN V(" ++ node ++ ")=" ++
    ratToStr threshold ++ " " ++ edge ++ "=last TD=" ++ ratToStr TRIGGER_TIME

/-- `MeasureObserver.inject` is the base transition (no topology change). -/
def MeasureObserver.inject (m : MeasureObserver) (n : NetList) : StepR MeasureObserver :=
  match TestUtility.inject_guard m.state with
  | .error e => ⟨some e, m, n⟩
  | .ok st => ⟨none, { m with state := st }, n⟩

/-- `MeasureObserver.activate`: base transition, then insert the four
threshold-crossing `.meas` directives. -/
def MeasureObserver.activate (m : MeasureObserver) (n : NetList) : StepR MeasureObserver :=
  match TestUtility.activate_guard m.state with
  | .error e => ⟨some e, m, n⟩
  | .ok st =>
    let m1 := { m with state := st }
    let n1 := n.add_instructions
      [measDirective (m.low_result_variable ++ "_FALL") m.meas_node m.low_threshold "FALL",
       measDirective (m.low_result_variable ++ "_RISE") m.meas_node m.low_threshold "RISE",
       measDirective (m.high_result_variable ++ "_FALL") m.meas_node m.high_threshold "FALL",
       measDirective (m.high_result_variable ++ "_RISE") m.meas_node m.high_threshold "RISE"]
    ⟨none, m1, n1⟩

/-- `MeasureObserver.deactivate`: base transition, then remove every
directive matching `\.meas TRAN <node>_OBSERVE.*`. -/
def MeasureObserver.deactivate (m : MeasureObserver) (n : NetList) : StepR MeasureObserver :=
  match TestUtility.deactivate_guard m.state with
  | .error e => ⟨some e, m, n⟩
  | .ok st =>
    ⟨none, { m with state := st },
      n.remove_instructions_matching (".meas TRAN " ++ m.meas_node ++ RESULT_NAME_TAG)⟩

/-- `MeasureObserver.eject` is the base eject (not overridden). -/
def MeasureObserver.eject (m : MeasureObserver) (n : NetList) : StepR MeasureObserver :=
  TestUtility.eject_base (fun m => m.state) (fun m st => { m with state := st })
    MeasureObserver.deactivate m n

/-- `MeasureObserver._observe`: the four threshold-crossing timestamps (each
defaulting to −1), then the fixed-priority classification. -/
def MeasureObserver.observeInternal (m : MeasureObserver) (log : SimLog)
    (raw_op : Option OpTrace) : Except Err (Int × ℚ) :=
  let low_fall := getMeasurement log (m.low_result_variable ++ "_FALL_at") (-1)
  let low_rise := getMeasurement log (m.low_result_variable ++ "_RISE_at") (-1)
  let high_fall := getMeasurement log (m.high_result_variable ++ "_FALL_at") (-1)
  let high_rise := getMeasurement log (m.high_result_variable ++ "_RISE_at") (-1)
  if low_fall > low_rise then .ok (LOW_VALUE, ratSub low_fall TRIGGER_TIME)
  else if high_rise > high_fall then .ok (HIGH_VALUE, ratSub high_rise TRIGGER_TIME)
  else
    match raw_op with
    | some rop =>
      match opTraceInitial rop ("V(" ++ m.meas_node ++ ")") with
      | .error e => .error e
      | .ok initial_value =>
        if initial_value < m.low_threshold then .ok (LOW_VALUE, -1)
        else if initial_value > m.high_threshold then .ok (HIGH_VALUE, -1)
        else .ok (UNCERTAIN_VALUE, -1)
    | none => .ok (UNCERTAIN_VALUE, -1)

/-- Result of `MeasureObserver.observe_expected`: the optional raised error,
the observer afterwards, and whether the PANIC line was printed. -/
structure ObserveExpectedR where
  err : Option Err
  obj : MeasureObserver
  panicLogged : Bool
deriving DecidableEq

/-- `MeasureObserver.observe_expected`: store the observation as the
expectation; an UNCERTAIN expectation is only reported on the log. -/
def MeasureObserver.observe_expected (m : MeasureObserver) (log : SimLog)
    (raw_op : Option OpTrace) : ObserveExpectedR :=
  match m.observeInternal log raw_op with
  | .error e => ⟨some e, m, false⟩
  | .ok o => ⟨none, { m with expectation := some o }, o.1 == UNCERTAIN_VALUE⟩

/-- `MeasureObserver.observe`: fails with `ObserverExpectationUnknown` before
`observe_expected`; otherwise compares the observation with the
expectation. -/
def MeasureObserver.observe (m : MeasureObserver) (log : SimLog)
    (raw_op : Option OpTrace) : Except Err (Bool × List ℚ) :=
  match m.expectation with
  | none => .error .observerExpectationUnknown
  | some exp =>
    match m.observeInternal log raw_op with
    | .error e => .error e
    | .ok o => .ok (o.1 == exp.1, [ratSub o.2 exp.2])

/-- `InverterObserver.LOGIC_MARGIN` = 0.1 V. -/
def LOGIC_MARGIN : ℚ := mkRat 1 10

/-- `InverterObserver.NODE_POSTFIX` constant. -/
def INVERTER_NODE_TAG : String := "_INVERTER"

/-- Instance state of `InverterObserver` (superclass state embedded). -/
structure InverterObserver where
  meas : MeasureObserver
  observer_node : String
  pmos : Option String
  nmos : Option String
deriving DecidableEq

/-- Constructor of `InverterObserver`: observes `<node>_INVERTER` with
thresholds VSS + 0.1 and VDD − 0.1. -/
def InverterObserver.make (n : NetList) (observer_node : String) : InverterObserver :=
  { meas := MeasureObserver.make (observer_node ++ INVERTER_NODE_TAG)
      (ratAdd n.vss LOGIC_MARGIN) (ratSub n.vdd LOGIC_MARGIN),
    observer_node := observer_node, pmos := none, nmos := none }

/-- `InverterObserver.inject`: base transition, then insert the PMOS pull-up
and the NMOS pull-down of the probe inverter. -/
def InverterObserver.inject (o : InverterObserver) (n : NetList) : StepR InverterObserver :=
  match TestUtility.inject_guard o.meas.state with
  | .error e => ⟨some e, o, n⟩
  | .ok st =>
    let o1 := { o with meas := { o.meas with state := st } }
    match n.insert_fet (o.observer_node ++ INVERTER_NODE_TAG) o.observer_node
        n.supply_node PMOS_MODEL with
    | .error e => ⟨some e, o1, n⟩
    | .ok (p, n1) =>
      let o2 := { o1 with pmos := some p }
      match n1.insert_fet (o.observer_node ++ INVERTER_NODE_TAG) o.observer_node
          n.ground_node NMOS_MODEL with
      | .error e => ⟨some e, o2, n1⟩
      | .ok (q, n2) => ⟨none, { o2 with nmos := some q }, n2⟩

/-- `InverterObserver.activate` is the inherited `MeasureObserver.activate`. -/
def InverterObserver.activate (o : InverterObserver) (n : NetList) : StepR InverterObserver :=
  let r := o.meas.activate n
  ⟨r.err, { o with meas := r.obj }, r.net⟩

/-- `InverterObserver.deactivate` is the inherited
`MeasureObserver.deactivate`. -/
def InverterObserver.deactivate (o : InverterObserver) (n : NetList) : StepR InverterObserver :=
  let r := o.meas.deactivate n
  ⟨r.err, { o with meas := r.obj }, r.net⟩

/-- `InverterObserver.eject`: remove the two transistors, then the base
eject (whose implicit deactivate dispatches to the inherited
`MeasureObserver.deactivate`). -/
def InverterObserver.eject (o : InverterObserver) (n : NetList) : StepR InverterObserver :=
  match n.remove_component_opt o.pmos with
  | .error e => ⟨some e, o, n⟩
  | .ok n1 =>
    match n1.remove_component_opt o.nmos with
    | .error e => ⟨some e, o, n1⟩
    | .ok n2 =>
      TestUtility.eject_base (fun o => o.meas.state)
        (fun o st => { o with meas := { o.meas with state := st } })
        InverterObserver.deactivate o n2

/-- `InjectionPoint.NMOS_GATE_NODE_POSTFIX` constant. -/
def NMOS_GATE_NODE_TAG : String := "_INJ_TRIG_DOWN"

/-- `InjectionPoint.PMOS_GATE_NODE_POSTFIX` constant. -/
def PMOS_GATE_NODE_TAG : String := "_INJ_TRIG_UP"

/-- Instance state of `InjectionPoint`. -/
structure InjectionPoint where
  state : UState
  node : String
  pull_up : Bool
  fet : Option String
  source : Option String
deriving DecidableEq

/-- Constructor of `InjectionPoint`. -/
def InjectionPoint.make (node : String) (pull_up : Bool) : InjectionPoint :=
  ⟨.notInjected, node, pull_up, none, none⟩

/-- `InjectionPoint.inject`: base transition, then insert the gate-driving
source and the pull transistor (PMOS to supply for pull-up, NMOS to ground
for pull-down). -/
def InjectionPoint.inject (ip : InjectionPoint) (n : NetList) : StepR InjectionPoint :=
  match TestUtility.inject_guard ip.state with
  | .error e => ⟨some e, ip, n⟩
  | .ok st =>
    let ip1 := { ip with state := st }
    if ip.pull_up then
      match n.insert_source (ip.node ++ PMOS_GATE_NODE_TAG) n.ground_node (.num n.vdd) with
      | .error e => ⟨some e, ip1, n⟩
      | .ok (src, n1) =>
        let ip2 := { ip1 with source := some src }
        match n1.insert_fet ip.node (ip.node ++ PMOS_GATE_NODE_TAG) n.supply_node PMOS_MODEL with
        | .error e => ⟨some e, ip2, n1⟩
        | .ok (f, n2) => ⟨none, { ip2 with fet := some f }, n2⟩
    else
      match n.insert_source (ip.node ++ NMOS_GATE_NODE_TAG) n.ground_node (.num n.vss) with
      | .error e => ⟨some e, ip1, n⟩
      | .ok (src, n1) =>
        let ip2 := { ip1 with source := some src }
        match n1.insert_fet ip.node (ip.node ++ NMOS_GATE_NODE_TAG) n.ground_node NMOS_MODEL with
        | .error e => ⟨some e, ip2, n1⟩
        | .ok (f, n2) => ⟨none, { ip2 with fet := some f }, n2⟩

/-- Python `set_component_value` applied to an attribute that may still be
`None`. -/
def NetList.set_component_value_opt (n : NetList) (ref : Option String) (v : SpiceVal) :
    Except Err NetList :=
  match ref with
  | none => .error .componentNotFound
  | some r => n.set_component_value r v

/-- `InjectionPoint.activate`: base transition, then switch the source to
the pulse waveform. -/
def InjectionPoint.activate (ip : InjectionPoint) (n : NetList) : StepR InjectionPoint :=
  match TestUtility.activate_guard ip.state with
  | .error e => ⟨some e, ip, n⟩
  | .ok st =>
    let ip1 := { ip with state := st }
    let pulse :=
      if ip.pull_up then
        "PULSE(" ++ ratToStr n.vdd ++ " " ++ ratToStr n.vss ++ " " ++ INJECTION_TIMING ++ ")"
      else
        "PULSE(" ++ ratToStr n.vss ++ " " ++ ratToStr n.vdd ++ " " ++ INJECTION_TIMING ++ ")"
    match n.set_component_value_opt ip.source (.str pulse) with
    | .error e => ⟨some e, ip1, n⟩
    | .ok n1 => ⟨none, ip1, n1⟩

/-- `InjectionPoint.deactivate`: base transition, then revert the source to
the static rail value. -/
def InjectionPoint.deactivate (ip : InjectionPoint) (n : NetList) : StepR InjectionPoint :=
  match TestUtility.deactivate_guard ip.state with
  | .error e => ⟨some e, ip, n⟩
  | .ok st =>
    let ip1 := { ip with state := st }
    let v : SpiceVal := if ip.pull_up then .num n.vdd else .num n.vss
    match n.set_component_value_opt ip.source v with
    | .error e => ⟨some e, ip1, n⟩
    | .ok n1 => ⟨none, ip1, n1⟩

/-- `InjectionPoint.eject`: remove the transistor and the source, then the
base eject (whose implicit deactivate dispatches to
`InjectionPoint.deactivate`). -/
def InjectionPoint.eject (ip : InjectionPoint) (n : NetList) : StepR InjectionPoint :=
  match n.remove_component_opt ip.fet with
  | .error e => ⟨some e, ip, n⟩
  | .ok n1 =>
    match n1.remove_component_opt ip.source with
    | .error e => ⟨some e, ip, n1⟩
    | .ok n2 =>
      TestUtility.eject_base (fun ip => ip.state) (fun ip st => { ip with state := st })
        InjectionPoint.deactivate ip n2

/-- Construct a `DrainOpenFault` on the current netlist, inject it, then
immediately eject it; the first raised error (if any) and the final
netlist. -/
def drainOpenRoundTrip (n : NetList) (c : String) : Option Err × NetList :=
  match DrainOpenFault.make n c with
  | .error e => (some e, n)
  | .ok f =>
    let r1 := f.inject n
    match r1.err with
    | some e => (some e, r1.net)
    | none =>
      let r2 := r1.obj.eject r1.net
      (r2.err, r2.net)

/-- Round trip of `SourceOpenFault`. -/
def sourceOpenRoundTrip (n : NetList) (c : String) : Option Err × NetList :=
  match SourceOpenFault.make n c with
  | .error e => (some e, n)
  | .ok f =>
    let r1 := f.inject n
    match r1.err with
    | some e => (some e, r1.net)
    | none =>
      let r2 := r1.obj.eject r1.net
      (r2.err, r2.net)

/-- Round trip of `GateOpenFault`. -/
def gateOpenRoundTrip (n : NetList) (c : String) : Option Err × NetList :=
  match GateOpenFault.make n c with
  | .error e => (some e, n)
  | .ok f =>
    let r1 := f.inject n
    match r1.err with
    | some e => (some e, r1.net)
    | none =>
      let r2 := r1.obj.eject r1.net
      (r2.err, r2.net)

/-- Round trip of `GateDrainShort`. -/
def gateDrainShortRoundTrip (n : NetList) (c : String) : Option Err × NetList :=
  match GateDrainShort.make n c with
  | .error e => (some e, n)
  | .ok f =>
    let r1 := f.inject n
    match r1.err with
    | some e => (some e, r1.net)
    | none =>
      let r2 := r1.obj.eject r1.net
      (r2.err, r2.net)

/-- Round trip of `GateSourceShort`. -/
def gateSourceShortRoundTrip (n : NetList) (c : String) : Option Err × NetList :=
  match GateSourceShort.make n c with
  | .error e => (some e, n)
  | .ok f =>
    let r1 := f.inject n
    match r1.err with
    | some e => (some e, r1.net)
    | none =>
      let r2 := r1.obj.eject r1.net
      (r2.err, r2.net)

/-- Round trip of `DrainSourceShort`. -/
def drainSourceShortRoundTrip (n : NetList) (c : String) : Option Err × NetList :=
  match DrainSourceShort.make n c with
  | .error e => (some e, n)
  | .ok f =>
    let r1 := f.inject n
    match r1.err with
    | some e => (some e, r1.net)
    | none =>
      let r2 := r1.obj.eject r1.net
      (r2.err, r2.net)

/-- Round trip of `ResistorOpen`. -/
def resistorOpenRoundTrip (n : NetList) (c : String) : Option Err × NetList :=
  match ResistorOpen.make n c with
  | .error e => (some e, n)
  | .ok f =>
    let r1 := f.inject n
    match r1.err with
    | some e => (some e, r1.net)
    | none =>
      let r2 := r1.obj.eject r1.net
      (r2.err, r2.net)

/-- Round trip of `ResistorShort`. -/
def resistorShortRoundTrip (n : NetList) (c : String) : Option Err × NetList :=
  match ResistorShort.make n c with
  | .error e => (some e, n)
  | .ok f =>
    let r1 := f.inject n
    match r1.err with
    | some e => (some e, r1.net)
    | none =>
      let r2 := r1.obj.eject r1.net
      (r2.err, r2.net)

/-- Round trip of `CapacitorShort`. -/
def capacitorShortRoundTrip (n : NetList) (c : String) : Option Err × NetList :=
  match CapacitorShort.make n c with
  | .error e => (some e, n)
  | .ok f =>
    let r1 := f.inject n
    match r1.err with
    | some e => (some e, r1.net)
    | none =>
      let r2 := r1.obj.eject r1.net
      (r2.err, r2.net)

/-- Round trip of `MeasureObserver` as a utility:
inject, activate, deactivate, eject. -/
def measureObserverRoundTrip (n : NetList) (node : String) (lo hi : ℚ) :
    Option Err × NetList :=
  let m := MeasureObserver.make node lo hi
  let r1 := m.inject n
  match r1.err with
  | some e => (some e, r1.net)
  | none =>
    let r2 := r1.obj.activate r1.net
    match r2.err with
    | some e => (some e, r2.net)
    | none =>
      let r3 := r2.obj.deactivate r2.net
      match r3.err with
      | some e => (some e, r3.net)
      | none =>
        let r4 := r3.obj.eject r3.net
        (r4.err, r4.net)

/-- Round trip of `InverterObserver`:
inject, activate, deactivate, eject. -/
def inverterObserverRoundTrip (n : NetList) (node : String) : Option Err × NetList :=
  let o := InverterObserver.make n node
  let r1 := o.inject n
  match r1.err with
  | some e => (some e, r1.net)
  | none =>
    let r2 := r1.obj.activate r1.net
    match r2.err with
    | some e => (some e, r2.net)
    | none =>
      let r3 := r2.obj.deactivate r2.net
      match r3.err with
      | some e => (some e, r3.net)
      | none =>
        let r4 := r3.obj.eject r3.net
        (r4.err, r4.net)

/-- Round trip of `InjectionPoint`: inject, activate, deactivate, eject. -/
def injectionPointRoundTrip (n : NetList) (node : String) (pull_up : Bool) :
    Option Err × NetList :=
  let ip := InjectionPoint.make node pull_up
  let r1 := ip.inject n
  match r1.err with
  | some e => (some e, r1.net)
  | none =>
    let r2 := r1.obj.activate r1.net
    match r2.err with
    | some e => (some e, r2.net)
    | none =>
      let r3 := r2.obj.deactivate r2.net
      match r3.err with
      | some e => (some e, r3.net)
      | none =>
        let r4 := r3.obj.eject r3.net
        (r4.err, r4.net)

/-- Inject an `InjectionPoint`, activate it, and call `eject` directly from
the ACTIVE state. -/
def injectionPointEjectFromActive (n : NetList) (node : String) (pull_up : Bool) :
    StepR InjectionPoint :=
  let ip := InjectionPoint.make node pull_up
  let r1 := ip.inject n
  match r1.err with
  | some e => ⟨some e, r1.obj, r1.net⟩
  | none =>
    let r2 := r1.obj.activate r1.net
    match r2.err with
    | some e => ⟨some e, r2.obj, r2.net⟩
    | none => r2.obj.eject r2.net

/-- Inject an `InverterObserver`, activate it, and call `eject` directly
from the ACTIVE state. -/
def inverterObserverEjectFromActive (n : NetList) (node : String) : StepR InverterObserver :=
  let o := InverterObserver.make n node
  let r1 := o.inject n
  match r1.err with
  | some e => ⟨some e, r1.obj, r1.net⟩
  | none =>
    let r2 := r1.obj.activate r1.net
    match r2.err with
    | some e => ⟨some e, r2.obj, r2.net⟩
    | none => r2.obj.eject r2.net

/-- Repeatedly call `insert_fet`, collecting the allocated references in
order. -/
def insertFets (d g s model : String) : Nat → NetList → Except Err (List String × NetList)
  | 0, n => .ok ([], n)
  | Nat.succ k, n =>
    match n.insert_fet d g s model with
    | .error e => .error e
    | .ok (r, n1) =>
      match insertFets d g s model k n1 with
      | .error e => .error e
      | .ok (rs, n2) => .ok (r :: rs, n2)

/-- Small concrete netlist used by the witnesses: one transistor `M1`, one
resistor `R1`, one capacitor `C1`, fresh allocator counters. -/
def exampleNet : NetList :=
  { components :=
      [⟨"M1", ["d", "g", "s", "b"], .str "BSS123"⟩,
       ⟨"R1", ["a", "b"], .num 100⟩,
       ⟨"C1", ["x", "y"], .num 1⟩],
    instructions := [],
    ground_node := "0",
    supply_node := "VDD",
    vdd := mkRat 33 10,
    vss := 0,
    fetIdx := -1,
    sourceIdx := -1,
    resistorIdx := -1 }

/-- Netlist whose transistor references have a gap (`M1` and `M3` exist but
`M2` does not); exposes the allocator's reuse of a live reference. -/
def gapNet : NetList :=
  { components :=
      [⟨"M1", ["d", "g", "s", "b"], .str "BSS123"⟩,
       ⟨"M3", ["d3", "g3", "s3", "b3"], .str "BSS123"⟩],
    instructions := [],
    ground_node := "0",
    supply_node := "VDD",
    vdd := mkRat 33 10,
    vss := 0,
    fetIdx := -1,
    sourceIdx := -1,
    resistorIdx := -1 }

/-- `gapNet` after one `insert_fet`: the scan allocated `M2` and cached
index 2. -/
def gapNet1 : NetList :=
  { components :=
      [⟨"M1", ["d", "g", "s", "b"], .str "BSS123"⟩,
       ⟨"M3", ["d3", "g3", "s3", "b3"], .str "BSS123"⟩,
       ⟨"M2", ["x", "y", "z", "z"], .str "BSS123"⟩],
    instructions := [],
    ground_node := "0",
    supply_node := "VDD",
    vdd := mkRat 33 10,
    vss := 0,
    fetIdx := 2,
    sourceIdx := -1,
    resistorIdx := -1 }

/-- Decidable equality for `Except` results, so that concrete runs can be
checked by evaluation. -/
def exceptDecEq {ε α : Type} [DecidableEq ε] [DecidableEq α] :
    (a b : Except ε α) → Decidable (a = b)
  | .ok a, .ok b => if h : a = b then isTrue (by rw [h]) else isFalse (by simp [h])
  | .ok _, .error _ => isFalse (by simp)
  | .error _, .ok _ => isFalse (by simp)
  | .error e, .error f => if h : e = f then isTrue (by rw [h]) else isFalse (by simp [h])

instance {ε α : Type} [DecidableEq ε] [DecidableEq α] : DecidableEq (Except ε α) :=
  exceptDecEq

/-- Numeric value of a least-significant-first decimal digit list; inverse
of `natDigitsRev` (used to prove that decimal rendering is injective). -/
def ofDigitsRev : List Nat → Nat
  | [] => 0
  | d :: ds => d + 10 * ofDigitsRev ds

/-- Value update applied by `set_component_value` to a single component:
the component named `s` gets value `v`, every other component is kept. -/
def setValAt (s : String) (v : SpiceVal) (c : Component) : Component :=
  if c.reference = s then { c with value := v } else c

/-- Netlist with an empty component store and fresh allocator counters. -/
def emptyNet : NetList :=
  { components := [],
    instructions := [],
    ground_node := "0",
    supply_node := "VDD",
    vdd := mkRat 33 10,
    vss := 0,
    fetIdx := -1,
    sourceIdx := -1,
    resistorIdx := -1 }

theorem ratSub_eq (a b : ℚ) : ratSub a b = a - b := by
  rw [ratSub, Rat.sub_def, Rat.mkRat_def, dif_neg (by positivity)]

theorem ratAdd_eq (a b : ℚ) : ratAdd a b = a + b := by
  rw [ratAdd, Rat.add_def, Rat.mkRat_def, dif_neg (by positivity)]

theorem natDigitsRev_lt : ∀ fuel n d, d ∈ natDigitsRev fuel n → d < 10 := by
  intro fuel
  induction fuel with
  | zero => intro n d h; simp [natDigitsRev] at h
  | succ f ih =>
    intro n d h
    simp only [natDigitsRev] at h
    split at h
    · simp at h
    · rcases List.mem_cons.mp h with h1 | h2
      · subst h1; exact Nat.mod_lt _ (by norm_num)
      · exact ih _ _ h2

theorem ofDigitsRev_natDigitsRev : ∀ fuel n, n ≤ fuel → ofDigitsRev (natDigitsRev fuel n) = n := by
  intro fuel
  induction fuel with
  | zero =>
    intro n h
    have : n = 0 := by omega
    subst this
    simp [natDigitsRev, ofDigitsRev]
  | succ f ih =>
    intro n h
    simp only [natDigitsRev]
    split
    · simp [ofDigitsRev]; omega
    · rename_i hn
      have hdivle : n / 10 ≤ f := by
        have := Nat.div_lt_self (Nat.pos_of_ne_zero hn) (by norm_num : (1:Nat) < 10)
        omega
      simp only [ofDigitsRev, ih (n / 10) hdivle]
      omega

theorem digitCharInj : ∀ a, a < 10 → ∀ b, b < 10 →
    Char.ofNat (48 + a) = Char.ofNat (48 + b) → a = b := by decide

theorem mapDigitCharInj : ∀ l1 l2 : List Nat, (∀ d ∈ l1, d < 10) → (∀ d ∈ l2, d < 10) →
    l1.map (fun d => Char.ofNat (48 + d)) = l2.map (fun d => Char.ofNat (48 + d)) →
    l1 = l2 := by
  intro l1
  induction l1 with
  | nil =>
    intro l2 _ _ h
    cases l2 with
    | nil => rfl
    | cons b u => simp at h
  | cons a t ih =>
    intro l2 h1 h2 h
    cases l2 with
    | nil => simp at h
    | cons b u =>
      simp only [List.map_cons, List.cons.injEq] at h
      have hab : a = b :=
        digitCharInj a (h1 a (by simp)) b (h2 b (by simp)) h.1
      subst hab
      rw [ih u (fun d hd => h1 d (by simp [hd])) (fun d hd => h2 d (by simp [hd])) h.2]

theorem natRepr_inj : ∀ m n : Nat, natRepr m = natRepr n → m = n := by
  have key : ∀ k : Nat, k ≠ 0 →
      (natRepr k).data = ((natDigitsRev k k).reverse).map (fun d => Char.ofNat (48 + d)) := by
    intro k hk
    simp [natRepr, hk]
  have digOf : ∀ k : Nat, k ≠ 0 →
      ∀ l : List Nat, (∀ d ∈ l, d < 10) →
      (natRepr k).data = l.map (fun d => Char.ofNat (48 + d)) →
      ofDigitsRev l.reverse = k := by
    intro k hk l hl h
    rw [key k hk] at h
    have := mapDigitCharInj _ _
      (fun d hd => natDigitsRev_lt k k d (List.mem_reverse.mp hd)) hl h
    rw [← this, List.reverse_reverse, ofDigitsRev_natDigitsRev k k le_rfl]
  intro m n h
  by_cases hm : m = 0 <;> by_cases hn : n = 0
  · rw [hm, hn]
  · exfalso
    have h0 : (natRepr n).data = [Nat.zero].map (fun d => Char.ofNat (48 + d)) := by
      rw [← h, hm]; rfl
    have := digOf n hn [Nat.zero] (by simp) h0
    simp [ofDigitsRev] at this
    exact hn this.symm
  · exfalso
    have h0 : (natRepr m).data = [Nat.zero].map (fun d => Char.ofNat (48 + d)) := by
      rw [h, hn]; rfl
    have := digOf m hm [Nat.zero] (by simp) h0
    simp [ofDigitsRev] at this
    exact hm this.symm
  · have hmn := digOf m hm (natDigitsRev n n).reverse
      (fun d hd => natDigitsRev_lt n n d (List.mem_reverse.mp hd))
      (by rw [h]; exact key n hn)
    have hnn := digOf n hn (natDigitsRev n n).reverse
      (fun d hd => natDigitsRev_lt n n d (List.mem_reverse.mp hd)) (key n hn)
    rw [← hmn, hnn]

theorem refName_inj (pre : String) : ∀ i j, refName pre i = refName pre j → i = j := by
  intro i j h
  apply natRepr_inj
  apply String.ext
  have hd : (refName pre i).data = (refName pre j).data := by rw [h]
  simpa only [refName, String.data_append] using
    List.append_cancel_left (by simpa only [refName, String.data_append] using hd)

theorem scanFree_spec (pre : String) (refs : List String) :
    ∀ fuel i, (∃ k, k < fuel ∧ refName pre (i + k) ∉ refs) →
      refName pre (scanFree pre refs i fuel) ∉ refs ∧
      i ≤ scanFree pre refs i fuel ∧
      ∀ j, i ≤ j → j < scanFree pre refs i fuel → refName pre j ∈ refs := by
  intro fuel
  induction fuel with
  | zero =>
    intro i h
    obtain ⟨k, hk, _⟩ := h
    omega
  | succ f ih =>
    intro i h
    obtain ⟨k, hk, hfree⟩ := h
    simp only [scanFree]
    by_cases hmem : refName pre i ∈ refs
    · rw [if_pos hmem]
      have hk0 : k ≠ 0 := by
        rintro rfl
        exact hfree hmem
      obtain ⟨k', rfl⟩ := Nat.exists_eq_succ_of_ne_zero hk0
      have hex : ∃ k, k < f ∧ refName pre (i + 1 + k) ∉ refs := by
        refine ⟨k', by omega, ?_⟩
        have : i + 1 + k' = i + (k' + 1) := by omega
        rw [this]
        exact hfree
      obtain ⟨h1, h2, h3⟩ := ih (i + 1) hex
      refine ⟨h1, by omega, ?_⟩
      intro j hij hlt
      by_cases hji : j = i
      · rw [hji]; exact hmem
      · exact h3 j (by omega) hlt
    · rw [if_neg hmem]
      exact ⟨hmem, le_rfl, fun j h1 h2 => absurd (lt_of_le_of_lt h1 h2) (lt_irrefl i)⟩

theorem exists_free_index (pre : String) (refs : List String) (i : Nat) :
    ∃ k, k < refs.length + 1 ∧ refName pre (i + k) ∉ refs := by
  by_contra hcon
  push_neg at hcon
  have hinj : Function.Injective (fun k : Nat => refName pre (i + k)) := by
    intro a b hab
    have := refName_inj pre _ _ hab
    omega
  have hnodup : ((List.range (refs.length + 1)).map (fun k => refName pre (i + k))).Nodup :=
    List.Nodup.map hinj (List.nodup_range _)
  have hsub : ((List.range (refs.length + 1)).map (fun k => refName pre (i + k))) ⊆ refs := by
    intro x hx
    obtain ⟨k, hk, rfl⟩ := List.mem_map.mp hx
    exact hcon k (List.mem_range.mp hk)
  have hle := (List.subperm_of_subset hnodup hsub).length_le
  simp at hle

theorem firstScan_spec (pre : String) (refs : List String) :
    refName pre (scanFree pre refs 1 (refs.length + 1)) ∉ refs ∧
    1 ≤ scanFree pre refs 1 (refs.length + 1) ∧
    ∀ j, 1 ≤ j → j < scanFree pre refs 1 (refs.length + 1) → refName pre j ∈ refs :=
  scanFree_spec pre refs (refs.length + 1) 1 (exists_free_index pre refs 1)

theorem component_eta (c : Component) : (⟨c.reference, c.ports, c.value⟩ : Component) = c := rfl

theorem get_component_some {n : NetList} {ref : String} {c : Component}
    (h : n.get_component ref = some c) : c ∈ n.components ∧ c.reference = ref := by
  refine ⟨List.mem_of_find?_eq_some h, ?_⟩
  have := List.find?_some h
  simpa using this

theorem refs_filter_not_mem (l : List Component) (ref : String) :
    ref ∉ (l.filter (fun c => c.reference ≠ ref)).map Component.reference := by
  intro h
  obtain ⟨c, hc, hcr⟩ := List.mem_map.mp h
  have hmf := List.mem_filter.mp hc
  simp only [decide_eq_true_eq] at hmf
  exact hmf.2 hcr

theorem filter_ne_of_not_mem (l : List Component) (ref : String)
    (h : ref ∉ l.map Component.reference) :
    l.filter (fun c => c.reference ≠ ref) = l := by
  rw [List.filter_eq_self]
  intro a ha
  simp only [decide_eq_true_eq]
  intro hr
  exact h (List.mem_map.mpr ⟨a, ha, hr⟩)

theorem find?_filter_ne_none (l : List Component) (ref : String) :
    (l.filter (fun c => c.reference ≠ ref)).find? (fun c => c.reference == ref) = none := by
  rw [List.find?_eq_none]
  intro x hx
  have hmf := List.mem_filter.mp hx
  simp only [decide_eq_true_eq] at hmf
  simpa using hmf.2

theorem find?_not_mem_refs_none (l : List Component) (ref : String)
    (h : ref ∉ l.map Component.reference) :
    l.find? (fun c => c.reference == ref) = none := by
  rw [List.find?_eq_none]
  intro x hx
  simp only [beq_iff_eq]
  intro heq
  exact h (List.mem_map.mpr ⟨x, hx, heq⟩)

theorem filter_ne_perm (l : List Component) (hnd : (l.map Component.reference).Nodup)
    (c : Component) (hc : c ∈ l) :
    List.Perm l (c :: l.filter (fun x => x.reference ≠ c.reference)) := by
  obtain ⟨s, t, rfl⟩ := List.append_of_mem hc
  have hmaps : (s.map Component.reference ++
      c.reference :: t.map Component.reference).Nodup := by
    simpa using hnd
  obtain ⟨hnds, hndct, hdisj⟩ := List.nodup_append.mp hmaps
  have hnt : c.reference ∉ t.map Component.reference := (List.nodup_cons.mp hndct).1
  have hns : c.reference ∉ s.map Component.reference := by
    intro hmem
    exact hdisj hmem (List.mem_cons_self _ _)
  have hfs := filter_ne_of_not_mem s c.reference hns
  have hft := filter_ne_of_not_mem t c.reference hnt
  have hstep : (s ++ c :: t).filter (fun x => x.reference ≠ c.reference) = s ++ t := by
    simp only [List.filter_append, List.filter_cons, decide_eq_true_eq]
    rw [if_neg (by simp), hfs, hft]
  rw [hstep]
  exact List.perm_middle

theorem add_component_ok {n : NetList} {c : Component} {n' : NetList}
    (h : n.add_component c = .ok n') :
    n' = { n with components := n.components ++ [c] } ∧
    c.reference ∉ n.components.map Component.reference := by
  unfold NetList.add_component at h
  split at h
  · simp at h
  · rename_i hmem
    simp only [Except.ok.injEq] at h
    subst h
    exact ⟨rfl, by simpa [NetList.get_components] using hmem⟩

theorem remove_component_ok {n : NetList} {ref : String} {n' : NetList}
    (h : n.remove_component ref = .ok n') :
    n' = { n with components := n.components.filter (fun c => c.reference ≠ ref) } ∧
    ∃ c, n.get_component ref = some c := by
  unfold NetList.remove_component at h
  cases hg : n.get_component ref with
  | none => rw [hg] at h; simp at h
  | some c =>
    rw [hg] at h
    simp only [Except.ok.injEq] at h
    subst h
    exact ⟨rfl, ⟨c, rfl⟩⟩

theorem set_component_value_ok {n : NetList} {ref : String} {v : SpiceVal} {n' : NetList}
    (h : n.set_component_value ref v = .ok n') :
    n' = { n with components :=
      n.components.map (fun c => if c.reference = ref then { c with value := v } else c) } ∧
    ∃ c, n.get_component ref = some c := by
  unfold NetList.set_component_value at h
  cases hg : n.get_component ref with
  | none => rw [hg] at h; simp at h
  | some c =>
    rw [hg] at h
    simp only [Except.ok.injEq] at h
    subst h
    exact ⟨rfl, ⟨c, rfl⟩⟩

theorem update_fet_ports_ok {n : NetList} {ref : String} {ports : List String} {n' : NetList}
    (h : n.update_fet_ports ref ports = .ok n') :
    ∃ old, n.get_component ref = some old ∧
      n' = { n with components := n.components.filter (fun c => c.reference ≠ ref) ++
        [⟨old.reference, ports, old.value⟩] } := by
  unfold NetList.update_fet_ports at h
  split at h
  · simp at h
  · rename_i hpre
    split at h
    · rename_i d g s b
      cases hg : n.get_component ref with
      | none => rw [hg] at h; simp at h
      | some old =>
        rw [hg] at h
        have hrc : n.remove_component ref =
            .ok { n with components := n.components.filter (fun c => c.reference ≠ ref) } := by
          unfold NetList.remove_component
          rw [hg]
        rw [hrc] at h
        obtain ⟨hn', _⟩ := add_component_ok h
        exact ⟨old, rfl, by rw [hn']⟩
    · simp at h

theorem insert_resistor_ok {n : NetList} {a b : String} {v : SpiceVal} {r : String}
    {n' : NetList} (h : n.insert_resistor a b v = .ok (r, n')) :
    n'.components = n.components ++ [⟨r, [a, b], v⟩] ∧
    r ∉ n.components.map Component.reference := by
  simp only [NetList.insert_resistor] at h
  cases ha : (n.get_next_resistor_descriptor_index).2.add_component
      ⟨refName "R" (n.get_next_resistor_descriptor_index).1, [a, b], v⟩ with
  | error e => rw [ha] at h; simp at h
  | ok n2 =>
    rw [ha] at h
    simp only [Except.ok.injEq, Prod.mk.injEq] at h
    obtain ⟨hr, hn⟩ := h
    subst hr
    subst hn
    obtain ⟨hn2, hfr⟩ := add_component_ok ha
    subst hn2
    constructor
    · rfl
    · simpa [NetList.get_next_resistor_descriptor_index] using hfr

theorem insert_source_ok {n : NetList} {a b : String} {v : SpiceVal} {r : String}
    {n' : NetList} (h : n.insert_source a b v = .ok (r, n')) :
    n'.components = n.components ++ [⟨r, [a, b], v⟩] ∧
    r ∉ n.components.map Component.reference := by
  simp only [NetList.insert_source] at h
  cases ha : (n.get_next_source_descriptor_index).2.add_component
      ⟨refName "V" (n.get_next_source_descriptor_index).1, [a, b], v⟩ with
  | error e => rw [ha] at h; simp at h
  | ok n2 =>
    rw [ha] at h
    simp only [Except.ok.injEq, Prod.mk.injEq] at h
    obtain ⟨hr, hn⟩ := h
    subst hr
    subst hn
    obtain ⟨hn2, hfr⟩ := add_component_ok ha
    subst hn2
    constructor
    · rfl
    · simpa [NetList.get_next_source_descriptor_index] using hfr

theorem insert_fet_ok {n : NetList} {d g s m : String} {r : String}
    {n' : NetList} (h : n.insert_fet d g s m = .ok (r, n')) :
    n'.components = n.components ++ [⟨r, [d, g, s, s], .str m⟩] ∧
    r ∉ n.components.map Component.reference := by
  simp only [NetList.insert_fet] at h
  cases ha : (n.get_next_fet_descriptor_index).2.add_component
      ⟨refName "M" (n.get_next_fet_descriptor_index).1, [d, g, s, s], .str m⟩ with
  | error e => rw [ha] at h; simp at h
  | ok n2 =>
    rw [ha] at h
    simp only [Except.ok.injEq, Prod.mk.injEq] at h
    obtain ⟨hr, hn⟩ := h
    subst hr
    subst hn
    obtain ⟨hn2, hfr⟩ := add_component_ok ha
    subst hn2
    constructor
    · rfl
    · simpa [NetList.get_next_fet_descriptor_index] using hfr

theorem remove_component_eval {n : NetList} {ref : String} {old : Component}
    (hg : n.get_component ref = some old) :
    n.remove_component ref =
      .ok { n with components := n.components.filter (fun c => c.reference ≠ ref) } := by
  unfold NetList.remove_component
  rw [hg]

theorem get_component_eval {n : NetList} {L1 L2 : List Component} {ref : String}
    (hcomp : n.components = L1 ++ L2)
    (h1 : L1.find? (fun c => c.reference == ref) = none) :
    n.get_component ref = L2.find? (fun c => c.reference == ref) := by
  unfold NetList.get_component
  rw [hcomp, List.find?_append, h1, Option.none_or]

theorem update_fet_ports_eval {n : NetList} {ref : String} (hpre : strStartsWith ref "M" = true)
    {old : Component} (hg : n.get_component ref = some old) (d g s b : String) :
    n.update_fet_ports ref [d, g, s, b] =
      .ok { n with components := n.components.filter (fun c => c.reference ≠ ref) ++
        [⟨old.reference, [d, g, s, b], old.value⟩] } := by
  have href : old.reference = ref := (get_component_some hg).2
  unfold NetList.update_fet_ports
  rw [if_neg (by simp [hpre])]
  rw [hg, remove_component_eval hg]
  dsimp only
  unfold NetList.add_component
  rw [if_neg ?hfresh]
  case hfresh =>
    show ¬ old.reference ∈ NetList.get_components _
    unfold NetList.get_components
    rw [href]
    exact refs_filter_not_mem n.components ref

theorem insert_remove_components {n : NetList} {a b : String} {v : SpiceVal} {r : String}
    {n1 n2 : NetList} (h1 : n.insert_resistor a b v = .ok (r, n1))
    (h2 : n1.remove_component r = .ok n2) :
    n2.components = n.components := by
  obtain ⟨hc, hfr⟩ := insert_resistor_ok h1
  obtain ⟨hn2, _⟩ := remove_component_ok h2
  subst hn2
  show n1.components.filter (fun c => c.reference ≠ r) = n.components
  rw [hc, List.filter_append, filter_ne_of_not_mem _ _ hfr]
  simp [List.filter_cons]

theorem map_set_value_restore (l : List Component)
    (hnd : (l.map Component.reference).Nodup) (tgt : String) (v : SpiceVal)
    (old : Component) (hfind : l.find? (fun c => c.reference == tgt) = some old) :
    ((l.map (fun c => if c.reference = tgt then { c with value := v } else c)).map
      (fun c => if c.reference = tgt then { c with value := old.value } else c)) = l := by
  rw [List.map_map]
  have hmem : old ∈ l := List.mem_of_find?_eq_some hfind
  have htgt : old.reference = tgt := by simpa using List.find?_some hfind
  have huniq : ∀ x ∈ l, x.reference = tgt → x = old := by
    intro x hx hxr
    exact List.inj_on_of_nodup_map hnd hx hmem (by rw [hxr, htgt])
  have hpt : ∀ x ∈ l, ((fun c => if c.reference = tgt then { c with value := old.value } else c) ∘
      (fun c => if c.reference = tgt then { c with value := v } else c)) x = x := by
    intro x hx
    by_cases hxr : x.reference = tgt
    · have hxo := huniq x hx hxr
      subst hxo
      obtain ⟨r, p, val⟩ := x
      simp_all [Function.comp]
    · simp [Function.comp, hxr]
  calc l.map _ = l.map id := List.map_congr_left hpt
  _ = l := List.map_id l

theorem filter_ne_singleton_nil {c : Component} {ref : String} (h : c.reference = ref) :
    [c].filter (fun x => x.reference ≠ ref) = [] := by
  simp [List.filter_cons, h]

theorem filter_ne_singleton_self {c : Component} {ref : String} (h : c.reference ≠ ref) :
    [c].filter (fun x => x.reference ≠ ref) = [c] := by
  simp [List.filter_cons, h]

theorem drainOpenFault_make_ok {n : NetList} {c : String} {f : DrainOpenFault}
    (h : DrainOpenFault.make n c = .ok f) :
    ∃ old, n.get_component c = some old ∧ f = ⟨c, .notInjected, none, old.ports⟩ := by
  unfold DrainOpenFault.make at h
  split at h
  · simp at h
  · unfold NetList.get_component_nodes at h
    cases hg : n.get_component c with
    | none => rw [hg] at h; simp at h
    | some old =>
      rw [hg] at h
      simp only [Except.ok.injEq] at h
      exact ⟨old, rfl, h.symm⟩

theorem drainOpenFault_inject_ok {f : DrainOpenFault} {n : NetList}
    (hst : f.state = .notInjected)
    (herr : (f.inject n).err = none) :
    ∃ p0 rest n1 r n2,
      f.fault_free_ports = p0 :: rest ∧
      n.update_fet_ports f.component ((p0 ++ "_" ++ f.component ++ "_open") :: rest) = .ok n1 ∧
      n1.insert_resistor (p0 ++ "_" ++ f.component ++ "_open") p0 (.num OPEN_RESISTANCE) =
        .ok (r, n2) ∧
      f.inject n = ⟨none, { f with state := .injected, open_resistor := some r }, n2⟩ := by
  have hgd : Fault.inject_guard FState.notInjected = .ok .injected := by
    simp [Fault.inject_guard]
  unfold DrainOpenFault.inject at herr ⊢
  rw [hst, hgd] at herr ⊢
  dsimp only at herr ⊢
  cases hports : f.fault_free_ports with
  | nil =>
    rw [hports] at herr
    exact Option.noConfusion (show some Err.valueError = (none : Option Err) from herr)
  | cons p0 rest =>
    rw [hports] at herr
    dsimp only at herr
    cases hupd : n.update_fet_ports f.component ((p0 ++ "_" ++ f.component ++ "_open") :: rest) with
    | error e =>
      rw [hupd] at herr
      exact Option.noConfusion (show some e = (none : Option Err) from herr)
    | ok n1 =>
      rw [hupd] at herr
      dsimp only at herr
      cases hins : n1.insert_resistor (p0 ++ "_" ++ f.component ++ "_open") p0
          (.num OPEN_RESISTANCE) with
      | error e =>
        rw [hins] at herr
        exact Option.noConfusion (show some e = (none : Option Err) from herr)
      | ok rn =>
        obtain ⟨r, n2⟩ := rn
        refine ⟨p0, rest, n1, r, n2, rfl, hupd, hins, ?_⟩
        dsimp only
        rw [hupd]
        dsimp only
        rw [hins]

theorem drainOpenFault_eject_eval {f : DrainOpenFault} {n : NetList}
    {n1 : NetList} (hupd : n.update_fet_ports f.component f.fault_free_ports = .ok n1)
    {r : String} (hr : f.open_resistor = some r)
    {n2 : NetList} (hrem : n1.remove_component r = .ok n2)
    (hst : f.state = .injected) :
    f.eject n = ⟨none, { f with state := .notInjected }, n2⟩ := by
  have hgd : Fault.eject_guard FState.injected = .ok .notInjected := by
    simp [Fault.eject_guard]
  unfold DrainOpenFault.eject NetList.remove_component_opt
  rw [hupd]
  dsimp only
  rw [hr]
  dsimp only
  rw [hrem]
  dsimp only
  rw [hst, hgd]

theorem drainOpen_roundTrip_obs (n : NetList) (c : String)
    (hnd : (n.components.map Component.reference).Nodup)
    (h : (drainOpenRoundTrip n c).1 = none) :
    (drainOpenRoundTrip n c).2.obs = n.obs := by
  simp only [drainOpenRoundTrip] at h ⊢
  cases hmk : DrainOpenFault.make n c with
  | error e => rfl
  | ok f =>
    obtain ⟨old, hg, hf⟩ := drainOpenFault_make_ok hmk
    subst hf
    have hmem : old ∈ n.components := (get_component_some hg).1
    have href : old.reference = c := (get_component_some hg).2
    cases he : ((⟨c, FState.notInjected, none, old.ports⟩ : DrainOpenFault).inject n).err with
    | some e =>
      rw [hmk] at h
      dsimp only at h
      rw [he] at h
      exact Option.noConfusion (show some e = (none : Option Err) from h)
    | none =>
      obtain ⟨p0, rest, n1, r, n2, hports, hupd, hins, hinj⟩ :=
        drainOpenFault_inject_ok rfl he
      dsimp only at hports hupd hins hinj
      rw [hmk] at h
      dsimp only at h
      rw [hinj] at h
      dsimp only at h
      dsimp only
      rw [hinj]
      dsimp only
      obtain ⟨old', hg', hn1⟩ := update_fet_ports_ok hupd
      rw [hg] at hg'
      injection hg' with holdeq
      subst holdeq
      obtain ⟨hn2c, hfr⟩ := insert_resistor_ok hins
      subst hn1
      dsimp only at hn2c hfr
      have hrLf : r ∉ (n.components.filter
          (fun x => x.reference ≠ c)).map Component.reference := by
        intro hm
        exact hfr (by rw [List.map_append]; exact List.mem_append_left _ hm)
      have hrc : r ≠ c := by
        intro hrc
        apply hfr
        rw [List.map_append]
        apply List.mem_append_right
        simp [href, hrc]
      have hg2 : n2.get_component c =
          some ⟨old.reference, (p0 ++ "_" ++ c ++ "_open") :: rest, old.value⟩ := by
        rw [@get_component_eval _ (n.components.filter (fun x => x.reference ≠ c)) _ _
          (by rw [hn2c, List.append_assoc]) (find?_filter_ne_none _ _)]
        exact List.find?_cons_of_pos _ (by simp [href])
      cases hupd2 : n2.update_fet_ports c old.ports with
      | error e =>
        have hej : (⟨c, FState.injected, some r, old.ports⟩ : DrainOpenFault).eject n2 =
            ⟨some e, ⟨c, FState.injected, some r, old.ports⟩, n2⟩ := by
          unfold DrainOpenFault.eject
          rw [hupd2]
        rw [hej] at h
        exact Option.noConfusion (show some e = (none : Option Err) from h)
      | ok n3 =>
        obtain ⟨cMod', hg2', hn3⟩ := update_fet_ports_ok hupd2
        rw [hg2] at hg2'
        injection hg2' with hcmeq
        subst hcmeq
        have hn3c : n3.components =
            ((n.components.filter (fun x => x.reference ≠ c)) ++
              [⟨r, [p0 ++ "_" ++ c ++ "_open", p0], .num OPEN_RESISTANCE⟩]) ++ [old] := by
          rw [hn3]
          dsimp only
          rw [hn2c, List.filter_append, List.filter_append,
            filter_ne_of_not_mem _ c (refs_filter_not_mem n.components c),
            filter_ne_singleton_nil
              (show (⟨old.reference, (p0 ++ "_" ++ c ++ "_open") :: rest,
                old.value⟩ : Component).reference = c from href),
            filter_ne_singleton_self
              (show (⟨r, [p0 ++ "_" ++ c ++ "_open", p0],
                SpiceVal.num OPEN_RESISTANCE⟩ : Component).reference ≠ c from hrc)]
          simp [component_eta]
        have hg3 : n3.get_component r =
            some ⟨r, [p0 ++ "_" ++ c ++ "_open", p0], .num OPEN_RESISTANCE⟩ := by
          rw [@get_component_eval _ (n.components.filter (fun x => x.reference ≠ c)) _ _
            (by rw [hn3c, List.append_assoc]) (find?_not_mem_refs_none _ _ hrLf)]
          exact List.find?_cons_of_pos _ (by simp)
        have hrem := remove_component_eval hg3
        have hej := @drainOpenFault_eject_eval ⟨c, FState.injected, some r, old.ports⟩
          _ _ hupd2 _ rfl _ hrem rfl
        rw [hej] at h ⊢
        dsimp only at h ⊢
        have hn4c : ({ n3 with components :=
            n3.components.filter (fun x => x.reference ≠ r) } : NetList).components =
            (n.components.filter (fun x => x.reference ≠ c)) ++ [old] := by
          dsimp only
          rw [hn3c, List.filter_append, List.filter_append,
            filter_ne_of_not_mem _ r hrLf,
            filter_ne_singleton_nil
              (show (⟨r, [p0 ++ "_" ++ c ++ "_open", p0],
                SpiceVal.num OPEN_RESISTANCE⟩ : Component).reference = r from rfl),
            filter_ne_singleton_self
              (show old.reference ≠ r from by rw [href]; exact fun hh => hrc hh.symm)]
          simp
        have hperm := filter_ne_perm n.components hnd old hmem
        rw [href] at hperm
        unfold NetList.obs
        rw [hn4c]
        exact Multiset.coe_eq_coe.mpr
          ((List.perm_append_singleton _ _).trans hperm.symm)

theorem sourceOpenFault_make_ok {n : NetList} {c : String} {f : SourceOpenFault}
    (h : SourceOpenFault.make n c = .ok f) :
    ∃ old, n.get_component c = some old ∧ f = ⟨c, .notInjected, none, old.ports⟩ := by
  unfold SourceOpenFault.make at h
  split at h
  · simp at h
  · unfold NetList.get_component_nodes at h
    cases hg : n.get_component c with
    | none => rw [hg] at h; simp at h
    | some old =>
      rw [hg] at h
      simp only [Except.ok.injEq] at h
      exact ⟨old, rfl, h.symm⟩

theorem sourceOpenFault_inject_ok {f : SourceOpenFault} {n : NetList}
    (hst : f.state = .notInjected)
    (herr : (f.inject n).err = none) :
    ∃ p0 p1 p2 p3 n1 r n2,
      f.fault_free_ports = [p0, p1, p2, p3] ∧
      n.update_fet_ports f.component
        [p0, p1, p2 ++ "_" ++ f.component ++ "_open", p2 ++ "_" ++ f.component ++ "_open"] =
        .ok n1 ∧
      n1.insert_resistor (p2 ++ "_" ++ f.component ++ "_open") p2 (.num OPEN_RESISTANCE) =
        .ok (r, n2) ∧
      f.inject n = ⟨none, { f with state := .injected, open_resistor := some r }, n2⟩ := by
  have hgd : Fault.inject_guard FState.notInjected = .ok .injected := by
    simp [Fault.inject_guard]
  unfold SourceOpenFault.inject at herr ⊢
  rw [hst, hgd] at herr ⊢
  dsimp only at herr ⊢
  rcases hports : f.fault_free_ports with _ | ⟨p0, _ | ⟨p1, _ | ⟨p2, _ | ⟨p3, _ | ⟨p4, rest⟩⟩⟩⟩⟩
  · rw [hports] at herr
    exact Option.noConfusion (show some Err.valueError = (none : Option Err) from herr)
  · rw [hports] at herr
    exact Option.noConfusion (show some Err.valueError = (none : Option Err) from herr)
  · rw [hports] at herr
    exact Option.noConfusion (show some Err.valueError = (none : Option Err) from herr)
  · rw [hports] at herr
    exact Option.noConfusion (show some Err.valueError = (none : Option Err) from herr)
  · rw [hports] at herr
    dsimp only at herr
    cases hupd : n.update_fet_ports f.component
        [p0, p1, p2 ++ "_" ++ f.component ++ "_open", p2 ++ "_" ++ f.component ++ "_open"] with
    | error e =>
      rw [hupd] at herr
      exact Option.noConfusion (show some e = (none : Option Err) from herr)
    | ok n1 =>
      rw [hupd] at herr
      dsimp only at herr
      cases hins : n1.insert_resistor (p2 ++ "_" ++ f.component ++ "_open") p2
          (.num OPEN_RESISTANCE) with
      | error e =>
        rw [hins] at herr
        exact Option.noConfusion (show some e = (none : Option Err) from herr)
      | ok rn =>
        obtain ⟨r, n2⟩ := rn
        refine ⟨p0, p1, p2, p3, n1, r, n2, rfl, hupd, hins, ?_⟩
        dsimp only
        rw [hupd]
        dsimp only
        rw [hins]
  · rw [hports] at herr
    exact Option.noConfusion (show some Err.valueError = (none : Option Err) from herr)

theorem sourceOpenFault_eject_eval {f : SourceOpenFault} {n : NetList}
    {n1 : NetList} (hupd : n.update_fet_ports f.component f.fault_free_ports = .ok n1)
    {r : String} (hr : f.open_resistor = some r)
    {n2 : NetList} (hrem : n1.remove_component r = .ok n2)
    (hst : f.state = .injected) :
    f.eject n = ⟨none, { f with state := .notInjected }, n2⟩ := by
  have hgd : Fault.eject_guard FState.injected = .ok .notInjected := by
    simp [Fault.eject_guard]
  unfold SourceOpenFault.eject NetList.remove_component_opt
  rw [hupd]
  dsimp only
  rw [hr]
  dsimp only
  rw [hrem]
  dsimp only
  rw [hst, hgd]

theorem sourceOpen_roundTrip_obs (n : NetList) (c : String)
    (hnd : (n.components.map Component.reference).Nodup)
    (h : (sourceOpenRoundTrip n c).1 = none) :
    (sourceOpenRoundTrip n c).2.obs = n.obs := by
  simp only [sourceOpenRoundTrip] at h ⊢
  cases hmk : SourceOpenFault.make n c with
  | error e => rfl
  | ok f =>
    obtain ⟨old, hg, hf⟩ := sourceOpenFault_make_ok hmk
    subst hf
    have hmem : old ∈ n.components := (get_component_some hg).1
    have href : old.reference = c := (get_component_some hg).2
    cases he : ((⟨c, FState.notInjected, none, old.ports⟩ : SourceOpenFault).inject n).err with
    | some e =>
      rw [hmk] at h
      dsimp only at h
      rw [he] at h
      exact Option.noConfusion (show some e = (none : Option Err) from h)
    | none =>
      obtain ⟨p0, p1, p2, p3, n1, r, n2, hports, hupd, hins, hinj⟩ :=
        sourceOpenFault_inject_ok rfl he
      dsimp only at hports hupd hins hinj
      rw [hmk] at h
      dsimp only at h
      rw [hinj] at h
      dsimp only at h
      dsimp only
      rw [hinj]
      dsimp only
      obtain ⟨old', hg', hn1⟩ := update_fet_ports_ok hupd
      rw [hg] at hg'
      injection hg' with holdeq
      subst holdeq
      obtain ⟨hn2c, hfr⟩ := insert_resistor_ok hins
      subst hn1
      dsimp only at hn2c hfr
      have hrLf : r ∉ (n.components.filter
          (fun x => x.reference ≠ c)).map Component.reference := by
        intro hm
        exact hfr (by rw [List.map_append]; exact List.mem_append_left _ hm)
      have hrc : r ≠ c := by
        intro hrc
        apply hfr
        rw [List.map_append]
        apply List.mem_append_right
        simp [href, hrc]
      have hg2 : n2.get_component c =
          some ⟨old.reference, [p0, p1, p2 ++ "_" ++ c ++ "_open",
            p2 ++ "_" ++ c ++ "_open"], old.value⟩ := by
        rw [@get_component_eval _ (n.components.filter (fun x => x.reference ≠ c)) _ _
          (by rw [hn2c, List.append_assoc]) (find?_filter_ne_none _ _)]
        exact List.find?_cons_of_pos _ (by simp [href])
      cases hupd2 : n2.update_fet_ports c old.ports with
      | error e =>
        have hej : (⟨c, FState.injected, some r, old.ports⟩ : SourceOpenFault).eject n2 =
            ⟨some e, ⟨c, FState.injected, some r, old.ports⟩, n2⟩ := by
          unfold SourceOpenFault.eject
          rw [hupd2]
        rw [hej] at h
        exact Option.noConfusion (show some e = (none : Option Err) from h)
      | ok n3 =>
        obtain ⟨cMod', hg2', hn3⟩ := update_fet_ports_ok hupd2
        rw [hg2] at hg2'
        injection hg2' with hcmeq
        subst hcmeq
        have hn3c : n3.components =
            ((n.components.filter (fun x => x.reference ≠ c)) ++
              [⟨r, [p2 ++ "_" ++ c ++ "_open", p2], .num OPEN_RESISTANCE⟩]) ++ [old] := by
          rw [hn3]
          dsimp only
          rw [hn2c, List.filter_append, List.filter_append,
            filter_ne_of_not_mem _ c (refs_filter_not_mem n.components c),
            filter_ne_singleton_nil
              (show (⟨old.reference, [p0, p1, p2 ++ "_" ++ c ++ "_open",
                p2 ++ "_" ++ c ++ "_open"], old.value⟩ : Component).reference = c from href),
            filter_ne_singleton_self
              (show (⟨r, [p2 ++ "_" ++ c ++ "_open", p2],
                SpiceVal.num OPEN_RESISTANCE⟩ : Component).reference ≠ c from hrc)]
          simp [component_eta]
        have hg3 : n3.get_component r =
            some ⟨r, [p2 ++ "_" ++ c ++ "_open", p2], .num OPEN_RESISTANCE⟩ := by
          rw [@get_component_eval _ (n.components.filter (fun x => x.reference ≠ c)) _ _
            (by rw [hn3c, List.append_assoc]) (find?_not_mem_refs_none _ _ hrLf)]
          exact List.find?_cons_of_pos _ (by simp)
        have hrem := remove_component_eval hg3
        have hej := @sourceOpenFault_eject_eval ⟨c, FState.injected, some r, old.ports⟩
          _ _ hupd2 _ rfl _ hrem rfl
        rw [hej] at h ⊢
        dsimp only at h ⊢
        have hn4c : ({ n3 with components :=
            n3.components.filter (fun x => x.reference ≠ r) } : NetList).components =
            (n.components.filter (fun x => x.reference ≠ c)) ++ [old] := by
          dsimp only
          rw [hn3c, List.filter_append, List.filter_append,
            filter_ne_of_not_mem _ r hrLf,
            filter_ne_singleton_nil
              (show (⟨r, [p2 ++ "_" ++ c ++ "_open", p2],
                SpiceVal.num OPEN_RESISTANCE⟩ : Component).reference = r from rfl),
            filter_ne_singleton_self
              (show old.reference ≠ r from by rw [href]; exact fun hh => hrc hh.symm)]
          simp
        have hperm := filter_ne_perm n.components hnd old hmem
        rw [href] at hperm
        unfold NetList.obs
        rw [hn4c]
        exact Multiset.coe_eq_coe.mpr
          ((List.perm_append_singleton _ _).trans hperm.symm)

theorem not_mem_refs_append {l1 l2 : List Component} {r : String}
    (h : r ∉ (l1 ++ l2).map Component.reference) :
    r ∉ l1.map Component.reference ∧ r ∉ l2.map Component.reference := by
  rw [List.map_append] at h
  exact ⟨fun hm => h (List.mem_append_left _ hm), fun hm => h (List.mem_append_right _ hm)⟩

theorem not_mem_refs_singleton {c : Component} {r : String}
    (h : r ∉ [c].map Component.reference) : r ≠ c.reference := by
  simpa using h

theorem gateOpenFault_make_ok {n : NetList} {c : String} {f : GateOpenFault}
    (h : GateOpenFault.make n c = .ok f) :
    ∃ old, n.get_component c = some old ∧
      f = ⟨c, .notInjected, none, none, none, old.ports⟩ := by
  unfold GateOpenFault.make at h
  split at h
  · simp at h
  · unfold NetList.get_component_nodes at h
    cases hg : n.get_component c with
    | none => rw [hg] at h; simp at h
    | some old =>
      rw [hg] at h
      simp only [Except.ok.injEq] at h
      exact ⟨old, rfl, h.symm⟩

theorem gateOpenFault_inject_ok {f : GateOpenFault} {n : NetList}
    (hst : f.state = .notInjected)
    (herr : (f.inject n).err = none) :
    ∃ p0 p1 p2 p3 n1 r1 n2 r2 n3 r3 n4,
      f.fault_free_ports = [p0, p1, p2, p3] ∧
      n.update_fet_ports f.component [p0, p1 ++ "_" ++ f.component ++ "_open", p2, p3] =
        .ok n1 ∧
      n1.insert_resistor (p1 ++ "_" ++ f.component ++ "_open")
        (p1 ++ "_" ++ f.component ++ "_open" ++ "_couple") (.num GATE_RESISTANCE) =
        .ok (r1, n2) ∧
      n2.insert_resistor p0 (p1 ++ "_" ++ f.component ++ "_open" ++ "_couple")
        (.num COUPLING_RESISTANCE) = .ok (r2, n3) ∧
      n3.insert_resistor p2 (p1 ++ "_" ++ f.component ++ "_open" ++ "_couple")
        (.num COUPLING_RESISTANCE) = .ok (r3, n4) ∧
      f.inject n =
        ⟨none,
         { f with
            state := .injected,
            open_resistor := some r1,
            drain_coupling_resistor := some r2,
            source_coupling_resistor := some r3 },
         n4⟩ := by
  have hgd : Fault.inject_guard FState.notInjected = .ok .injected := by
    simp [Fault.inject_guard]
  unfold GateOpenFault.inject at herr ⊢
  rw [hst, hgd] at herr ⊢
  dsimp only at herr ⊢
  rcases hports : f.fault_free_ports with _ | ⟨p0, _ | ⟨p1, _ | ⟨p2, _ | ⟨p3, _ | ⟨p4, rest⟩⟩⟩⟩⟩
  · rw [hports] at herr
    exact Option.noConfusion (show some Err.valueError = (none : Option Err) from herr)
  · rw [hports] at herr
    exact Option.noConfusion (show some Err.valueError = (none : Option Err) from herr)
  · rw [hports] at herr
    exact Option.noConfusion (show some Err.valueError = (none : Option Err) from herr)
  · rw [hports] at herr
    exact Option.noConfusion (show some Err.valueError = (none : Option Err) from herr)
  · rw [hports] at herr
    dsimp only at herr
    cases hupd : n.update_fet_ports f.component
        [p0, p1 ++ "_" ++ f.component ++ "_open", p2, p3] with
    | error e =>
      rw [hupd] at herr
      exact Option.noConfusion (show some e = (none : Option Err) from herr)
    | ok n1 =>
      rw [hupd] at herr
      dsimp only at herr
      cases hins1 : n1.insert_resistor (p1 ++ "_" ++ f.component ++ "_open")
          (p1 ++ "_" ++ f.component ++ "_open" ++ "_couple") (.num GATE_RESISTANCE) with
      | error e =>
        rw [hins1] at herr
        exact Option.noConfusion (show some e = (none : Option Err) from herr)
      | ok rn1 =>
        obtain ⟨r1, n2⟩ := rn1
        rw [hins1] at herr
        dsimp only at herr
        cases hins2 : n2.insert_resistor p0 (p1 ++ "_" ++ f.component ++ "_open" ++ "_couple")
            (.num COUPLING_RESISTANCE) with
        | error e =>
          rw [hins2] at herr
          exact Option.noConfusion (show some e = (none : Option Err) from herr)
        | ok rn2 =>
          obtain ⟨r2, n3⟩ := rn2
          rw [hins2] at herr
          dsimp only at herr
          cases hins3 : n3.insert_resistor p2 (p1 ++ "_" ++ f.component ++ "_open" ++ "_couple")
              (.num COUPLING_RESISTANCE) with
          | error e =>
            rw [hins3] at herr
            exact Option.noConfusion (show some e = (none : Option Err) from herr)
          | ok rn3 =>
            obtain ⟨r3, n4⟩ := rn3
            refine ⟨p0, p1, p2, p3, n1, r1, n2, r2, n3, r3, n4, rfl, hupd, hins1, hins2,
              hins3, ?_⟩
            dsimp only
            rw [hupd]
            dsimp only
            rw [hins1]
            dsimp only
            rw [hins2]
            dsimp only
            rw [hins3]
  · rw [hports] at herr
    exact Option.noConfusion (show some Err.valueError = (none : Option Err) from herr)

theorem gateOpenFault_eject_eval {f : GateOpenFault} {n : NetList}
    {n1 : NetList} (hupd : n.update_fet_ports f.component f.fault_free_ports = .ok n1)
    {r1 : String} (h1 : f.open_resistor = some r1)
    {n2 : NetList} (hrm1 : n1.remove_component r1 = .ok n2)
    {r2 : String} (h2 : f.drain_coupling_resistor = some r2)
    {n3 : NetList} (hrm2 : n2.remove_component r2 = .ok n3)
    {r3 : String} (h3 : f.source_coupling_resistor = some r3)
    {n4 : NetList} (hrm3 : n3.remove_component r3 = .ok n4)
    (hst : f.state = .injected) :
    f.eject n = ⟨none, { f with state := .notInjected }, n4⟩ := by
  have hgd : Fault.eject_guard FState.injected = .ok .notInjected := by
    simp [Fault.eject_guard]
  unfold GateOpenFault.eject NetList.remove_component_opt
  rw [hupd]
  dsimp only
  rw [h1]
  dsimp only
  rw [hrm1]
  dsimp only
  rw [h2]
  dsimp only
  rw [hrm2]
  dsimp only
  rw [h3]
  dsimp only
  rw [hrm3]
  dsimp only
  rw [hst, hgd]

theorem gateOpen_roundTrip_obs (n : NetList) (c : String)
    (hnd : (n.components.map Component.reference).Nodup)
    (h : (gateOpenRoundTrip n c).1 = none) :
    (gateOpenRoundTrip n c).2.obs = n.obs := by
  simp only [gateOpenRoundTrip] at h ⊢
  cases hmk : GateOpenFault.make n c with
  | error e => rfl
  | ok f =>
    obtain ⟨old, hg, hf⟩ := gateOpenFault_make_ok hmk
    subst hf
    have hmem : old ∈ n.components := (get_component_some hg).1
    have href : old.reference = c := (get_component_some hg).2
    cases he : ((⟨c, FState.notInjected, none, none, none, old.ports⟩ :
        GateOpenFault).inject n).err with
    | some e =>
      rw [hmk] at h
      dsimp only at h
      rw [he] at h
      exact Option.noConfusion (show some e = (none : Option Err) from h)
    | none =>
      obtain ⟨p0, p1, p2, p3, n1, r1, n2, r2, n3, r3, n4, hports, hupd, hins1, hins2, hins3,
        hinj⟩ := gateOpenFault_inject_ok rfl he
      dsimp only at hports hupd hins1 hins2 hins3 hinj
      rw [hmk] at h
      dsimp only at h
      rw [hinj] at h
      dsimp only at h
      dsimp only
      rw [hinj]
      dsimp only
      obtain ⟨old', hg', hn1⟩ := update_fet_ports_ok hupd
      rw [hg] at hg'
      injection hg' with holdeq
      subst holdeq
      obtain ⟨hn2c, hfr1⟩ := insert_resistor_ok hins1
      obtain ⟨hn3c, hfr2⟩ := insert_resistor_ok hins2
      obtain ⟨hn4c, hfr3⟩ := insert_resistor_ok hins3
      subst hn1
      dsimp only at hn2c hfr1
      rw [hn2c] at hfr2
      rw [hn3c, hn2c] at hfr3
      obtain ⟨h1L, h1s⟩ := not_mem_refs_append hfr1
      have hr1c : r1 ≠ c := by
        have := not_mem_refs_singleton h1s
        rw [href] at this
        exact this
      obtain ⟨h2a, h2s⟩ := not_mem_refs_append hfr2
      obtain ⟨h2L, h2c⟩ := not_mem_refs_append h2a
      have hr2c : r2 ≠ c := by
        have := not_mem_refs_singleton h2c
        rw [href] at this
        exact this
      have hr21 : r2 ≠ r1 := not_mem_refs_singleton h2s
      obtain ⟨h3a, h3s⟩ := not_mem_refs_append hfr3
      obtain ⟨h3b, h3c⟩ := not_mem_refs_append h3a
      obtain ⟨h3L, h3cm⟩ := not_mem_refs_append h3b
      have hr3c : r3 ≠ c := by
        have := not_mem_refs_singleton h3cm
        rw [href] at this
        exact this
      have hr31 : r3 ≠ r1 := not_mem_refs_singleton h3c
      have hr32 : r3 ≠ r2 := not_mem_refs_singleton h3s
      have hall : n4.components =
          (n.components.filter (fun x => x.reference ≠ c)) ++
            ([⟨old.reference, [p0, p1 ++ "_" ++ c ++ "_open", p2, p3], old.value⟩] ++
              ([⟨r1, [p1 ++ "_" ++ c ++ "_open", p1 ++ "_" ++ c ++ "_open" ++ "_couple"],
                  .num GATE_RESISTANCE⟩] ++
                ([⟨r2, [p0, p1 ++ "_" ++ c ++ "_open" ++ "_couple"],
                    .num COUPLING_RESISTANCE⟩] ++
                  [⟨r3, [p2, p1 ++ "_" ++ c ++ "_open" ++ "_couple"],
                    .num COUPLING_RESISTANCE⟩]))) := by
        rw [hn4c, hn3c, hn2c]
        simp [List.append_assoc]
      have hg2 : n4.get_component c =
          some ⟨old.reference, [p0, p1 ++ "_" ++ c ++ "_open", p2, p3], old.value⟩ := by
        rw [@get_component_eval _ (n.components.filter (fun x => x.reference ≠ c)) _ _
          hall (find?_filter_ne_none _ _)]
        exact List.find?_cons_of_pos _ (by simp [href])
      cases hupd2 : n4.update_fet_ports c old.ports with
      | error e =>
        have hej : (⟨c, FState.injected, some r1, some r2, some r3, old.ports⟩ :
            GateOpenFault).eject n4 =
            ⟨some e, ⟨c, FState.injected, some r1, some r2, some r3, old.ports⟩, n4⟩ := by
          unfold GateOpenFault.eject
          rw [hupd2]
        rw [hej] at h
        exact Option.noConfusion (show some e = (none : Option Err) from h)
      | ok n5 =>
        obtain ⟨cMod', hg2', hn5⟩ := update_fet_ports_ok hupd2
        rw [hg2] at hg2'
        injection hg2' with hcmeq
        subst hcmeq
        have hn5c : n5.components =
            (n.components.filter (fun x => x.reference ≠ c)) ++
              ([⟨r1, [p1 ++ "_" ++ c ++ "_open", p1 ++ "_" ++ c ++ "_open" ++ "_couple"],
                  .num GATE_RESISTANCE⟩] ++
                ([⟨r2, [p0, p1 ++ "_" ++ c ++ "_open" ++ "_couple"],
                    .num COUPLING_RESISTANCE⟩] ++
                  ([⟨r3, [p2, p1 ++ "_" ++ c ++ "_open" ++ "_couple"],
                      .num COUPLING_RESISTANCE⟩] ++ [old]))) := by
          rw [hn5]
          dsimp only
          rw [hall, List.filter_append, List.filter_append, List.filter_append,
            List.filter_append,
            filter_ne_of_not_mem _ c (refs_filter_not_mem n.components c),
            filter_ne_singleton_nil
              (show (⟨old.reference, [p0, p1 ++ "_" ++ c ++ "_open", p2, p3],
                old.value⟩ : Component).reference = c from href),
            filter_ne_singleton_self
              (show (⟨r1, [p1 ++ "_" ++ c ++ "_open", p1 ++ "_" ++ c ++ "_open" ++ "_couple"],
                SpiceVal.num GATE_RESISTANCE⟩ : Component).reference ≠ c from hr1c),
            filter_ne_singleton_self
              (show (⟨r2, [p0, p1 ++ "_" ++ c ++ "_open" ++ "_couple"],
                SpiceVal.num COUPLING_RESISTANCE⟩ : Component).reference ≠ c from hr2c),
            filter_ne_singleton_self
              (show (⟨r3, [p2, p1 ++ "_" ++ c ++ "_open" ++ "_couple"],
                SpiceVal.num COUPLING_RESISTANCE⟩ : Component).reference ≠ c from hr3c)]
          simp [component_eta]
        obtain ⟨n6, hrm1, hn6c⟩ :
            ∃ x, n5.remove_component r1 = .ok x ∧ x.components =
              (n.components.filter (fun x => x.reference ≠ c)) ++
                ([⟨r2, [p0, p1 ++ "_" ++ c ++ "_open" ++ "_couple"],
                    .num COUPLING_RESISTANCE⟩] ++
                  ([⟨r3, [p2, p1 ++ "_" ++ c ++ "_open" ++ "_couple"],
                      .num COUPLING_RESISTANCE⟩] ++ [old])) := by
          have hg5 : n5.get_component r1 =
              some ⟨r1, [p1 ++ "_" ++ c ++ "_open", p1 ++ "_" ++ c ++ "_open" ++ "_couple"],
                .num GATE_RESISTANCE⟩ := by
            rw [@get_component_eval _ (n.components.filter (fun x => x.reference ≠ c)) _ _
              hn5c (find?_not_mem_refs_none _ _ h1L)]
            exact List.find?_cons_of_pos _ (by simp)
          refine ⟨_, remove_component_eval hg5, ?_⟩
          dsimp only
          rw [hn5c, List.filter_append, List.filter_append, List.filter_append,
            List.filter_append,
            filter_ne_of_not_mem _ r1 h1L,
            filter_ne_singleton_nil
              (show (⟨r1, [p1 ++ "_" ++ c ++ "_open", p1 ++ "_" ++ c ++ "_open" ++ "_couple"],
                SpiceVal.num GATE_RESISTANCE⟩ : Component).reference = r1 from rfl),
            filter_ne_singleton_self
              (show (⟨r2, [p0, p1 ++ "_" ++ c ++ "_open" ++ "_couple"],
                SpiceVal.num COUPLING_RESISTANCE⟩ : Component).reference ≠ r1 from hr21),
            filter_ne_singleton_self
              (show (⟨r3, [p2, p1 ++ "_" ++ c ++ "_open" ++ "_couple"],
                SpiceVal.num COUPLING_RESISTANCE⟩ : Component).reference ≠ r1 from hr31),
            filter_ne_singleton_self
              (show old.reference ≠ r1 from by rw [href]; exact fun hh => hr1c hh.symm)]
          simp
        obtain ⟨n7, hrm2, hn7c⟩ :
            ∃ x, n6.remove_component r2 = .ok x ∧ x.components =
              (n.components.filter (fun x => x.reference ≠ c)) ++
                ([⟨r3, [p2, p1 ++ "_" ++ c ++ "_open" ++ "_couple"],
                    .num COUPLING_RESISTANCE⟩] ++ [old]) := by
          have hg6 : n6.get_component r2 =
              some ⟨r2, [p0, p1 ++ "_" ++ c ++ "_open" ++ "_couple"],
                .num COUPLING_RESISTANCE⟩ := by
            rw [@get_component_eval _ (n.components.filter (fun x => x.reference ≠ c)) _ _
              hn6c (find?_not_mem_refs_none _ _ h2L)]
            exact List.find?_cons_of_pos _ (by simp)
          refine ⟨_, remove_component_eval hg6, ?_⟩
          dsimp only
          rw [hn6c, List.filter_append, List.filter_append, List.filter_append,
            filter_ne_of_not_mem _ r2 h2L,
            filter_ne_singleton_nil
              (show (⟨r2, [p0, p1 ++ "_" ++ c ++ "_open" ++ "_couple"],
                SpiceVal.num COUPLING_RESISTANCE⟩ : Component).reference = r2 from rfl),
            filter_ne_singleton_self
              (show (⟨r3, [p2, p1 ++ "_" ++ c ++ "_open" ++ "_couple"],
                SpiceVal.num COUPLING_RESISTANCE⟩ : Component).reference ≠ r2 from hr32),
            filter_ne_singleton_self
              (show old.reference ≠ r2 from by rw [href]; exact fun hh => hr2c hh.symm)]
          simp
        obtain ⟨n8, hrm3, hn8c⟩ :
            ∃ x, n7.remove_component r3 = .ok x ∧ x.components =
              (n.components.filter (fun x => x.reference ≠ c)) ++ [old] := by
          have hg7 : n7.get_component r3 =
              some ⟨r3, [p2, p1 ++ "_" ++ c ++ "_open" ++ "_couple"],
                .num COUPLING_RESISTANCE⟩ := by
            rw [@get_component_eval _ (n.components.filter (fun x => x.reference ≠ c)) _ _
              hn7c (find?_not_mem_refs_none _ _ h3L)]
            exact List.find?_cons_of_pos _ (by simp)
          refine ⟨_, remove_component_eval hg7, ?_⟩
          dsimp only
          rw [hn7c, List.filter_append, List.filter_append,
            filter_ne_of_not_mem _ r3 h3L,
            filter_ne_singleton_nil
              (show (⟨r3, [p2, p1 ++ "_" ++ c ++ "_open" ++ "_couple"],
                SpiceVal.num COUPLING_RESISTANCE⟩ : Component).reference = r3 from rfl),
            filter_ne_singleton_self
              (show old.reference ≠ r3 from by rw [href]; exact fun hh => hr3c hh.symm)]
          simp
        have hej := @gateOpenFault_eject_eval
          ⟨c, FState.injected, some r1, some r2, some r3, old.ports⟩
          _ _ hupd2 _ rfl _ hrm1 _ rfl _ hrm2 _ rfl _ hrm3 rfl
        rw [hej]
        dsimp only
        have hperm := filter_ne_perm n.components hnd old hmem
        rw [href] at hperm
        unfold NetList.obs
        rw [hn8c]
        exact Multiset.coe_eq_coe.mpr
          ((List.perm_append_singleton _ _).trans hperm.symm)

theorem gateDrainShort_make_ok {n : NetList} {c : String} {f : GateDrainShort}
    (h : GateDrainShort.make n c = .ok f) :
    ∃ old, n.get_component c = some old ∧ f = ⟨c, .notInjected, none, old.ports⟩ := by
  unfold GateDrainShort.make at h
  split at h
  · simp at h
  · unfold NetList.get_component_nodes at h
    cases hg : n.get_component c with
    | none => rw [hg] at h; simp at h
    | some old =>
      rw [hg] at h
      simp only [Except.ok.injEq] at h
      exact ⟨old, rfl, h.symm⟩

theorem gateDrainShort_inject_ok {f : GateDrainShort} {n : NetList}
    (hst : f.state = .notInjected) (herr : (f.inject n).err = none) :
    ∃ pa pb r n1,
      pyIndex f.fault_free_ports 1 = .ok pa ∧
      pyIndex f.fault_free_ports 0 = .ok pb ∧
      n.insert_resistor pa pb (.num SHORT_RESISTANCE) = .ok (r, n1) ∧
      f.inject n = ⟨none, { f with state := .injected, short_resistor := some r }, n1⟩ := by
  have hgd : Fault.inject_guard FState.notInjected = .ok .injected := by
    simp [Fault.inject_guard]
  unfold GateDrainShort.inject at herr ⊢
  rw [hst, hgd] at herr ⊢
  dsimp only at herr ⊢
  cases hpa : pyIndex f.fault_free_ports 1 with
  | error e =>
    rw [hpa] at herr
    exact Option.noConfusion (show some Err.valueError = (none : Option Err) from herr)
  | ok pa =>
    rw [hpa] at herr
    cases hpb : pyIndex f.fault_free_ports 0 with
    | error e =>
      rw [hpb] at herr
      exact Option.noConfusion (show some Err.valueError = (none : Option Err) from herr)
    | ok pb =>
      rw [hpb] at herr
      dsimp only at herr
      cases hins : n.insert_resistor pa pb (.num SHORT_RESISTANCE) with
      | error e =>
        rw [hins] at herr
        exact Option.noConfusion (show some e = (none : Option Err) from herr)
      | ok rn =>
        obtain ⟨r, n1⟩ := rn
        refine ⟨pa, pb, r, n1, rfl, rfl, hins, ?_⟩
        dsimp only
        rw [hins]

theorem gateDrainShort_eject_eval {f : GateDrainShort} {n : NetList} {r : String}
    (hr : f.short_resistor = some r) {n1 : NetList}
    (hrem : n.remove_component r = .ok n1) (hst : f.state = .injected) :
    f.eject n = ⟨none, { f with state := .notInjected }, n1⟩ := by
  have hgd : Fault.eject_guard FState.injected = .ok .notInjected := by
    simp [Fault.eject_guard]
  unfold GateDrainShort.eject NetList.remove_component_opt
  rw [hr]
  dsimp only
  rw [hrem]
  dsimp only
  rw [hst, hgd]

theorem gateDrainShort_roundTrip_obs (n : NetList) (c : String)
    (h : (gateDrainShortRoundTrip n c).1 = none) :
    (gateDrainShortRoundTrip n c).2.obs = n.obs := by
  simp only [gateDrainShortRoundTrip] at h ⊢
  cases hmk : GateDrainShort.make n c with
  | error e => rfl
  | ok f =>
    obtain ⟨old, hg, hf⟩ := gateDrainShort_make_ok hmk
    subst hf
    cases he : ((⟨c, FState.notInjected, none, old.ports⟩ : GateDrainShort).inject n).err with
    | some e =>
      rw [hmk] at h
      dsimp only at h
      rw [he] at h
      exact Option.noConfusion (show some e = (none : Option Err) from h)
    | none =>
      obtain ⟨pa, pb, r, n1, hpa, hpb, hins, hinj⟩ := gateDrainShort_inject_ok rfl he
      dsimp only at hpa hpb hins hinj
      rw [hmk] at h
      dsimp only at h
      rw [hinj] at h
      dsimp only at h
      dsimp only
      rw [hinj]
      dsimp only
      obtain ⟨hn1c, hfr⟩ := insert_resistor_ok hins
      have hg1 : n1.get_component r = some ⟨r, [pa, pb], .num SHORT_RESISTANCE⟩ := by
        rw [@get_component_eval _ (n.components) _ _ hn1c
          (find?_not_mem_refs_none _ _ hfr)]
        exact List.find?_cons_of_pos _ (by simp)
      have hrem := remove_component_eval hg1
      have hej := @gateDrainShort_eject_eval ⟨c, FState.injected, some r, old.ports⟩
        _ _ rfl _ hrem rfl
      rw [hej]
      dsimp only
      have hcomps := insert_remove_components hins hrem
      unfold NetList.obs
      rw [hcomps]

theorem gateSourceShort_make_ok {n : NetList} {c : String} {f : GateSourceShort}
    (h : GateSourceShort.make n c = .ok f) :
    ∃ old, n.get_component c = some old ∧ f = ⟨c, .notInjected, none, old.ports⟩ := by
  unfold GateSourceShort.make at h
  split at h
  · simp at h
  · unfold NetList.get_component_nodes at h
    cases hg : n.get_component c with
    | none => rw [hg] at h; simp at h
    | some old =>
      rw [hg] at h
      simp only [Except.ok.injEq] at h
      exact ⟨old, rfl, h.symm⟩

theorem gateSourceShort_inject_ok {f : GateSourceShort} {n : NetList}
    (hst : f.state = .notInjected) (herr : (f.inject n).err = none) :
    ∃ pa pb r n1,
      pyIndex f.fault_free_ports 1 = .ok pa ∧
      pyIndex f.fault_free_ports 2 = .ok pb ∧
      n.insert_resistor pa pb (.num SHORT_RESISTANCE) = .ok (r, n1) ∧
      f.inject n = ⟨none, { f with state := .injected, short_resistor := some r }, n1⟩ := by
  have hgd : Fault.inject_guard FState.notInjected = .ok .injected := by
    simp [Fault.inject_guard]
  unfold GateSourceShort.inject at herr ⊢
  rw [hst, hgd] at herr ⊢
  dsimp only at herr ⊢
  cases hpa : pyIndex f.fault_free_ports 1 with
  | error e =>
    rw [hpa] at herr
    exact Option.noConfusion (show some Err.valueError = (none : Option Err) from herr)
  | ok pa =>
    rw [hpa] at herr
    cases hpb : pyIndex f.fault_free_ports 2 with
    | error e =>
      rw [hpb] at herr
      exact Option.noConfusion (show some Err.valueError = (none : Option Err) from herr)
    | ok pb =>
      rw [hpb] at herr
      dsimp only at herr
      cases hins : n.insert_resistor pa pb (.num SHORT_RESISTANCE) with
      | error e =>
        rw [hins] at herr
        exact Option.noConfusion (show some e = (none : Option Err) from herr)
      | ok rn =>
        obtain ⟨r, n1⟩ := rn
        refine ⟨pa, pb, r, n1, rfl, rfl, hins, ?_⟩
        dsimp only
        rw [hins]

theorem gateSourceShort_eject_eval {f : GateSourceShort} {n : NetList} {r : String}
    (hr : f.short_resistor = some r) {n1 : NetList}
    (hrem : n.remove_component r = .ok n1) (hst : f.state = .injected) :
    f.eject n = ⟨none, { f with state := .notInjected }, n1⟩ := by
  have hgd : Fault.eject_guard FState.injected = .ok .notInjected := by
    simp [Fault.eject_guard]
  unfold GateSourceShort.eject NetList.remove_component_opt
  rw [hr]
  dsimp only
  rw [hrem]
  dsimp only
  rw [hst, hgd]

theorem gateSourceShort_roundTrip_obs (n : NetList) (c : String)
    (h : (gateSourceShortRoundTrip n c).1 = none) :
    (gateSourceShortRoundTrip n c).2.obs = n.obs := by
  simp only [gateSourceShortRoundTrip] at h ⊢
  cases hmk : GateSourceShort.make n c with
  | error e => rfl
  | ok f =>
    obtain ⟨old, hg, hf⟩ := gateSourceShort_make_ok hmk
    subst hf
    cases he : ((⟨c, FState.notInjected, none, old.ports⟩ : GateSourceShort).inject n).err with
    | some e =>
      rw [hmk] at h
      dsimp only at h
      rw [he] at h
      exact Option.noConfusion (show some e = (none : Option Err) from h)
    | none =>
      obtain ⟨pa, pb, r, n1, hpa, hpb, hins, hinj⟩ := gateSourceShort_inject_ok rfl he
      dsimp only at hpa hpb hins hinj
      rw [hmk] at h
      dsimp only at h
      rw [hinj] at h
      dsimp only at h
      dsimp only
      rw [hinj]
      dsimp only
      obtain ⟨hn1c, hfr⟩ := insert_resistor_ok hins
      have hg1 : n1.get_component r = some ⟨r, [pa, pb], .num SHORT_RESISTANCE⟩ := by
        rw [@get_component_eval _ (n.components) _ _ hn1c
          (find?_not_mem_refs_none _ _ hfr)]
        exact List.find?_cons_of_pos _ (by simp)
      have hrem := remove_component_eval hg1
      have hej := @gateSourceShort_eject_eval ⟨c, FState.injected, some r, old.ports⟩
        _ _ rfl _ hrem rfl
      rw [hej]
      dsimp only
      have hcomps := insert_remove_components hins hrem
      unfold NetList.obs
      rw [hcomps]

theorem drainSourceShort_make_ok {n : NetList} {c : String} {f : DrainSourceShort}
    (h : DrainSourceShort.make n c = .ok f) :
    ∃ old, n.get_component c = some old ∧ f = ⟨c, .notInjected, none, old.ports⟩ := by
  unfold DrainSourceShort.make at h
  split at h
  · simp at h
  · unfold NetList.get_component_nodes at h
    cases hg : n.get_component c with
    | none => rw [hg] at h; simp at h
    | some old =>
      rw [hg] at h
      simp only [Except.ok.injEq] at h
      exact ⟨old, rfl, h.symm⟩

theorem drainSourceShort_inject_ok {f : DrainSourceShort} {n : NetList}
    (hst : f.state = .notInjected) (herr : (f.inject n).err = none) :
    ∃ pa pb r n1,
      pyIndex f.fault_free_ports 0 = .ok pa ∧
      pyIndex f.fault_free_ports 2 = .ok pb ∧
      n.insert_resistor pa pb (.num SHORT_RESISTANCE) = .ok (r, n1) ∧
      f.inject n = ⟨none, { f with state := .injected, short_resistor := some r }, n1⟩ := by
  have hgd : Fault.inject_guard FState.notInjected = .ok .injected := by
    simp [Fault.inject_guard]
  unfold DrainSourceShort.inject at herr ⊢
  rw [hst, hgd] at herr ⊢
  dsimp only at herr ⊢
  cases hpa : pyIndex f.fault_free_ports 0 with
  | error e =>
    rw [hpa] at herr
    exact Option.noConfusion (show some Err.valueError = (none : Option Err) from herr)
  | ok pa =>
    rw [hpa] at herr
    cases hpb : pyIndex f.fault_free_ports 2 with
    | error e =>
      rw [hpb] at herr
      exact Option.noConfusion (show some Err.valueError = (none : Option Err) from herr)
    | ok pb =>
      rw [hpb] at herr
      dsimp only at herr
      cases hins : n.insert_resistor pa pb (.num SHORT_RESISTANCE) with
      | error e =>
        rw [hins] at herr
        exact Option.noConfusion (show some e = (none : Option Err) from herr)
      | ok rn =>
        obtain ⟨r, n1⟩ := rn
        refine ⟨pa, pb, r, n1, rfl, rfl, hins, ?_⟩
        dsimp only
        rw [hins]

theorem drainSourceShort_eject_eval {f : DrainSourceShort} {n : NetList} {r : String}
    (hr : f.short_resistor = some r) {n1 : NetList}
    (hrem : n.remove_component r = .ok n1) (hst : f.state = .injected) :
    f.eject n = ⟨none, { f with state := .notInjected }, n1⟩ := by
  have hgd : Fault.eject_guard FState.injected = .ok .notInjected := by
    simp [Fault.eject_guard]
  unfold DrainSourceShort.eject NetList.remove_component_opt
  rw [hr]
  dsimp only
  rw [hrem]
  dsimp only
  rw [hst, hgd]

theorem drainSourceShort_roundTrip_obs (n : NetList) (c : String)
    (h : (drainSourceShortRoundTrip n c).1 = none) :
    (drainSourceShortRoundTrip n c).2.obs = n.obs := by
  simp only [drainSourceShortRoundTrip] at h ⊢
  cases hmk : DrainSourceShort.make n c with
  | error e => rfl
  | ok f =>
    obtain ⟨old, hg, hf⟩ := drainSourceShort_make_ok hmk
    subst hf
    cases he : ((⟨c, FState.notInjected, none, old.ports⟩ : DrainSourceShort).inject n).err with
    | some e =>
      rw [hmk] at h
      dsimp only at h
      rw [he] at h
      exact Option.noConfusion (show some e = (none : Option Err) from h)
    | none =>
      obtain ⟨pa, pb, r, n1, hpa, hpb, hins, hinj⟩ := drainSourceShort_inject_ok rfl he
      dsimp only at hpa hpb hins hinj
      rw [hmk] at h
      dsimp only at h
      rw [hinj] at h
      dsimp only at h
      dsimp only
      rw [hinj]
      dsimp only
      obtain ⟨hn1c, hfr⟩ := insert_resistor_ok hins
      have hg1 : n1.get_component r = some ⟨r, [pa, pb], .num SHORT_RESISTANCE⟩ := by
        rw [@get_component_eval _ (n.components) _ _ hn1c
          (find?_not_mem_refs_none _ _ hfr)]
        exact List.find?_cons_of_pos _ (by simp)
      have hrem := remove_component_eval hg1
      have hej := @drainSourceShort_eject_eval ⟨c, FState.injected, some r, old.ports⟩
        _ _ rfl _ hrem rfl
      rw [hej]
      dsimp only
      have hcomps := insert_remove_components hins hrem
      unfold NetList.obs
      rw [hcomps]

theorem capacitorShort_make_ok {n : NetList} {c : String} {f : CapacitorShort}
    (h : CapacitorShort.make n c = .ok f) :
    ∃ old, n.get_component c = some old ∧ f = ⟨c, .notInjected, none, old.ports⟩ := by
  unfold CapacitorShort.make at h
  split at h
  · simp at h
  · unfold NetList.get_component_nodes at h
    cases hg : n.get_component c with
    | none => rw [hg] at h; simp at h
    | some old =>
      rw [hg] at h
      simp only [Except.ok.injEq] at h
      exact ⟨old, rfl, h.symm⟩

theorem capacitorShort_inject_ok {f : CapacitorShort} {n : NetList}
    (hst : f.state = .notInjected) (herr : (f.inject n).err = none) :
    ∃ pa pb r n1,
      pyIndex f.fault_free_ports 0 = .ok pa ∧
      pyIndex f.fault_free_ports 1 = .ok pb ∧
      n.insert_resistor pa pb (.num SHORT_RESISTANCE) = .ok (r, n1) ∧
      f.inject n = ⟨none, { f with state := .injected, short_resistor := some r }, n1⟩ := by
  have hgd : Fault.inject_guard FState.notInjected = .ok .injected := by
    simp [Fault.inject_guard]
  unfold CapacitorShort.inject at herr ⊢
  rw [hst, hgd] at herr ⊢
  dsimp only at herr ⊢
  cases hpa : pyIndex f.fault_free_ports 0 with
  | error e =>
    rw [hpa] at herr
    exact Option.noConfusion (show some Err.valueError = (none : Option Err) from herr)
  | ok pa =>
    rw [hpa] at herr
    cases hpb : pyIndex f.fault_free_ports 1 with
    | error e =>
      rw [hpb] at herr
      exact Option.noConfusion (show some Err.valueError = (none : Option Err) from herr)
    | ok pb =>
      rw [hpb] at herr
      dsimp only at herr
      cases hins : n.insert_resistor pa pb (.num SHORT_RESISTANCE) with
      | error e =>
        rw [hins] at herr
        exact Option.noConfusion (show some e = (none : Option Err) from herr)
      | ok rn =>
        obtain ⟨r, n1⟩ := rn
        refine ⟨pa, pb, r, n1, rfl, rfl, hins, ?_⟩
        dsimp only
        rw [hins]

theorem capacitorShort_eject_eval {f : CapacitorShort} {n : NetList} {r : String}
    (hr : f.short_resistor = some r) {n1 : NetList}
    (hrem : n.remove_component r = .ok n1) (hst : f.state = .injected) :
    f.eject n = ⟨none, { f with state := .notInjected }, n1⟩ := by
  have hgd : Fault.eject_guard FState.injected = .ok .notInjected := by
    simp [Fault.eject_guard]
  unfold CapacitorShort.eject NetList.remove_component_opt
  rw [hr]
  dsimp only
  rw [hrem]
  dsimp only
  rw [hst, hgd]

theorem capacitorShort_roundTrip_obs (n : NetList) (c : String)
    (h : (capacitorShortRoundTrip n c).1 = none) :
    (capacitorShortRoundTrip n c).2.obs = n.obs := by
  simp only [capacitorShortRoundTrip] at h ⊢
  cases hmk : CapacitorShort.make n c with
  | error e => rfl
  | ok f =>
    obtain ⟨old, hg, hf⟩ := capacitorShort_make_ok hmk
    subst hf
    cases he : ((⟨c, FState.notInjected, none, old.ports⟩ : CapacitorShort).inject n).err with
    | some e =>
      rw [hmk] at h
      dsimp only at h
      rw [he] at h
      exact Option.noConfusion (show some e = (none : Option Err) from h)
    | none =>
      obtain ⟨pa, pb, r, n1, hpa, hpb, hins, hinj⟩ := capacitorShort_inject_ok rfl he
      dsimp only at hpa hpb hins hinj
      rw [hmk] at h
      dsimp only at h
      rw [hinj] at h
      dsimp only at h
      dsimp only
      rw [hinj]
      dsimp only
      obtain ⟨hn1c, hfr⟩ := insert_resistor_ok hins
      have hg1 : n1.get_component r = some ⟨r, [pa, pb], .num SHORT_RESISTANCE⟩ := by
        rw [@get_component_eval _ (n.components) _ _ hn1c
          (find?_not_mem_refs_none _ _ hfr)]
        exact List.find?_cons_of_pos _ (by simp)
      have hrem := remove_component_eval hg1
      have hej := @capacitorShort_eject_eval ⟨c, FState.injected, some r, old.ports⟩
        _ _ rfl _ hrem rfl
      rw [hej]
      dsimp only
      have hcomps := insert_remove_components hins hrem
      unfold NetList.obs
      rw [hcomps]

theorem set_component_value_eval {n : NetList} {ref : String} {old : Component}
    (hg : n.get_component ref = some old) (v : SpiceVal) :
    n.set_component_value ref v = .ok { n with components := n.components.map (fun c =>
      if c.reference = ref then { c with value := v } else c) } := by
  unfold NetList.set_component_value
  rw [hg]

theorem get_component_map_value {n : NetList} {ref : String} {old : Component}
    (hg : n.get_component ref = some old) (v : SpiceVal) :
    ({ n with components := n.components.map (fun c =>
      if c.reference = ref then { c with value := v } else c) } :
        NetList).get_component ref =
      some (if old.reference = ref then { old with value := v } else old) := by
  unfold NetList.get_component at hg ⊢
  dsimp only
  rw [List.find?_map]
  have hpred : ((fun c : Component => c.reference == ref) ∘
      (fun c => if c.reference = ref then { c with value := v } else c)) =
      (fun c : Component => c.reference == ref) := by
    funext x
    by_cases hx : x.reference = ref
    · simp [hx]
    · simp [hx]
  rw [hpred, hg]
  rfl

theorem resistorOpen_make_ok {n : NetList} {c : String} {f : ResistorOpen}
    (h : ResistorOpen.make n c = .ok f) :
    ∃ old, n.get_component c = some old ∧ f = ⟨c, .notInjected, old.value⟩ := by
  unfold ResistorOpen.make at h
  split at h
  · simp at h
  · unfold NetList.get_component_value at h
    cases hg : n.get_component c with
    | none => rw [hg] at h; simp at h
    | some old =>
      rw [hg] at h
      simp only [Except.ok.injEq] at h
      exact ⟨old, rfl, h.symm⟩

theorem resistorOpen_inject_eval {f : ResistorOpen} {n : NetList}
    (hst : f.state = .notInjected) {n1 : NetList}
    (hset : n.set_component_value f.component (.num OPEN_RESISTANCE) = .ok n1) :
    f.inject n = ⟨none, { f with state := .injected }, n1⟩ := by
  have hgd : Fault.inject_guard FState.notInjected = .ok .injected := by
    simp [Fault.inject_guard]
  unfold ResistorOpen.inject
  rw [hst, hgd]
  dsimp only
  rw [hset]

theorem resistorOpen_eject_eval {f : ResistorOpen} {n : NetList} {n1 : NetList}
    (hset : n.set_component_value f.component f.fault_free_value = .ok n1)
    (hst : f.state = .injected) :
    f.eject n = ⟨none, { f with state := .notInjected }, n1⟩ := by
  have hgd : Fault.eject_guard FState.injected = .ok .notInjected := by
    simp [Fault.eject_guard]
  unfold ResistorOpen.eject
  rw [hset]
  dsimp only
  rw [hst, hgd]

theorem resistorOpen_roundTrip_obs (n : NetList) (c : String)
    (hnd : (n.components.map Component.reference).Nodup)
    (h : (resistorOpenRoundTrip n c).1 = none) :
    (resistorOpenRoundTrip n c).2.obs = n.obs := by
  simp only [resistorOpenRoundTrip] at h ⊢
  cases hmk : ResistorOpen.make n c with
  | error e => rfl
  | ok f =>
    obtain ⟨old, hg, hf⟩ := resistorOpen_make_ok hmk
    subst hf
    have hset1 := set_component_value_eval hg (.num OPEN_RESISTANCE)
    have hinj := @resistorOpen_inject_eval ⟨c, FState.notInjected, old.value⟩ _ rfl _ hset1
    have hg1 := get_component_map_value hg (.num OPEN_RESISTANCE)
    have hset2 := set_component_value_eval hg1 old.value
    have hej := @resistorOpen_eject_eval ⟨c, FState.injected, old.value⟩ _ _ hset2 rfl
    dsimp only
    rw [hinj]
    dsimp only
    rw [hej]
    dsimp only
    unfold NetList.obs
    dsimp only
    rw [map_set_value_restore n.components hnd c (.num OPEN_RESISTANCE) old hg]

theorem resistorShort_make_ok {n : NetList} {c : String} {f : ResistorShort}
    (h : ResistorShort.make n c = .ok f) :
    ∃ old, n.get_component c = some old ∧ f = ⟨c, .notInjected, old.value⟩ := by
  unfold ResistorShort.make at h
  split at h
  · simp at h
  · unfold NetList.get_component_value at h
    cases hg : n.get_component c with
    | none => rw [hg] at h; simp at h
    | some old =>
      rw [hg] at h
      simp only [Except.ok.injEq] at h
      exact ⟨old, rfl, h.symm⟩

theorem resistorShort_inject_eval {f : ResistorShort} {n : NetList}
    (hst : f.state = .notInjected) {n1 : NetList}
    (hset : n.set_component_value f.component (.num SHORT_RESISTANCE) = .ok n1) :
    f.inject n = ⟨none, { f with state := .injected }, n1⟩ := by
  have hgd : Fault.inject_guard FState.notInjected = .ok .injected := by
    simp [Fault.inject_guard]
  unfold ResistorShort.inject
  rw [hst, hgd]
  dsimp only
  rw [hset]

theorem resistorShort_eject_eval {f : ResistorShort} {n : NetList} {n1 : NetList}
    (hset : n.set_component_value f.component f.fault_free_value = .ok n1)
    (hst : f.state = .injected) :
    f.eject n = ⟨none, { f with state := .notInjected }, n1⟩ := by
  have hgd : Fault.eject_guard FState.injected = .ok .notInjected := by
    simp [Fault.eject_guard]
  unfold ResistorShort.eject
  rw [hset]
  dsimp only
  rw [hst, hgd]

theorem resistorShort_roundTrip_obs (n : NetList) (c : String)
    (hnd : (n.components.map Component.reference).Nodup)
    (h : (resistorShortRoundTrip n c).1 = none) :
    (resistorShortRoundTrip n c).2.obs = n.obs := by
  simp only [resistorShortRoundTrip] at h ⊢
  cases hmk : ResistorShort.make n c with
  | error e => rfl
  | ok f =>
    obtain ⟨old, hg, hf⟩ := resistorShort_make_ok hmk
    subst hf
    have hset1 := set_component_value_eval hg (.num SHORT_RESISTANCE)
    have hinj := @resistorShort_inject_eval ⟨c, FState.notInjected, old.value⟩ _ rfl _ hset1
    have hg1 := get_component_map_value hg (.num SHORT_RESISTANCE)
    have hset2 := set_component_value_eval hg1 old.value
    have hej := @resistorShort_eject_eval ⟨c, FState.injected, old.value⟩ _ _ hset2 rfl
    dsimp only
    rw [hinj]
    dsimp only
    rw [hej]
    dsimp only
    unfold NetList.obs
    dsimp only
    rw [map_set_value_restore n.components hnd c (.num SHORT_RESISTANCE) old hg]

theorem measureObserver_inject_eval {m : MeasureObserver} (hst : m.state = .notInjected)
    (n : NetList) : m.inject n = ⟨none, { m with state := .injected }, n⟩ := by
  have hgd : TestUtility.inject_guard UState.notInjected = .ok .injected := by
    simp [TestUtility.inject_guard]
  unfold MeasureObserver.inject
  rw [hst, hgd]

theorem measureObserver_activate_eval {m : MeasureObserver} (hst : m.state = .injected)
    (n : NetList) :
    m.activate n = ⟨none, { m with state := .active },
      n.add_instructions
        [measDirective (m.low_result_variable ++ "_FALL") m.meas_node m.low_threshold "FALL",
         measDirective (m.low_result_variable ++ "_RISE") m.meas_node m.low_threshold "RISE",
         measDirective (m.high_result_variable ++ "_FALL") m.meas_node m.high_threshold "FALL",
         measDirective (m.high_result_variable ++ "_RISE") m.meas_node m.high_threshold "RISE"]⟩ := by
  have hgd : TestUtility.activate_guard UState.injected = .ok .active := by
    simp [TestUtility.activate_guard]
  unfold MeasureObserver.activate
  rw [hst, hgd]

theorem measureObserver_deactivate_eval {m : MeasureObserver} (hst : m.state = .active)
    (n : NetList) :
    m.deactivate n = ⟨none, { m with state := .injected },
      n.remove_instructions_matching (".meas TRAN " ++ m.meas_node ++ RESULT_NAME_TAG)⟩ := by
  have hgd : TestUtility.deactivate_guard UState.active = .ok .injected := by
    simp [TestUtility.deactivate_guard]
  unfold MeasureObserver.deactivate
  rw [hst, hgd]

theorem measureObserver_eject_eval_injected {m : MeasureObserver} (hst : m.state = .injected)
    (n : NetList) : m.eject n = ⟨none, { m with state := .notInjected }, n⟩ := by
  unfold MeasureObserver.eject TestUtility.eject_base
  dsimp only
  rw [hst]
  rfl

theorem measureObserver_eject_eval_active {m : MeasureObserver} (hst : m.state = .active)
    (n : NetList) :
    m.eject n = ⟨none, { m with state := .notInjected },
      n.remove_instructions_matching (".meas TRAN " ++ m.meas_node ++ RESULT_NAME_TAG)⟩ := by
  unfold MeasureObserver.eject TestUtility.eject_base
  dsimp only
  rw [hst]
  rw [if_neg (by simp), if_pos rfl, measureObserver_deactivate_eval hst]

theorem measureObserver_roundTrip_obs (n : NetList) (node : String) (lo hi : ℚ) :
    (measureObserverRoundTrip n node lo hi).2.obs = n.obs := by
  simp only [measureObserverRoundTrip, MeasureObserver.make]
  rw [measureObserver_inject_eval rfl]
  dsimp only
  rw [measureObserver_activate_eval rfl]
  dsimp only
  rw [measureObserver_deactivate_eval rfl]
  dsimp only
  rw [measureObserver_eject_eval_injected rfl]
  rfl

theorem inverterObserver_inject_ok {o : InverterObserver} {n : NetList}
    (hst : o.meas.state = .notInjected) (herr : (o.inject n).err = none) :
    ∃ p n1 q n2,
      n.insert_fet (o.observer_node ++ INVERTER_NODE_TAG) o.observer_node n.supply_node
        PMOS_MODEL = .ok (p, n1) ∧
      n1.insert_fet (o.observer_node ++ INVERTER_NODE_TAG) o.observer_node n.ground_node
        NMOS_MODEL = .ok (q, n2) ∧
      o.inject n =
        ⟨none,
         { o with
            meas := { o.meas with state := .injected },
            pmos := some p,
            nmos := some q },
         n2⟩ := by
  have hgd : TestUtility.inject_guard UState.notInjected = .ok .injected := by
    simp [TestUtility.inject_guard]
  unfold InverterObserver.inject at herr ⊢
  rw [hst, hgd] at herr ⊢
  dsimp only at herr ⊢
  cases hf1 : n.insert_fet (o.observer_node ++ INVERTER_NODE_TAG) o.observer_node
      n.supply_node PMOS_MODEL with
  | error e =>
    rw [hf1] at herr
    exact Option.noConfusion (show some e = (none : Option Err) from herr)
  | ok rn1 =>
    obtain ⟨p, n1⟩ := rn1
    rw [hf1] at herr
    dsimp only at herr
    cases hf2 : n1.insert_fet (o.observer_node ++ INVERTER_NODE_TAG) o.observer_node
        n.ground_node NMOS_MODEL with
    | error e =>
      rw [hf2] at herr
      exact Option.noConfusion (show some e = (none : Option Err) from herr)
    | ok rn2 =>
      obtain ⟨q, n2⟩ := rn2
      refine ⟨p, n1, q, n2, rfl, hf2, ?_⟩
      dsimp only
      rw [hf2]

theorem inverterObserver_activate_eval {o : InverterObserver} (hst : o.meas.state = .injected)
    (n : NetList) :
    o.activate n = ⟨none, { o with meas := { o.meas with state := .active } },
      n.add_instructions
        [measDirective (o.meas.low_result_variable ++ "_FALL") o.meas.meas_node
          o.meas.low_threshold "FALL",
         measDirective (o.meas.low_result_variable ++ "_RISE") o.meas.meas_node
          o.meas.low_threshold "RISE",
         measDirective (o.meas.high_result_variable ++ "_FALL") o.meas.meas_node
          o.meas.high_threshold "FALL",
         measDirective (o.meas.high_result_variable ++ "_RISE") o.meas.meas_node
          o.meas.high_threshold "RISE"]⟩ := by
  unfold InverterObserver.activate
  rw [measureObserver_activate_eval hst]

theorem inverterObserver_deactivate_eval {o : InverterObserver} (hst : o.meas.state = .active)
    (n : NetList) :
    o.deactivate n = ⟨none, { o with meas := { o.meas with state := .injected } },
      n.remove_instructions_matching
        (".meas TRAN " ++ o.meas.meas_node ++ RESULT_NAME_TAG)⟩ := by
  unfold InverterObserver.deactivate
  rw [measureObserver_deactivate_eval hst]

theorem inverterObserver_eject_eval_injected {o : InverterObserver} {n : NetList}
    {p : String} (hp : o.pmos = some p) {n1 : NetList}
    (hrp : n.remove_component p = .ok n1)
    {q : String} (hq : o.nmos = some q) {n2 : NetList}
    (hrq : n1.remove_component q = .ok n2)
    (hst : o.meas.state = .injected) :
    o.eject n = ⟨none, { o with meas := { o.meas with state := .notInjected } }, n2⟩ := by
  unfold InverterObserver.eject NetList.remove_component_opt TestUtility.eject_base
  dsimp only
  rw [hp, hq, hst]
  dsimp only
  rw [hrp]
  dsimp only
  rw [hrq]
  dsimp only
  rw [if_neg (by simp), if_neg (by simp)]

theorem inverterObserver_roundTrip_obs (n : NetList) (node : String)
    (h : (inverterObserverRoundTrip n node).1 = none) :
    (inverterObserverRoundTrip n node).2.obs = n.obs := by
  simp only [inverterObserverRoundTrip] at h ⊢
  cases he : ((InverterObserver.make n node).inject n).err with
  | some e =>
    rw [he] at h
    exact Option.noConfusion (show some e = (none : Option Err) from h)
  | none =>
    obtain ⟨p, n1, q, n2, hf1, hf2, hinj⟩ := inverterObserver_inject_ok rfl he
    dsimp only [InverterObserver.make, MeasureObserver.make] at hf1 hf2 hinj
    dsimp only [InverterObserver.make, MeasureObserver.make] at h ⊢
    rw [hinj] at h ⊢
    dsimp only at h ⊢
    obtain ⟨n3, hact, h3c⟩ :
        ∃ x, (⟨⟨UState.injected, node ++ INVERTER_NODE_TAG, ratAdd n.vss LOGIC_MARGIN,
            ratSub n.vdd LOGIC_MARGIN, none⟩, node, some p, some q⟩ :
            InverterObserver).activate n2 =
          ⟨none, ⟨⟨UState.active, node ++ INVERTER_NODE_TAG, ratAdd n.vss LOGIC_MARGIN,
            ratSub n.vdd LOGIC_MARGIN, none⟩, node, some p, some q⟩, x⟩ ∧
          x.components = n2.components :=
      ⟨_, inverterObserver_activate_eval rfl n2, rfl⟩
    rw [hact] at h ⊢
    dsimp only at h ⊢
    obtain ⟨n4, hdeact, h4c⟩ :
        ∃ x, (⟨⟨UState.active, node ++ INVERTER_NODE_TAG, ratAdd n.vss LOGIC_MARGIN,
            ratSub n.vdd LOGIC_MARGIN, none⟩, node, some p, some q⟩ :
            InverterObserver).deactivate n3 =
          ⟨none, ⟨⟨UState.injected, node ++ INVERTER_NODE_TAG, ratAdd n.vss LOGIC_MARGIN,
            ratSub n.vdd LOGIC_MARGIN, none⟩, node, some p, some q⟩, x⟩ ∧
          x.components = n3.components :=
      ⟨_, inverterObserver_deactivate_eval rfl n3, rfl⟩
    rw [hdeact] at h ⊢
    dsimp only at h ⊢
    obtain ⟨hn1c, hfrp⟩ := insert_fet_ok hf1
    obtain ⟨hn2c, hfrq⟩ := insert_fet_ok hf2
    rw [hn1c] at hfrq
    obtain ⟨hqn, hqp⟩ := not_mem_refs_append hfrq
    have hqp' : q ≠ p := by
      have := not_mem_refs_singleton hqp
      exact this
    have hall : n4.components = n.components ++
        ([⟨p, [node ++ INVERTER_NODE_TAG, node, n.supply_node, n.supply_node],
            .str PMOS_MODEL⟩] ++
          [⟨q, [node ++ INVERTER_NODE_TAG, node, n.ground_node, n.ground_node],
            .str NMOS_MODEL⟩]) := by
      rw [h4c, h3c, hn2c, hn1c, List.append_assoc]
    have hgp : n4.get_component p =
        some ⟨p, [node ++ INVERTER_NODE_TAG, node, n.supply_node, n.supply_node],
          .str PMOS_MODEL⟩ := by
      rw [@get_component_eval _ (n.components) _ _ hall
        (find?_not_mem_refs_none _ _ hfrp)]
      exact List.find?_cons_of_pos _ (by simp)
    have hrp := remove_component_eval hgp
    have h5c : ({ n4 with components :=
        n4.components.filter (fun x => x.reference ≠ p) } : NetList).components =
        n.components ++
          [⟨q, [node ++ INVERTER_NODE_TAG, node, n.ground_node, n.ground_node],
            .str NMOS_MODEL⟩] := by
      dsimp only
      rw [hall, List.filter_append, List.filter_append,
        filter_ne_of_not_mem _ p hfrp,
        filter_ne_singleton_nil
          (show (⟨p, [node ++ INVERTER_NODE_TAG, node, n.supply_node, n.supply_node],
            SpiceVal.str PMOS_MODEL⟩ : Component).reference = p from rfl),
        filter_ne_singleton_self
          (show (⟨q, [node ++ INVERTER_NODE_TAG, node, n.ground_node, n.ground_node],
            SpiceVal.str NMOS_MODEL⟩ : Component).reference ≠ p from hqp')]
      simp
    have hgq : ({ n4 with components :=
        n4.components.filter (fun x => x.reference ≠ p) } : NetList).get_component q =
        some ⟨q, [node ++ INVERTER_NODE_TAG, node, n.ground_node, n.ground_node],
          .str NMOS_MODEL⟩ := by
      rw [@get_component_eval _ (n.components) _ _ h5c
        (find?_not_mem_refs_none _ _ hqn)]
      exact List.find?_cons_of_pos _ (by simp)
    have hrq := remove_component_eval hgq
    have hej := @inverterObserver_eject_eval_injected
      ⟨⟨UState.injected, node ++ INVERTER_NODE_TAG, ratAdd n.vss LOGIC_MARGIN,
        ratSub n.vdd LOGIC_MARGIN, none⟩, node, some p, some q⟩
      _ _ rfl _ hrp _ rfl _ hrq rfl
    rw [hej]
    dsimp only
    unfold NetList.obs
    have hcomp : ((n4.components.filter (fun x => x.reference ≠ p)).filter
        (fun x => x.reference ≠ q)) = n.components := by
      have h5c2 := h5c
      dsimp only at h5c2
      rw [h5c2, List.filter_append, filter_ne_of_not_mem _ q hqn,
        filter_ne_singleton_nil
          (show (⟨q, [node ++ INVERTER_NODE_TAG, node, n.ground_node, n.ground_node],
            SpiceVal.str NMOS_MODEL⟩ : Component).reference = q from rfl)]
      simp
    exact congrArg Multiset.ofList hcomp

theorem setValAt_reference (s : String) (v : SpiceVal) (c : Component) :
    (setValAt s v c).reference = c.reference := by
  unfold setValAt
  by_cases h : c.reference = s <;> simp [h]

theorem setValAt_skip (s : String) (v : SpiceVal) (c : Component)
    (h : c.reference ≠ s) : setValAt s v c = c := by
  unfold setValAt
  rw [if_neg h]

theorem map_setValAt_refs (l : List Component) (s : String) (v : SpiceVal) :
    (l.map (setValAt s v)).map Component.reference = l.map Component.reference := by
  rw [List.map_map]
  exact List.map_congr_left (fun c _ => setValAt_reference s v c)

theorem map_setValAt_not_mem (l : List Component) (s : String) (v : SpiceVal)
    (h : s ∉ l.map Component.reference) :
    l.map (setValAt s v) = l := by
  induction l with
  | nil => rfl
  | cons a t ih =>
    simp only [List.map_cons, List.mem_cons, not_or] at h
    rw [List.map_cons, setValAt_skip s v a (fun hh => h.1 hh.symm), ih h.2]

theorem get_component_of_components {n : NetList} {l : List Component}
    (h : n.components = l) (ref : String) :
    n.get_component ref = l.find? (fun c => c.reference == ref) := by
  unfold NetList.get_component
  rw [h]

theorem get_component_map_setValAt {n2 n3 : NetList} {s : String} {v : SpiceVal}
    (h : n3.components = n2.components.map (setValAt s v)) (ref : String) :
    n3.get_component ref = (n2.get_component ref).map (setValAt s v) := by
  unfold NetList.get_component
  rw [h, List.find?_map]
  have hpred : ((fun c : Component => c.reference == ref) ∘ setValAt s v) =
      (fun c : Component => c.reference == ref) := by
    funext c
    simp [Function.comp, setValAt_reference]
  rw [hpred]

theorem set_component_value_none {n : NetList} {ref : String}
    (hg : n.get_component ref = none) (v : SpiceVal) :
    n.set_component_value ref v = .error .componentNotFound := by
  unfold NetList.set_component_value
  rw [hg]

theorem injectionPoint_inject_ok {ip : InjectionPoint} {n : NetList}
    (hst : ip.state = .notInjected) (herr : (ip.inject n).err = none) :
    ∃ src n1 f n2,
      n.insert_source
        (ip.node ++ (if ip.pull_up then PMOS_GATE_NODE_TAG else NMOS_GATE_NODE_TAG))
        n.ground_node (.num (if ip.pull_up then n.vdd else n.vss)) = .ok (src, n1) ∧
      n1.insert_fet ip.node
        (ip.node ++ (if ip.pull_up then PMOS_GATE_NODE_TAG else NMOS_GATE_NODE_TAG))
        (if ip.pull_up then n.supply_node else n.ground_node)
        (if ip.pull_up then PMOS_MODEL else NMOS_MODEL) = .ok (f, n2) ∧
      ip.inject n =
        ⟨none,
         { ip with
            state := .injected,
            fet := some f,
            source := some src },
         n2⟩ := by
  have hgd : TestUtility.inject_guard UState.notInjected = .ok .injected := by
    simp [TestUtility.inject_guard]
  unfold InjectionPoint.inject at herr ⊢
  rw [hst, hgd] at herr ⊢
  dsimp only at herr ⊢
  cases hpu : ip.pull_up with
  | true =>
    rw [hpu] at herr
    simp only [reduceIte] at herr ⊢
    cases hf1 : n.insert_source (ip.node ++ PMOS_GATE_NODE_TAG) n.ground_node
        (.num n.vdd) with
    | error e =>
      rw [hf1] at herr
      exact Option.noConfusion (show some e = (none : Option Err) from herr)
    | ok rn1 =>
      obtain ⟨src, n1⟩ := rn1
      rw [hf1] at herr
      dsimp only at herr
      cases hf2 : n1.insert_fet ip.node (ip.node ++ PMOS_GATE_NODE_TAG) n.supply_node
          PMOS_MODEL with
      | error e =>
        rw [hf2] at herr
        exact Option.noConfusion (show some e = (none : Option Err) from herr)
      | ok rn2 =>
        obtain ⟨f, n2⟩ := rn2
        refine ⟨src, n1, f, n2, rfl, hf2, ?_⟩
        dsimp only
        rw [hf2]
  | false =>
    rw [hpu] at herr
    simp only [Bool.false_eq_true, if_false] at herr ⊢
    cases hf1 : n.insert_source (ip.node ++ NMOS_GATE_NODE_TAG) n.ground_node
        (.num n.vss) with
    | error e =>
      rw [hf1] at herr
      exact Option.noConfusion (show some e = (none : Option Err) from herr)
    | ok rn1 =>
      obtain ⟨src, n1⟩ := rn1
      rw [hf1] at herr
      dsimp only at herr
      cases hf2 : n1.insert_fet ip.node (ip.node ++ NMOS_GATE_NODE_TAG) n.ground_node
          NMOS_MODEL with
      | error e =>
        rw [hf2] at herr
        exact Option.noConfusion (show some e = (none : Option Err) from herr)
      | ok rn2 =>
        obtain ⟨f, n2⟩ := rn2
        refine ⟨src, n1, f, n2, rfl, hf2, ?_⟩
        dsimp only
        rw [hf2]

theorem injectionPoint_activate_eval {ip : InjectionPoint} {n : NetList} {s : String}
    (hsrc : ip.source = some s) {old : Component} (hg : n.get_component s = some old)
    (hst : ip.state = .injected) :
    ip.activate n = ⟨none, { ip with state := .active },
      { n with components := n.components.map (fun c =>
          if c.reference = s then
            { c with value := .str (if ip.pull_up then
              "PULSE(" ++ ratToStr n.vdd ++ " " ++ ratToStr n.vss ++ " " ++
                INJECTION_TIMING ++ ")"
            else
              "PULSE(" ++ ratToStr n.vss ++ " " ++ ratToStr n.vdd ++ " " ++
                INJECTION_TIMING ++ ")") }
          else c) }⟩ := by
  have hgd : TestUtility.activate_guard UState.injected = .ok .active := by
    simp [TestUtility.activate_guard]
  unfold InjectionPoint.activate NetList.set_component_value_opt
  rw [hst, hgd]
  dsimp only
  rw [hsrc]
  dsimp only
  rw [set_component_value_eval hg]

theorem injectionPoint_deactivate_eval {ip : InjectionPoint} {n : NetList} {s : String}
    (hsrc : ip.source = some s) {old : Component} (hg : n.get_component s = some old)
    (hst : ip.state = .active) :
    ip.deactivate n = ⟨none, { ip with state := .injected },
      { n with components := n.components.map (fun c =>
          if c.reference = s then
            { c with value := if ip.pull_up then .num n.vdd else .num n.vss }
          else c) }⟩ := by
  have hgd : TestUtility.deactivate_guard UState.active = .ok .injected := by
    simp [TestUtility.deactivate_guard]
  unfold InjectionPoint.deactivate NetList.set_component_value_opt
  rw [hst, hgd]
  dsimp only
  rw [hsrc]
  dsimp only
  rw [set_component_value_eval hg]

theorem injectionPoint_deactivate_eval_missing {ip : InjectionPoint} {n : NetList}
    {s : String} (hsrc : ip.source = some s) (hg : n.get_component s = none)
    (hst : ip.state = .active) :
    ip.deactivate n = ⟨some .componentNotFound, { ip with state := .injected }, n⟩ := by
  have hgd : TestUtility.deactivate_guard UState.active = .ok .injected := by
    simp [TestUtility.deactivate_guard]
  unfold InjectionPoint.deactivate NetList.set_component_value_opt
  rw [hst, hgd]
  dsimp only
  rw [hsrc]
  dsimp only
  rw [set_component_value_none hg]

theorem injectionPoint_eject_eval_injected {ip : InjectionPoint} {n : NetList}
    {f : String} (hf : ip.fet = some f) {n1 : NetList}
    (hrf : n.remove_component f = .ok n1)
    {s : String} (hs : ip.source = some s) {n2 : NetList}
    (hrs : n1.remove_component s = .ok n2)
    (hst : ip.state = .injected) :
    ip.eject n = ⟨none, { ip with state := .notInjected }, n2⟩ := by
  unfold InjectionPoint.eject NetList.remove_component_opt TestUtility.eject_base
  dsimp only
  rw [hf, hs, hst]
  dsimp only
  rw [hrf]
  dsimp only
  rw [hrs]
  dsimp only
  rw [if_neg (by simp), if_neg (by simp)]

theorem injectionPoint_eject_eval_active {ip : InjectionPoint} {n : NetList}
    {f : String} (hf : ip.fet = some f) {n1 : NetList}
    (hrf : n.remove_component f = .ok n1)
    {s : String} (hs : ip.source = some s) {n2 : NetList}
    (hrs : n1.remove_component s = .ok n2)
    (hgone : n2.get_component s = none)
    (hst : ip.state = .active) :
    ip.eject n = ⟨some .componentNotFound, { ip with state := .injected }, n2⟩ := by
  unfold InjectionPoint.eject NetList.remove_component_opt TestUtility.eject_base
  dsimp only
  rw [hf, hs, hst]
  dsimp only
  rw [hrf]
  dsimp only
  rw [hrs]
  dsimp only
  rw [if_neg (by simp), if_pos rfl]
  rw [injectionPoint_deactivate_eval_missing hs hgone hst]
  dsimp only
  rw [hf, hs]

theorem injectionPoint_roundTrip_obs (n : NetList) (node : String) (pull_up : Bool)
    (h : (injectionPointRoundTrip n node pull_up).1 = none) :
    (injectionPointRoundTrip n node pull_up).2.obs = n.obs := by
  simp only [injectionPointRoundTrip] at h ⊢
  cases he : ((InjectionPoint.make node pull_up).inject n).err with
  | some e =>
    rw [he] at h
    exact Option.noConfusion (show some e = (none : Option Err) from h)
  | none =>
    obtain ⟨src, n1, f, n2, hf1, hf2, hinj⟩ := injectionPoint_inject_ok rfl he
    dsimp only [InjectionPoint.make] at hf1 hf2 hinj
    dsimp only [InjectionPoint.make]
    rw [hinj]
    dsimp only
    obtain ⟨h1c, hsrcfree⟩ := insert_source_ok hf1
    obtain ⟨h2c, hffree⟩ := insert_fet_ok hf2
    rw [h1c] at hffree
    obtain ⟨hfn, hfx⟩ := not_mem_refs_append hffree
    have hfs : ¬ f = src := not_mem_refs_singleton hfx
    obtain ⟨sC, fC, hsCr, hfCr, hall2⟩ :
        ∃ cs cf : Component, cs.reference = src ∧ cf.reference = f ∧
          n2.components = n.components ++ ([cs] ++ [cf]) :=
      ⟨⟨src, [node ++ (if pull_up then PMOS_GATE_NODE_TAG else NMOS_GATE_NODE_TAG),
          n.ground_node], .num (if pull_up then n.vdd else n.vss)⟩,
       ⟨f, [node, node ++ (if pull_up then PMOS_GATE_NODE_TAG else NMOS_GATE_NODE_TAG),
          if pull_up then n.supply_node else n.ground_node,
          if pull_up then n.supply_node else n.ground_node],
          .str (if pull_up then PMOS_MODEL else NMOS_MODEL)⟩,
       rfl, rfl, by rw [h2c, h1c, List.append_assoc]⟩
    have hg2 : n2.get_component src = some sC := by
      rw [get_component_of_components hall2 src, List.find?_append,
        find?_not_mem_refs_none _ _ hsrcfree, Option.none_or]
      exact List.find?_cons_of_pos _ (by simp [hsCr])
    have hg2f : n2.get_component f = some fC := by
      rw [get_component_of_components hall2 f, List.find?_append,
        find?_not_mem_refs_none _ _ hfn, Option.none_or, List.singleton_append,
        List.find?_cons_of_neg _ (by simp [hsCr]; exact fun hh => hfs hh.symm)]
      exact List.find?_cons_of_pos _ (by simp [hfCr])
    obtain ⟨v1, n3, hact, h3c⟩ :
        ∃ v x, (⟨UState.injected, node, pull_up, some f, some src⟩ :
            InjectionPoint).activate n2 =
          ⟨none, ⟨UState.active, node, pull_up, some f, some src⟩, x⟩ ∧
          x.components = n2.components.map (setValAt src v) :=
      ⟨_, _, injectionPoint_activate_eval rfl hg2 rfl, rfl⟩
    rw [hact]
    dsimp only
    have hg3 : n3.get_component src = some (setValAt src v1 sC) := by
      rw [get_component_map_setValAt h3c src, hg2]
      rfl
    obtain ⟨v2, n4, hdeact, h4c⟩ :
        ∃ v x, (⟨UState.active, node, pull_up, some f, some src⟩ :
            InjectionPoint).deactivate n3 =
          ⟨none, ⟨UState.injected, node, pull_up, some f, some src⟩, x⟩ ∧
          x.components = n3.components.map (setValAt src v) :=
      ⟨_, _, injectionPoint_deactivate_eval rfl hg3 rfl, rfl⟩
    rw [hdeact]
    dsimp only
    have hg4f : n4.get_component f = some (setValAt src v2 (setValAt src v1 fC)) := by
      rw [get_component_map_setValAt h4c f, get_component_map_setValAt h3c f, hg2f]
      rfl
    obtain ⟨n5, hrf2, h5c⟩ :
        ∃ x, n4.remove_component f = .ok x ∧
          x.components = n4.components.filter (fun c => c.reference ≠ f) :=
      ⟨_, remove_component_eval hg4f, rfl⟩
    have h4full : n4.components =
        ((n.components.map (setValAt src v1)).map (setValAt src v2)) ++
          ([setValAt src v2 (setValAt src v1 sC)] ++
            [setValAt src v2 (setValAt src v1 fC)]) := by
      rw [h4c, h3c, hall2]
      simp only [List.map_append, List.map_cons, List.map_nil]
    have hS2r : (setValAt src v2 (setValAt src v1 sC)).reference = src := by
      rw [setValAt_reference, setValAt_reference, hsCr]
    have hF2r : (setValAt src v2 (setValAt src v1 fC)).reference = f := by
      rw [setValAt_reference, setValAt_reference, hfCr]
    have hArefs : (((n.components.map (setValAt src v1)).map (setValAt src v2)).map
        Component.reference) = n.components.map Component.reference := by
      rw [map_setValAt_refs, map_setValAt_refs]
    have h5full : n5.components =
        ((n.components.map (setValAt src v1)).map (setValAt src v2)) ++
          [setValAt src v2 (setValAt src v1 sC)] := by
      rw [h5c, h4full, List.filter_append, List.filter_append,
        filter_ne_of_not_mem _ f (by rw [hArefs]; exact hfn),
        filter_ne_singleton_self (by rw [hS2r]; exact fun hh => hfs hh.symm),
        filter_ne_singleton_nil hF2r]
      simp
    have hg5 : n5.get_component src = some (setValAt src v2 (setValAt src v1 sC)) := by
      rw [get_component_of_components h5full src, List.find?_append,
        find?_not_mem_refs_none _ _ (by rw [hArefs]; exact hsrcfree), Option.none_or]
      exact List.find?_cons_of_pos _ (by simp [hS2r])
    obtain ⟨n6, hrs2, h6c⟩ :
        ∃ x, n5.remove_component src = .ok x ∧
          x.components = n5.components.filter (fun c => c.reference ≠ src) :=
      ⟨_, remove_component_eval hg5, rfl⟩
    have hej := @injectionPoint_eject_eval_injected
      ⟨UState.injected, node, pull_up, some f, some src⟩ _ _ rfl _ hrf2 _ rfl _ hrs2 rfl
    rw [hej]
    dsimp only
    unfold NetList.obs
    have h6full : n6.components = n.components := by
      rw [h6c, h5full, List.filter_append,
        filter_ne_of_not_mem _ src (by rw [hArefs]; exact hsrcfree),
        filter_ne_singleton_nil hS2r, List.append_nil,
        map_setValAt_not_mem _ _ _ hsrcfree, map_setValAt_not_mem _ _ _ hsrcfree]
    exact congrArg Multiset.ofList h6full

theorem injectionPointEjectFromActive_eval (n : NetList) (node : String) (pull_up : Bool)
    (he : ((InjectionPoint.make node pull_up).inject n).err = none) :
    (injectionPointEjectFromActive n node pull_up).err = some .componentNotFound ∧
    (injectionPointEjectFromActive n node pull_up).obj.state = .injected := by
  simp only [injectionPointEjectFromActive]
  obtain ⟨src, n1, f, n2, hf1, hf2, hinj⟩ := injectionPoint_inject_ok rfl he
  dsimp only [InjectionPoint.make] at hf1 hf2 hinj
  dsimp only [InjectionPoint.make]
  rw [hinj]
  dsimp only
  obtain ⟨h1c, hsrcfree⟩ := insert_source_ok hf1
  obtain ⟨h2c, hffree⟩ := insert_fet_ok hf2
  rw [h1c] at hffree
  obtain ⟨hfn, hfx⟩ := not_mem_refs_append hffree
  have hfs : ¬ f = src := not_mem_refs_singleton hfx
  obtain ⟨sC, fC, hsCr, hfCr, hall2⟩ :
      ∃ cs cf : Component, cs.reference = src ∧ cf.reference = f ∧
        n2.components = n.components ++ ([cs] ++ [cf]) :=
    ⟨⟨src, [node ++ (if pull_up then PMOS_GATE_NODE_TAG else NMOS_GATE_NODE_TAG),
        n.ground_node], .num (if pull_up then n.vdd else n.vss)⟩,
     ⟨f, [node, node ++ (if pull_up then PMOS_GATE_NODE_TAG else NMOS_GATE_NODE_TAG),
        if pull_up then n.supply_node else n.ground_node,
        if pull_up then n.supply_node else n.ground_node],
        .str (if pull_up then PMOS_MODEL else NMOS_MODEL)⟩,
     rfl, rfl, by rw [h2c, h1c, List.append_assoc]⟩
  have hg2 : n2.get_component src = some sC := by
    rw [get_component_of_components hall2 src, List.find?_append,
      find?_not_mem_refs_none _ _ hsrcfree, Option.none_or]
    exact List.find?_cons_of_pos _ (by simp [hsCr])
  have hg2f : n2.get_component f = some fC := by
    rw [get_component_of_components hall2 f, List.find?_append,
      find?_not_mem_refs_none _ _ hfn, Option.none_or, List.singleton_append,
      List.find?_cons_of_neg _ (by simp [hsCr]; exact fun hh => hfs hh.symm)]
    exact List.find?_cons_of_pos _ (by simp [hfCr])
  obtain ⟨v1, n3, hact, h3c⟩ :
      ∃ v x, (⟨UState.injected, node, pull_up, some f, some src⟩ :
          InjectionPoint).activate n2 =
        ⟨none, ⟨UState.active, node, pull_up, some f, some src⟩, x⟩ ∧
        x.components = n2.components.map (setValAt src v) :=
    ⟨_, _, injectionPoint_activate_eval rfl hg2 rfl, rfl⟩
  rw [hact]
  dsimp only
  have hg3f : n3.get_component f = some (setValAt src v1 fC) := by
    rw [get_component_map_setValAt h3c f, hg2f]
    rfl
  obtain ⟨n4, hrf2, h4c⟩ :
      ∃ x, n3.remove_component f = .ok x ∧
        x.components = n3.components.filter (fun c => c.reference ≠ f) :=
    ⟨_, remove_component_eval hg3f, rfl⟩
  have h3full : n3.components = (n.components.map (setValAt src v1)) ++
      ([setValAt src v1 sC] ++ [setValAt src v1 fC]) := by
    rw [h3c, hall2]
    simp only [List.map_append, List.map_cons, List.map_nil]
  have hS1r : (setValAt src v1 sC).reference = src := by
    rw [setValAt_reference, hsCr]
  have hF1r : (setValAt src v1 fC).reference = f := by
    rw [setValAt_reference, hfCr]
  have hA1refs : ((n.components.map (setValAt src v1)).map Component.reference) =
      n.components.map Component.reference := map_setValAt_refs _ _ _
  have h4full : n4.components = (n.components.map (setValAt src v1)) ++
      [setValAt src v1 sC] := by
    rw [h4c, h3full, List.filter_append, List.filter_append,
      filter_ne_of_not_mem _ f (by rw [hA1refs]; exact hfn),
      filter_ne_singleton_self (by rw [hS1r]; exact fun hh => hfs hh.symm),
      filter_ne_singleton_nil hF1r]
    simp
  have hg4 : n4.get_component src = some (setValAt src v1 sC) := by
    rw [get_component_of_components h4full src, List.find?_append,
      find?_not_mem_refs_none _ _ (by rw [hA1refs]; exact hsrcfree), Option.none_or]
    exact List.find?_cons_of_pos _ (by simp [hS1r])
  obtain ⟨n5, hrs2, h5c⟩ :
      ∃ x, n4.remove_component src = .ok x ∧
        x.components = n4.components.filter (fun c => c.reference ≠ src) :=
    ⟨_, remove_component_eval hg4, rfl⟩
  have h5full : n5.components = n.components.map (setValAt src v1) := by
    rw [h5c, h4full, List.filter_append,
      filter_ne_of_not_mem _ src (by rw [hA1refs]; exact hsrcfree),
      filter_ne_singleton_nil hS1r, List.append_nil]
  have hgone : n5.get_component src = none := by
    rw [get_component_of_components h5full src]
    exact find?_not_mem_refs_none _ _ (by rw [hA1refs]; exact hsrcfree)
  have hej := @injectionPoint_eject_eval_active
    ⟨UState.active, node, pull_up, some f, some src⟩ _ _ rfl _ hrf2 _ rfl _ hrs2 hgone rfl
  rw [hej]
  exact ⟨rfl, rfl⟩

theorem get_next_fet_cached {n : NetList} (h : n.fetIdx ≠ -1) :
    n.get_next_fet_descriptor_index =
      ((n.fetIdx + 1).toNat, { n with fetIdx := n.fetIdx + 1 }) := by
  unfold NetList.get_next_fet_descriptor_index nextDescriptorIndex
  rw [if_neg h]

theorem get_next_fet_first {n : NetList} (h : n.fetIdx = -1) :
    n.get_next_fet_descriptor_index =
      (scanFree "M" n.get_components 1 (n.get_components.length + 1),
       { n with
          fetIdx := (scanFree "M" n.get_components 1 (n.get_components.length + 1) : Int) }) ∧
    refName "M" (scanFree "M" n.get_components 1 (n.get_components.length + 1)) ∉
      n.get_components ∧
    1 ≤ scanFree "M" n.get_components 1 (n.get_components.length + 1) ∧
    ∀ j, 1 ≤ j → j < scanFree "M" n.get_components 1 (n.get_components.length + 1) →
      refName "M" j ∈ n.get_components := by
  obtain ⟨ha, hb, hc⟩ := firstScan_spec "M" n.get_components
  refine ⟨?_, ha, hb, hc⟩
  unfold NetList.get_next_fet_descriptor_index nextDescriptorIndex
  rw [if_pos h]

theorem insertFets_consecutive (d g s model : String) :
    ∀ (N : Nat) (n : NetList) (j : Nat),
      n.fetIdx = (j : Int) →
      (∀ m, refName "M" m ∈ n.components.map Component.reference → m ≤ j) →
      ∃ n2, insertFets d g s model N n =
        .ok ((List.range' (j + 1) N).map (refName "M"), n2) := by
  intro N
  induction N with
  | zero =>
    intro n j hj hbound
    exact ⟨n, rfl⟩
  | succ k ih =>
    intro n j hj hbound
    have hne : n.fetIdx ≠ -1 := by
      rw [hj]
      omega
    have htn : (n.fetIdx + 1).toNat = j + 1 := by
      rw [hj]
      omega
    have hfree : refName "M" (j + 1) ∉ n.components.map Component.reference := by
      intro hmem
      have := hbound (j + 1) hmem
      omega
    have hins : n.insert_fet d g s model =
        .ok (refName "M" (j + 1),
          { n with
             fetIdx := n.fetIdx + 1,
             components := n.components ++
               [⟨refName "M" (j + 1), [d, g, s, s], .str model⟩] }) := by
      unfold NetList.insert_fet
      rw [get_next_fet_cached hne]
      dsimp only
      rw [htn]
      unfold NetList.add_component NetList.get_components
      dsimp only
      rw [if_neg hfree]
    simp only [insertFets]
    rw [hins]
    dsimp only
    have hbound2 : ∀ m, refName "M" m ∈
        ({ n with
            fetIdx := n.fetIdx + 1,
            components := n.components ++
              [⟨refName "M" (j + 1), [d, g, s, s], .str model⟩] } :
          NetList).components.map Component.reference → m ≤ j + 1 := by
      intro m hm
      dsimp only at hm
      rw [List.map_append] at hm
      rcases List.mem_append.mp hm with hl | hr
      · exact le_trans (hbound m hl) (by omega)
      · have : refName "M" m = refName "M" (j + 1) := by simpa using hr
        exact le_of_eq (refName_inj "M" m (j + 1) this)
    have hjx : ({ n with
        fetIdx := n.fetIdx + 1,
        components := n.components ++
          [⟨refName "M" (j + 1), [d, g, s, s], .str model⟩] } :
        NetList).fetIdx = ((j + 1 : Nat) : Int) := by
      dsimp only
      rw [hj]
      omega
    obtain ⟨n2, hrec⟩ := ih _ (j + 1) hjx hbound2
    rw [hrec]
    refine ⟨n2, ?_⟩
    rw [List.range'_succ, List.map_cons]

theorem insertFets_emptyNet (d g s model : String) (N : Nat) :
    ∃ n2, insertFets d g s model N emptyNet =
      .ok ((List.range' 1 N).map (refName "M"), n2) := by
  cases N with
  | zero => exact ⟨emptyNet, rfl⟩
  | succ k =>
    have hins : emptyNet.insert_fet d g s model =
        .ok (refName "M" 1,
          { emptyNet with
             fetIdx := 1,
             components := [⟨refName "M" 1, [d, g, s, s], .str model⟩] }) := rfl
    simp only [insertFets]
    rw [hins]
    dsimp only
    have hb : ∀ m, refName "M" m ∈
        ({ emptyNet with
            fetIdx := 1,
            components := [⟨refName "M" 1, [d, g, s, s], .str model⟩] } :
          NetList).components.map Component.reference → m ≤ 1 := by
      intro m hm
      have : refName "M" m = refName "M" 1 := by simpa using hm
      exact le_of_eq (refName_inj "M" m 1 this)
    obtain ⟨n2, hrec⟩ := insertFets_consecutive d g s model k
      ({ emptyNet with
          fetIdx := 1,
          components := [⟨refName "M" 1, [d, g, s, s], .str model⟩] }) 1 rfl hb
    rw [hrec]
    rw [List.range'_succ, List.map_cons]
    exact ⟨n2, rfl⟩

theorem drainOpenFault_inject_rejected {f : DrainOpenFault} (hst : f.state = .injected)
    (n : NetList) : f.inject n = ⟨some .alreadyInjected, f, n⟩ := by
  have hgd : Fault.inject_guard FState.injected = .error .alreadyInjected := by
    simp [Fault.inject_guard]
  unfold DrainOpenFault.inject
  rw [hst, hgd]

theorem measureObserver_eject_rejected {m : MeasureObserver} (hst : m.state = .notInjected)
    (n : NetList) : m.eject n = ⟨some .notInjected, m, n⟩ := by
  unfold MeasureObserver.eject TestUtility.eject_base
  dsimp only
  rw [hst]
  rfl

theorem resistorOpen_eject_rejected {f : ResistorOpen} {n n1 : NetList}
    (hset : n.set_component_value f.component f.fault_free_value = .ok n1)
    (hst : f.state = .notInjected) :
    f.eject n = ⟨some .notInjected, f, n1⟩ := by
  have hgd : Fault.eject_guard FState.notInjected = .error .notInjected := by
    simp [Fault.eject_guard]
  unfold ResistorOpen.eject
  rw [hset]
  dsimp only
  rw [hst, hgd]

theorem observeInternal_low {m : MeasureObserver} {log : SimLog} (rop : Option OpTrace)
    (h : getMeasurement log (m.low_result_variable ++ "_FALL_at") (-1) >
      getMeasurement log (m.low_result_variable ++ "_RISE_at") (-1)) :
    m.observeInternal log rop =
      .ok (LOW_VALUE,
        ratSub (getMeasurement log (m.low_result_variable ++ "_FALL_at") (-1))
          TRIGGER_TIME) := by
  unfold MeasureObserver.observeInternal
  dsimp only
  rw [if_pos h]

theorem observeInternal_high {m : MeasureObserver} {log : SimLog} (rop : Option OpTrace)
    (h1 : ¬ getMeasurement log (m.low_result_variable ++ "_FALL_at") (-1) >
      getMeasurement log (m.low_result_variable ++ "_RISE_at") (-1))
    (h2 : getMeasurement log (m.high_result_variable ++ "_RISE_at") (-1) >
      getMeasurement log (m.high_result_variable ++ "_FALL_at") (-1)) :
    m.observeInternal log rop =
      .ok (HIGH_VALUE,
        ratSub (getMeasurement log (m.high_result_variable ++ "_RISE_at") (-1))
          TRIGGER_TIME) := by
  unfold MeasureObserver.observeInternal
  dsimp only
  rw [if_neg h1, if_pos h2]

theorem observeInternal_op_low {m : MeasureObserver} {log : SimLog} {rop : OpTrace}
    {iv : ℚ}
    (h1 : ¬ getMeasurement log (m.low_result_variable ++ "_FALL_at") (-1) >
      getMeasurement log (m.low_result_variable ++ "_RISE_at") (-1))
    (h2 : ¬ getMeasurement log (m.high_result_variable ++ "_RISE_at") (-1) >
      getMeasurement log (m.high_result_variable ++ "_FALL_at") (-1))
    (hiv : opTraceInitial rop ("V(" ++ m.meas_node ++ ")") = .ok iv)
    (hlt : iv < m.low_threshold) :
    m.observeInternal log (some rop) = .ok (LOW_VALUE, -1) := by
  unfold MeasureObserver.observeInternal
  dsimp only
  rw [if_neg h1, if_neg h2]
  rw [hiv]
  dsimp only
  rw [if_pos hlt]

theorem observeInternal_op_high {m : MeasureObserver} {log : SimLog} {rop : OpTrace}
    {iv : ℚ}
    (h1 : ¬ getMeasurement log (m.low_result_variable ++ "_FALL_at") (-1) >
      getMeasurement log (m.low_result_variable ++ "_RISE_at") (-1))
    (h2 : ¬ getMeasurement log (m.high_result_variable ++ "_RISE_at") (-1) >
      getMeasurement log (m.high_result_variable ++ "_FALL_at") (-1))
    (hiv : opTraceInitial rop ("V(" ++ m.meas_node ++ ")") = .ok iv)
    (hlt : ¬ iv < m.low_threshold) (hgt : iv > m.high_threshold) :
    m.observeInternal log (some rop) = .ok (HIGH_VALUE, -1) := by
  unfold MeasureObserver.observeInternal
  dsimp only
  rw [if_neg h1, if_neg h2]
  rw [hiv]
  dsimp only
  rw [if_neg hlt, if_pos hgt]

theorem observeInternal_op_uncertain {m : MeasureObserver} {log : SimLog} {rop : OpTrace}
    {iv : ℚ}
    (h1 : ¬ getMeasurement log (m.low_result_variable ++ "_FALL_at") (-1) >
      getMeasurement log (m.low_result_variable ++ "_RISE_at") (-1))
    (h2 : ¬ getMeasurement log (m.high_result_variable ++ "_RISE_at") (-1) >
      getMeasurement log (m.high_result_variable ++ "_FALL_at") (-1))
    (hiv : opTraceInitial rop ("V(" ++ m.meas_node ++ ")") = .ok iv)
    (hlt : ¬ iv < m.low_threshold) (hgt : ¬ iv > m.high_threshold) :
    m.observeInternal log (some rop) = .ok (UNCERTAIN_VALUE, -1) := by
  unfold MeasureObserver.observeInternal
  dsimp only
  rw [if_neg h1, if_neg h2]
  rw [hiv]
  dsimp only
  rw [if_neg hlt, if_neg hgt]

theorem observeInternal_no_op {m : MeasureObserver} {log : SimLog}
    (h1 : ¬ getMeasurement log (m.low_result_variable ++ "_FALL_at") (-1) >
      getMeasurement log (m.low_result_variable ++ "_RISE_at") (-1))
    (h2 : ¬ getMeasurement log (m.high_result_variable ++ "_RISE_at") (-1) >
      getMeasurement log (m.high_result_variable ++ "_FALL_at") (-1)) :
    m.observeInternal log none = .ok (UNCERTAIN_VALUE, -1) := by
  unfold MeasureObserver.observeInternal
  dsimp only
  rw [if_neg h1, if_neg h2]

theorem observe_no_expectation {m : MeasureObserver} (h : m.expectation = none)
    (log : SimLog) (rop : Option OpTrace) :
    m.observe log rop = .error .observerExpectationUnknown := by
  unfold MeasureObserver.observe
  rw [h]

theorem observe_with_expectation {m : MeasureObserver} {exp : Int × ℚ}
    (hexp : m.expectation = some exp) {log : SimLog} {rop : Option OpTrace}
    {o : Int × ℚ} (hobs : m.observeInternal log rop = .ok o) :
    m.observe log rop = .ok (o.1 == exp.1, [ratSub o.2 exp.2]) := by
  unfold MeasureObserver.observe
  rw [hexp]
  dsimp only
  rw [hobs]

theorem getMeasurement_default (log : SimLog) (name : String) (d : ℚ)
    (h : simLogLookup log name = []) : getMeasurement log name d = d := by
  unfold getMeasurement
  rw [h]
  rfl

theorem observeInternal_total_no_op (m : MeasureObserver) (log : SimLog) :
    ∃ v, m.observeInternal log none = .ok v := by
  unfold MeasureObserver.observeInternal
  dsimp only
  split
  · exact ⟨_, rfl⟩
  · split
    · exact ⟨_, rfl⟩
    · exact ⟨_, rfl⟩

theorem observeInternal_total_some {m : MeasureObserver} {log : SimLog} {rop : OpTrace}
    {iv : ℚ} (hiv : opTraceInitial rop ("V(" ++ m.meas_node ++ ")") = .ok iv) :
    ∃ v, m.observeInternal log (some rop) = .ok v := by
  unfold MeasureObserver.observeInternal
  dsimp only
  split
  · exact ⟨_, rfl⟩
  · split
    · exact ⟨_, rfl⟩
    · rw [hiv]
      dsimp only
      split
      · exact ⟨_, rfl⟩
      · split
        · exact ⟨_, rfl⟩
        · exact ⟨_, rfl⟩

theorem observe_expected_uncertain {m : MeasureObserver} {log : SimLog}
    {rop : Option OpTrace} {o : Int × ℚ}
    (hobs : m.observeInternal log rop = .ok o) (hu : o.1 = UNCERTAIN_VALUE) :
    m.observe_expected log rop = ⟨none, { m with expectation := some o }, true⟩ := by
  unfold MeasureObserver.observe_expected
  rw [hobs]
  dsimp only
  rw [hu]
  rfl

theorem sourceOpenFault_inject_rejected {f : SourceOpenFault} (hst : f.state = .injected)
    (n : NetList) : f.inject n = ⟨some .alreadyInjected, f, n⟩ := by
  have hgd : Fault.inject_guard FState.injected = .error .alreadyInjected := by
    simp [Fault.inject_guard]
  unfold SourceOpenFault.inject
  rw [hst, hgd]

theorem gateOpenFault_inject_rejected {f : GateOpenFault} (hst : f.state = .injected)
    (n : NetList) : f.inject n = ⟨some .alreadyInjected, f, n⟩ := by
  have hgd : Fault.inject_guard FState.injected = .error .alreadyInjected := by
    simp [Fault.inject_guard]
  unfold GateOpenFault.inject
  rw [hst, hgd]

theorem gateDrainShort_inject_rejected {f : GateDrainShort} (hst : f.state = .injected)
    (n : NetList) : f.inject n = ⟨some .alreadyInjected, f, n⟩ := by
  have hgd : Fault.inject_guard FState.injected = .error .alreadyInjected := by
    simp [Fault.inject_guard]
  unfold GateDrainShort.inject
  rw [hst, hgd]

theorem gateSourceShort_inject_rejected {f : GateSourceShort} (hst : f.state = .injected)
    (n : NetList) : f.inject n = ⟨some .alreadyInjected, f, n⟩ := by
  have hgd : Fault.inject_guard FState.injected = .error .alreadyInjected := by
    simp [Fault.inject_guard]
  unfold GateSourceShort.inject
  rw [hst, hgd]

theorem drainSourceShort_inject_rejected {f : DrainSourceShort} (hst : f.state = .injected)
    (n : NetList) : f.inject n = ⟨some .alreadyInjected, f, n⟩ := by
  have hgd : Fault.inject_guard FState.injected = .error .alreadyInjected := by
    simp [Fault.inject_guard]
  unfold DrainSourceShort.inject
  rw [hst, hgd]

theorem capacitorShort_inject_rejected {f : CapacitorShort} (hst : f.state = .injected)
    (n : NetList) : f.inject n = ⟨some .alreadyInjected, f, n⟩ := by
  have hgd : Fault.inject_guard FState.injected = .error .alreadyInjected := by
    simp [Fault.inject_guard]
  unfold CapacitorShort.inject
  rw [hst, hgd]

theorem resistorOpen_inject_rejected {f : ResistorOpen} (hst : f.state = .injected)
    (n : NetList) : f.inject n = ⟨some .alreadyInjected, f, n⟩ := by
  have hgd : Fault.inject_guard FState.injected = .error .alreadyInjected := by
    simp [Fault.inject_guard]
  unfold ResistorOpen.inject
  rw [hst, hgd]

theorem resistorShort_inject_rejected {f : ResistorShort} (hst : f.state = .injected)
    (n : NetList) : f.inject n = ⟨some .alreadyInjected, f, n⟩ := by
  have hgd : Fault.inject_guard FState.injected = .error .alreadyInjected := by
    simp [Fault.inject_guard]
  unfold ResistorShort.inject
  rw [hst, hgd]

theorem measureObserver_inject_rejected {m : MeasureObserver}
    (hst : m.state ≠ .notInjected) (n : NetList) :
    m.inject n = ⟨some .alreadyInjected, m, n⟩ := by
  have hgd : TestUtility.inject_guard m.state = .error .alreadyInjected := by
    unfold TestUtility.inject_guard
    rw [if_pos hst]
  unfold MeasureObserver.inject
  rw [hgd]

theorem inverterObserver_inject_rejected {o : InverterObserver}
    (hst : o.meas.state ≠ .notInjected) (n : NetList) :
    o.inject n = ⟨some .alreadyInjected, o, n⟩ := by
  have hgd : TestUtility.inject_guard o.meas.state = .error .alreadyInjected := by
    unfold TestUtility.inject_guard
    rw [if_pos hst]
  unfold InverterObserver.inject
  rw [hgd]

theorem injectionPoint_inject_rejected {ip : InjectionPoint}
    (hst : ip.state ≠ .notInjected) (n : NetList) :
    ip.inject n = ⟨some .alreadyInjected, ip, n⟩ := by
  have hgd : TestUtility.inject_guard ip.state = .error .alreadyInjected := by
    unfold TestUtility.inject_guard
    rw [if_pos hst]
  unfold InjectionPoint.inject
  rw [hgd]

theorem measureObserver_activate_rejected {m : MeasureObserver} {e : Err}
    (h : TestUtility.activate_guard m.state = .error e) (n : NetList) :
    m.activate n = ⟨some e, m, n⟩ := by
  unfold MeasureObserver.activate
  rw [h]

theorem measureObserver_deactivate_rejected {m : MeasureObserver} {e : Err}
    (h : TestUtility.deactivate_guard m.state = .error e) (n : NetList) :
    m.deactivate n = ⟨some e, m, n⟩ := by
  unfold MeasureObserver.deactivate
  rw [h]

theorem inverterObserver_activate_rejected {o : InverterObserver} {e : Err}
    (h : TestUtility.activate_guard o.meas.state = .error e) (n : NetList) :
    o.activate n = ⟨some e, o, n⟩ := by
  unfold InverterObserver.activate
  rw [measureObserver_activate_rejected h n]

theorem inverterObserver_deactivate_rejected {o : InverterObserver} {e : Err}
    (h : TestUtility.deactivate_guard o.meas.state = .error e) (n : NetList) :
    o.deactivate n = ⟨some e, o, n⟩ := by
  unfold InverterObserver.deactivate
  rw [measureObserver_deactivate_rejected h n]

theorem injectionPoint_activate_rejected {ip : InjectionPoint} {e : Err}
    (h : TestUtility.activate_guard ip.state = .error e) (n : NetList) :
    ip.activate n = ⟨some e, ip, n⟩ := by
  unfold InjectionPoint.activate
  rw [h]

theorem injectionPoint_deactivate_rejected {ip : InjectionPoint} {e : Err}
    (h : TestUtility.deactivate_guard ip.state = .error e) (n : NetList) :
    ip.deactivate n = ⟨some e, ip, n⟩ := by
  unfold InjectionPoint.deactivate
  rw [h]

theorem resistorShort_eject_rejected {f : ResistorShort} {n n1 : NetList}
    (hset : n.set_component_value f.component f.fault_free_value = .ok n1)
    (hst : f.state = .notInjected) :
    f.eject n = ⟨some .notInjected, f, n1⟩ := by
  have hgd : Fault.eject_guard FState.notInjected = .error .notInjected := by
    simp [Fault.eject_guard]
  unfold ResistorShort.eject
  rw [hset]
  dsimp only
  rw [hst, hgd]

theorem drainOpenFault_eject_never_injected {f : DrainOpenFault} {n n1 : NetList}
    (hupd : n.update_fet_ports f.component f.fault_free_ports = .ok n1)
    (hr : f.open_resistor = none) :
    f.eject n = ⟨some .componentNotFound, f, n1⟩ := by
  unfold DrainOpenFault.eject NetList.remove_component_opt
  rw [hupd]
  dsimp only
  rw [hr]

theorem sourceOpenFault_eject_never_injected {f : SourceOpenFault} {n n1 : NetList}
    (hupd : n.update_fet_ports f.component f.fault_free_ports = .ok n1)
    (hr : f.open_resistor = none) :
    f.eject n = ⟨some .componentNotFound, f, n1⟩ := by
  unfold SourceOpenFault.eject NetList.remove_component_opt
  rw [hupd]
  dsimp only
  rw [hr]

theorem gateOpenFault_eject_never_injected {f : GateOpenFault} {n n1 : NetList}
    (hupd : n.update_fet_ports f.component f.fault_free_ports = .ok n1)
    (hr : f.open_resistor = none) :
    f.eject n = ⟨some .componentNotFound, f, n1⟩ := by
  unfold GateOpenFault.eject NetList.remove_component_opt
  rw [hupd]
  dsimp only
  rw [hr]

theorem gateDrainShort_eject_never_injected {f : GateDrainShort}
    (hr : f.short_resistor = none) (n : NetList) :
    f.eject n = ⟨some .componentNotFound, f, n⟩ := by
  unfold GateDrainShort.eject NetList.remove_component_opt
  rw [hr]

theorem gateSourceShort_eject_never_injected {f : GateSourceShort}
    (hr : f.short_resistor = none) (n : NetList) :
    f.eject n = ⟨some .componentNotFound, f, n⟩ := by
  unfold GateSourceShort.eject NetList.remove_component_opt
  rw [hr]

theorem drainSourceShort_eject_never_injected {f : DrainSourceShort}
    (hr : f.short_resistor = none) (n : NetList) :
    f.eject n = ⟨some .componentNotFound, f, n⟩ := by
  unfold DrainSourceShort.eject NetList.remove_component_opt
  rw [hr]

theorem capacitorShort_eject_never_injected {f : CapacitorShort}
    (hr : f.short_resistor = none) (n : NetList) :
    f.eject n = ⟨some .componentNotFound, f, n⟩ := by
  unfold CapacitorShort.eject NetList.remove_component_opt
  rw [hr]

theorem inverterObserver_eject_never_injected {o : InverterObserver}
    (hp : o.pmos = none) (n : NetList) :
    o.eject n = ⟨some .componentNotFound, o, n⟩ := by
  unfold InverterObserver.eject NetList.remove_component_opt
  rw [hp]

theorem injectionPoint_eject_never_injected {ip : InjectionPoint}
    (hf : ip.fet = none) (n : NetList) :
    ip.eject n = ⟨some .componentNotFound, ip, n⟩ := by
  unfold InjectionPoint.eject NetList.remove_component_opt
  rw [hf]

theorem inverterObserver_eject_eval_active {o : InverterObserver} {n : NetList}
    {p : String} (hp : o.pmos = some p) {n1 : NetList}
    (hrp : n.remove_component p = .ok n1)
    {q : String} (hq : o.nmos = some q) {n2 : NetList}
    (hrq : n1.remove_component q = .ok n2)
    (hst : o.meas.state = .active) :
    o.eject n = ⟨none, { o with meas := { o.meas with state := .notInjected } },
      n2.remove_instructions_matching
        (".meas TRAN " ++ o.meas.meas_node ++ RESULT_NAME_TAG)⟩ := by
  unfold InverterObserver.eject NetList.remove_component_opt TestUtility.eject_base
  dsimp only
  rw [hp, hq, hst]
  dsimp only
  rw [hrp]
  dsimp only
  rw [hrq]
  dsimp only
  rw [if_neg (by simp), if_pos rfl]
  rw [inverterObserver_deactivate_eval hst]
  dsimp only
  rw [hp, hq]

theorem inverterObserverEjectFromActive_eval (n : NetList) (node : String)
    (he : ((InverterObserver.make n node).inject n).err = none) :
    (inverterObserverEjectFromActive n node).err = none ∧
    (inverterObserverEjectFromActive n node).obj.meas.state = .notInjected ∧
    (inverterObserverEjectFromActive n node).net.obs = n.obs := by
  simp only [inverterObserverEjectFromActive]
  obtain ⟨p, n1, q, n2, hf1, hf2, hinj⟩ := inverterObserver_inject_ok rfl he
  dsimp only [InverterObserver.make, MeasureObserver.make] at hf1 hf2 hinj
  dsimp only [InverterObserver.make, MeasureObserver.make]
  rw [hinj]
  dsimp only
  obtain ⟨n3, hact, h3c⟩ :
      ∃ x, (⟨⟨UState.injected, node ++ INVERTER_NODE_TAG, ratAdd n.vss LOGIC_MARGIN,
          ratSub n.vdd LOGIC_MARGIN, none⟩, node, some p, some q⟩ :
          InverterObserver).activate n2 =
        ⟨none, ⟨⟨UState.active, node ++ INVERTER_NODE_TAG, ratAdd n.vss LOGIC_MARGIN,
          ratSub n.vdd LOGIC_MARGIN, none⟩, node, some p, some q⟩, x⟩ ∧
        x.components = n2.components :=
    ⟨_, inverterObserver_activate_eval rfl n2, rfl⟩
  rw [hact]
  dsimp only
  obtain ⟨hn1c, hfrp⟩ := insert_fet_ok hf1
  obtain ⟨hn2c, hfrq⟩ := insert_fet_ok hf2
  rw [hn1c] at hfrq
  obtain ⟨hqn, hqp⟩ := not_mem_refs_append hfrq
  have hqp2 : q ≠ p := not_mem_refs_singleton hqp
  have hall : n3.components = n.components ++
      ([⟨p, [node ++ INVERTER_NODE_TAG, node, n.supply_node, n.supply_node],
          .str PMOS_MODEL⟩] ++
        [⟨q, [node ++ INVERTER_NODE_TAG, node, n.ground_node, n.ground_node],
          .str NMOS_MODEL⟩]) := by
    rw [h3c, hn2c, hn1c, List.append_assoc]
  have hgp : n3.get_component p =
      some ⟨p, [node ++ INVERTER_NODE_TAG, node, n.supply_node, n.supply_node],
        .str PMOS_MODEL⟩ := by
    rw [get_component_of_components hall p, List.find?_append,
      find?_not_mem_refs_none _ _ hfrp, Option.none_or]
    exact List.find?_cons_of_pos _ (by simp)
  obtain ⟨n4, hrp2, h4c⟩ :
      ∃ x, n3.remove_component p = .ok x ∧
        x.components = n3.components.filter (fun c => c.reference ≠ p) :=
    ⟨_, remove_component_eval hgp, rfl⟩
  have h4full : n4.components = n.components ++
      [⟨q, [node ++ INVERTER_NODE_TAG, node, n.ground_node, n.ground_node],
        .str NMOS_MODEL⟩] := by
    rw [h4c, hall, List.filter_append, List.filter_append,
      filter_ne_of_not_mem _ p hfrp,
      filter_ne_singleton_nil
        (show (⟨p, [node ++ INVERTER_NODE_TAG, node, n.supply_node, n.supply_node],
          SpiceVal.str PMOS_MODEL⟩ : Component).reference = p from rfl),
      filter_ne_singleton_self
        (show (⟨q, [node ++ INVERTER_NODE_TAG, node, n.ground_node, n.ground_node],
          SpiceVal.str NMOS_MODEL⟩ : Component).reference ≠ p from hqp2)]
    simp
  have hgq : n4.get_component q =
      some ⟨q, [node ++ INVERTER_NODE_TAG, node, n.ground_node, n.ground_node],
        .str NMOS_MODEL⟩ := by
    rw [get_component_of_components h4full q, List.find?_append,
      find?_not_mem_refs_none _ _ hqn, Option.none_or]
    exact List.find?_cons_of_pos _ (by simp)
  obtain ⟨n5, hrq2, h5c⟩ :
      ∃ x, n4.remove_component q = .ok x ∧
        x.components = n4.components.filter (fun c => c.reference ≠ q) :=
    ⟨_, remove_component_eval hgq, rfl⟩
  have hej := @inverterObserver_eject_eval_active
    ⟨⟨UState.active, node ++ INVERTER_NODE_TAG, ratAdd n.vss LOGIC_MARGIN,
      ratSub n.vdd LOGIC_MARGIN, none⟩, node, some p, some q⟩
    _ _ rfl _ hrp2 _ rfl _ hrq2 rfl
  rw [hej]
  refine ⟨rfl, rfl, ?_⟩
  unfold NetList.obs NetList.remove_instructions_matching
  dsimp only
  have h5full : n5.components = n.components := by
    rw [h5c, h4full, List.filter_append, filter_ne_of_not_mem _ q hqn,
      filter_ne_singleton_nil
        (show (⟨q, [node ++ INVERTER_NODE_TAG, node, n.ground_node, n.ground_node],
          SpiceVal.str NMOS_MODEL⟩ : Component).reference = q from rfl)]
    simp
  exact congrArg Multiset.ofList h5full

/-- C1: for every fault kind and every test-utility kind of the library,
`inject` followed immediately by `eject` (with `activate`/`deactivate`
interposed for the utilities) restores the netlist to an observably
identical state (`NetList.obs`: same component references with the same
ports and values), whenever the round trip raises no error (references
assumed unique for the three faults whose eject rebuilds a component by
reference lookup). -/
theorem claim_C1_roundtrips :
    (∀ (n : NetList) (c : String), (n.components.map Component.reference).Nodup →
      (drainOpenRoundTrip n c).1 = none → (drainOpenRoundTrip n c).2.obs = n.obs) ∧
    (∀ (n : NetList) (c : String), (n.components.map Component.reference).Nodup →
      (sourceOpenRoundTrip n c).1 = none → (sourceOpenRoundTrip n c).2.obs = n.obs) ∧
    (∀ (n : NetList) (c : String), (n.components.map Component.reference).Nodup →
      (gateOpenRoundTrip n c).1 = none → (gateOpenRoundTrip n c).2.obs = n.obs) ∧
    (∀ (n : NetList) (c : String),
      (gateDrainShortRoundTrip n c).1 = none →
      (gateDrainShortRoundTrip n c).2.obs = n.obs) ∧
    (∀ (n : NetList) (c : String),
      (gateSourceShortRoundTrip n c).1 = none →
      (gateSourceShortRoundTrip n c).2.obs = n.obs) ∧
    (∀ (n : NetList) (c : String),
      (drainSourceShortRoundTrip n c).1 = none →
      (drainSourceShortRoundTrip n c).2.obs = n.obs) ∧
    (∀ (n : NetList) (c : String),
      (capacitorShortRoundTrip n c).1 = none →
      (capacitorShortRoundTrip n c).2.obs = n.obs) ∧
    (∀ (n : NetList) (c : String), (n.components.map Component.reference).Nodup →
      (resistorOpenRoundTrip n c).1 = none → (resistorOpenRoundTrip n c).2.obs = n.obs) ∧
    (∀ (n : NetList) (c : String), (n.components.map Component.reference).Nodup →
      (resistorShortRoundTrip n c).1 = none → (resistorShortRoundTrip n c).2.obs = n.obs) ∧
    (∀ (n : NetList) (node : String) (lo hi : ℚ),
      (measureObserverRoundTrip n node lo hi).2.obs = n.obs) ∧
    (∀ (n : NetList) (node : String),
      (inverterObserverRoundTrip n node).1 = none →
      (inverterObserverRoundTrip n node).2.obs = n.obs) ∧
    (∀ (n : NetList) (node : String) (pull_up : Bool),
      (injectionPointRoundTrip n node pull_up).1 = none →
      (injectionPointRoundTrip n node pull_up).2.obs = n.obs) :=
  ⟨drainOpen_roundTrip_obs, sourceOpen_roundTrip_obs, gateOpen_roundTrip_obs,
   gateDrainShort_roundTrip_obs, gateSourceShort_roundTrip_obs,
   drainSourceShort_roundTrip_obs, capacitorShort_roundTrip_obs,
   resistorOpen_roundTrip_obs, resistorShort_roundTrip_obs,
   measureObserver_roundTrip_obs, inverterObserver_roundTrip_obs,
   injectionPoint_roundTrip_obs⟩

/-- Witness for C1: every round trip run on the concrete netlist
`exampleNet` leaves the observable component store unchanged. -/
theorem claim_C1_witness :
    (drainOpenRoundTrip exampleNet "M1").2.obs = exampleNet.obs ∧
    (sourceOpenRoundTrip exampleNet "M1").2.obs = exampleNet.obs ∧
    (gateOpenRoundTrip exampleNet "M1").2.obs = exampleNet.obs ∧
    (gateDrainShortRoundTrip exampleNet "M1").2.obs = exampleNet.obs ∧
    (gateSourceShortRoundTrip exampleNet "M1").2.obs = exampleNet.obs ∧
    (drainSourceShortRoundTrip exampleNet "M1").2.obs = exampleNet.obs ∧
    (capacitorShortRoundTrip exampleNet "C1").2.obs = exampleNet.obs ∧
    (resistorOpenRoundTrip exampleNet "R1").2.obs = exampleNet.obs ∧
    (resistorShortRoundTrip exampleNet "R1").2.obs = exampleNet.obs ∧
    (measureObserverRoundTrip exampleNet "out" 1 2).2.obs = exampleNet.obs ∧
    (inverterObserverRoundTrip exampleNet "out").2.obs = exampleNet.obs ∧
    (injectionPointRoundTrip exampleNet "out" true).2.obs = exampleNet.obs := by
  obtain ⟨h1, h2, h3, h4, h5, h6, h7, h8, h9, h10, h11, h12⟩ := claim_C1_roundtrips
  exact ⟨h1 exampleNet "M1" (by decide) rfl, h2 exampleNet "M1" (by decide) rfl,
    h3 exampleNet "M1" (by decide) rfl, h4 exampleNet "M1" rfl,
    h5 exampleNet "M1" rfl, h6 exampleNet "M1" rfl, h7 exampleNet "C1" rfl,
    h8 exampleNet "R1" (by decide) rfl, h9 exampleNet "R1" (by decide) rfl,
    h10 exampleNet "out" 1 2, h11 exampleNet "out" rfl,
    h12 exampleNet "out" true rfl⟩

/-- C2 (corrected): the base transition check runs first for every
`inject` and for every utility `activate`/`deactivate`, so a rejected call
raises the specified guard error and leaves the object (and so the
lifecycle state) and the netlist unchanged; but every derived `eject`
performs its netlist work before the base check runs, so eject before
inject does not uniformly raise NotInjected — the resistor faults apply
their value restore and then raise NotInjected, while the variants that
remove a not-yet-created component raise the store-level
componentNotFound instead (the three open faults after having already
rewritten the transistor's ports). -/
theorem claim_C2_guard_rejections :
    (∀ (f : DrainOpenFault) (n : NetList), f.state = .injected →
      f.inject n = ⟨some .alreadyInjected, f, n⟩) ∧
    (∀ (m : MeasureObserver) (n : NetList), m.state = .notInjected →
      m.eject n = ⟨some .notInjected, m, n⟩) ∧
    (∀ (f : ResistorOpen) (n n1 : NetList), f.state = .notInjected →
      n.set_component_value f.component f.fault_free_value = .ok n1 →
      f.eject n = ⟨some .notInjected, f, n1⟩) ∧
    (∀ (f : GateDrainShort) (n : NetList), f.short_resistor = none →
      f.eject n = ⟨some .componentNotFound, f, n⟩) ∧
    (∀ (f : SourceOpenFault) (n : NetList), f.state = .injected →
      f.inject n = ⟨some .alreadyInjected, f, n⟩) ∧
    (∀ (f : GateOpenFault) (n : NetList), f.state = .injected →
      f.inject n = ⟨some .alreadyInjected, f, n⟩) ∧
    (∀ (f : GateDrainShort) (n : NetList), f.state = .injected →
      f.inject n = ⟨some .alreadyInjected, f, n⟩) ∧
    (∀ (f : GateSourceShort) (n : NetList), f.state = .injected →
      f.inject n = ⟨some .alreadyInjected, f, n⟩) ∧
    (∀ (f : DrainSourceShort) (n : NetList), f.state = .injected →
      f.inject n = ⟨some .alreadyInjected, f, n⟩) ∧
    (∀ (f : CapacitorShort) (n : NetList), f.state = .injected →
      f.inject n = ⟨some .alreadyInjected, f, n⟩) ∧
    (∀ (f : ResistorOpen) (n : NetList), f.state = .injected →
      f.inject n = ⟨some .alreadyInjected, f, n⟩) ∧
    (∀ (f : ResistorShort) (n : NetList), f.state = .injected →
      f.inject n = ⟨some .alreadyInjected, f, n⟩) ∧
    (∀ (m : MeasureObserver) (n : NetList), m.state ≠ .notInjected →
      m.inject n = ⟨some .alreadyInjected, m, n⟩) ∧
    (∀ (o : InverterObserver) (n : NetList), o.meas.state ≠ .notInjected →
      o.inject n = ⟨some .alreadyInjected, o, n⟩) ∧
    (∀ (ip : InjectionPoint) (n : NetList), ip.state ≠ .notInjected →
      ip.inject n = ⟨some .alreadyInjected, ip, n⟩) ∧
    (∀ (m : MeasureObserver) (n : NetList) (e : Err),
      TestUtility.activate_guard m.state = .error e →
      m.activate n = ⟨some e, m, n⟩) ∧
    (∀ (m : MeasureObserver) (n : NetList) (e : Err),
      TestUtility.deactivate_guard m.state = .error e →
      m.deactivate n = ⟨some e, m, n⟩) ∧
    (∀ (o : InverterObserver) (n : NetList) (e : Err),
      TestUtility.activate_guard o.meas.state = .error e →
      o.activate n = ⟨some e, o, n⟩) ∧
    (∀ (o : InverterObserver) (n : NetList) (e : Err),
      TestUtility.deactivate_guard o.meas.state = .error e →
      o.deactivate n = ⟨some e, o, n⟩) ∧
    (∀ (ip : InjectionPoint) (n : NetList) (e : Err),
      TestUtility.activate_guard ip.state = .error e →
      ip.activate n = ⟨some e, ip, n⟩) ∧
    (∀ (ip : InjectionPoint) (n : NetList) (e : Err),
      TestUtility.deactivate_guard ip.state = .error e →
      ip.deactivate n = ⟨some e, ip, n⟩) ∧
    (TestUtility.inject_guard .injected = .error .alreadyInjected ∧
      TestUtility.inject_guard .active = .error .alreadyInjected ∧
      TestUtility.activate_guard .notInjected = .error .notInjected ∧
      TestUtility.activate_guard .active = .error .alreadyActive ∧
      TestUtility.deactivate_guard .notInjected = .error .notInjected ∧
      TestUtility.deactivate_guard .injected = .error .notActive ∧
      Fault.inject_guard .injected = .error .alreadyInjected ∧
      Fault.eject_guard .notInjected = .error .notInjected) ∧
    (∀ (f : ResistorShort) (n n1 : NetList), f.state = .notInjected →
      n.set_component_value f.component f.fault_free_value = .ok n1 →
      f.eject n = ⟨some .notInjected, f, n1⟩) ∧
    (∀ (f : DrainOpenFault) (n n1 : NetList),
      n.update_fet_ports f.component f.fault_free_ports = .ok n1 →
      f.open_resistor = none →
      f.eject n = ⟨some .componentNotFound, f, n1⟩) ∧
    (∀ (f : SourceOpenFault) (n n1 : NetList),
      n.update_fet_ports f.component f.fault_free_ports = .ok n1 →
      f.open_resistor = none →
      f.eject n = ⟨some .componentNotFound, f, n1⟩) ∧
    (∀ (f : GateOpenFault) (n n1 : NetList),
      n.update_fet_ports f.component f.fault_free_ports = .ok n1 →
      f.open_resistor = none →
      f.eject n = ⟨some .componentNotFound, f, n1⟩) ∧
    (∀ (f : GateSourceShort) (n : NetList), f.short_resistor = none →
      f.eject n = ⟨some .componentNotFound, f, n⟩) ∧
    (∀ (f : DrainSourceShort) (n : NetList), f.short_resistor = none →
      f.eject n = ⟨some .componentNotFound, f, n⟩) ∧
    (∀ (f : CapacitorShort) (n : NetList), f.short_resistor = none →
      f.eject n = ⟨some .componentNotFound, f, n⟩) ∧
    (∀ (o : InverterObserver) (n : NetList), o.pmos = none →
      o.eject n = ⟨some .componentNotFound, o, n⟩) ∧
    (∀ (ip : InjectionPoint) (n : NetList), ip.fet = none →
      ip.eject n = ⟨some .componentNotFound, ip, n⟩) :=
  ⟨fun f n h => drainOpenFault_inject_rejected h n,
   fun m n h => measureObserver_eject_rejected h n,
   fun f n n1 hst hset => resistorOpen_eject_rejected hset hst,
   fun f n hr => gateDrainShort_eject_never_injected hr n,
   fun f n h => sourceOpenFault_inject_rejected h n,
   fun f n h => gateOpenFault_inject_rejected h n,
   fun f n h => gateDrainShort_inject_rejected h n,
   fun f n h => gateSourceShort_inject_rejected h n,
   fun f n h => drainSourceShort_inject_rejected h n,
   fun f n h => capacitorShort_inject_rejected h n,
   fun f n h => resistorOpen_inject_rejected h n,
   fun f n h => resistorShort_inject_rejected h n,
   fun m n h => measureObserver_inject_rejected h n,
   fun o n h => inverterObserver_inject_rejected h n,
   fun ip n h => injectionPoint_inject_rejected h n,
   fun m n e h => measureObserver_activate_rejected h n,
   fun m n e h => measureObserver_deactivate_rejected h n,
   fun o n e h => inverterObserver_activate_rejected h n,
   fun o n e h => inverterObserver_deactivate_rejected h n,
   fun ip n e h => injectionPoint_activate_rejected h n,
   fun ip n e h => injectionPoint_deactivate_rejected h n,
   ⟨rfl, rfl, rfl, rfl, rfl, rfl, rfl, rfl⟩,
   fun f n n1 hst hset => resistorShort_eject_rejected hset hst,
   fun f n n1 hupd hr => drainOpenFault_eject_never_injected hupd hr,
   fun f n n1 hupd hr => sourceOpenFault_eject_never_injected hupd hr,
   fun f n n1 hupd hr => gateOpenFault_eject_never_injected hupd hr,
   fun f n hr => gateSourceShort_eject_never_injected hr n,
   fun f n hr => drainSourceShort_eject_never_injected hr n,
   fun f n hr => capacitorShort_eject_never_injected hr n,
   fun o n hp => inverterObserver_eject_never_injected hp n,
   fun ip n hf => injectionPoint_eject_never_injected hf n⟩

/-- Witness for C2: on `exampleNet`, a double `inject` of a drain-open
fault raises AlreadyInjected with nothing changed, an `eject` before
`inject` of a measure observer raises NotInjected with nothing changed,
and an `eject` before `inject` of a gate-drain short raises the
store-level componentNotFound. -/
theorem claim_C2_witness :
    (⟨"M1", .injected, none, ["d", "g", "s", "b"]⟩ : DrainOpenFault).inject exampleNet =
      ⟨some .alreadyInjected, ⟨"M1", .injected, none, ["d", "g", "s", "b"]⟩, exampleNet⟩ ∧
    (MeasureObserver.make "out" 1 2).eject exampleNet =
      ⟨some .notInjected, MeasureObserver.make "out" 1 2, exampleNet⟩ ∧
    (⟨"M1", .notInjected, none, ["d", "g", "s", "b"]⟩ : GateDrainShort).eject exampleNet =
      ⟨some .componentNotFound, ⟨"M1", .notInjected, none, ["d", "g", "s", "b"]⟩,
        exampleNet⟩ :=
  ⟨claim_C2_guard_rejections.1 _ _ rfl, claim_C2_guard_rejections.2.1 _ _ rfl,
   claim_C2_guard_rejections.2.2.2.1 _ _ rfl⟩

/-- Counterexample for C2 as stated: ejecting a never-injected
`ResistorOpen` whose recorded fault-free value differs from the stored one
raises `notInjected` but still mutates the netlist, and ejecting a
never-injected `GateDrainShort` does not raise NotInjected at all — it
fails with the store's componentNotFound. -/
theorem claim_C2_counterexample :
    ((⟨"R1", .notInjected, .num 200⟩ : ResistorOpen).eject exampleNet).err =
      some .notInjected ∧
    ¬ ((⟨"R1", .notInjected, .num 200⟩ : ResistorOpen).eject exampleNet).net.obs =
      exampleNet.obs ∧
    ((⟨"M1", .notInjected, none, ["d", "g", "s", "b"]⟩ : GateDrainShort).eject
        exampleNet).err = some .componentNotFound ∧
    ¬ ((⟨"M1", .notInjected, none, ["d", "g", "s", "b"]⟩ : GateDrainShort).eject
        exampleNet).err = some .notInjected :=
  ⟨rfl, by decide, rfl, by decide⟩

/-- C3 (corrected): for the observers, `eject` from ACTIVE succeeds — it
performs the implicit deactivate (removing the activation-time
directives), transitions to NOT_INJECTED, and (for `InverterObserver`, the
observer that injects components) removes the two injected transistors,
restoring the observable store; but for `InjectionPoint`, `eject` removes
the transistor and the source before calling the base eject, so the
implicit deactivate's value restore on the already-removed source raises
`componentNotFound` and the state is left INJECTED. -/
theorem claim_C3_eject_from_active :
    (∀ (m : MeasureObserver) (n : NetList), m.state = .active →
      m.eject n = ⟨none, { m with state := .notInjected },
        n.remove_instructions_matching
          (".meas TRAN " ++ m.meas_node ++ RESULT_NAME_TAG)⟩) ∧
    (∀ (o : InverterObserver) (n : NetList) (p : String) (n1 : NetList)
      (q : String) (n2 : NetList), o.pmos = some p → n.remove_component p = .ok n1 →
      o.nmos = some q → n1.remove_component q = .ok n2 → o.meas.state = .active →
      o.eject n = ⟨none, { o with meas := { o.meas with state := .notInjected } },
        n2.remove_instructions_matching
          (".meas TRAN " ++ o.meas.meas_node ++ RESULT_NAME_TAG)⟩) ∧
    (∀ (n : NetList) (node : String),
      ((InverterObserver.make n node).inject n).err = none →
      (inverterObserverEjectFromActive n node).err = none ∧
      (inverterObserverEjectFromActive n node).obj.meas.state = .notInjected ∧
      (inverterObserverEjectFromActive n node).net.obs = n.obs) ∧
    (∀ (n : NetList) (node : String) (pull_up : Bool),
      ((InjectionPoint.make node pull_up).inject n).err = none →
      (injectionPointEjectFromActive n node pull_up).err = some .componentNotFound ∧
      (injectionPointEjectFromActive n node pull_up).obj.state = .injected) :=
  ⟨fun m n h => measureObserver_eject_eval_active h n,
   fun o n p n1 q n2 hp hrp hq hrq hst =>
     inverterObserver_eject_eval_active hp hrp hq hrq hst,
   fun n node he => inverterObserverEjectFromActive_eval n node he,
   fun n node pu he => injectionPointEjectFromActive_eval n node pu he⟩

/-- Witness for C3: on `exampleNet`, ejecting an ACTIVE measure observer
succeeds with the directives removed, injecting and activating an inverter
observer at `out` and ejecting straight from ACTIVE succeeds and restores
the observable store, while the same sequence on an injection point raises
`componentNotFound`. -/
theorem claim_C3_witness :
    (⟨UState.active, "out", 1, 2, none⟩ : MeasureObserver).eject exampleNet =
      ⟨none, ⟨UState.notInjected, "out", 1, 2, none⟩,
        exampleNet.remove_instructions_matching
          (".meas TRAN " ++ "out" ++ RESULT_NAME_TAG)⟩ ∧
    (inverterObserverEjectFromActive exampleNet "out").err = none ∧
    (inverterObserverEjectFromActive exampleNet "out").net.obs = exampleNet.obs ∧
    (injectionPointEjectFromActive exampleNet "out" true).err =
      some .componentNotFound :=
  ⟨claim_C3_eject_from_active.1 _ _ rfl,
   (claim_C3_eject_from_active.2.2.1 exampleNet "out" rfl).1,
   (claim_C3_eject_from_active.2.2.1 exampleNet "out" rfl).2.2,
   (claim_C3_eject_from_active.2.2.2 exampleNet "out" true rfl).1⟩

/-- Counterexample for C3 as stated: on `exampleNet`, injecting and
activating an `InjectionPoint` at node `out` and then calling `eject`
directly from ACTIVE does not succeed — it raises `componentNotFound` and
leaves the state INJECTED instead of NOT_INJECTED. -/
theorem claim_C3_counterexample :
    (injectionPointEjectFromActive exampleNet "out" true).err =
      some Err.componentNotFound ∧
    (injectionPointEjectFromActive exampleNet "out" true).obj.state =
      UState.injected ∧
    ¬ (injectionPointEjectFromActive exampleNet "out" true).err = none :=
  ⟨rfl, rfl, fun h => Option.noConfusion h⟩

/-- C4: `MeasureObserver.observeInternal` evaluates its rules in fixed
priority order — low-fall strictly above low-rise gives LOW with offset
low-fall − trigger-time; else high-rise strictly above high-fall gives
HIGH with the analogous offset; else with an operating-point trace the
node's initial value below the low threshold gives LOW, above the high
threshold gives HIGH, otherwise UNCERTAIN, each with offset −1; with no
operating-point trace the result is UNCERTAIN; including the three
concrete instances of the specification. -/
theorem claim_C4_classification :
    (∀ (m : MeasureObserver) (log : SimLog) (rop : Option OpTrace),
      getMeasurement log (m.low_result_variable ++ "_FALL_at") (-1) >
        getMeasurement log (m.low_result_variable ++ "_RISE_at") (-1) →
      m.observeInternal log rop = .ok (LOW_VALUE,
        ratSub (getMeasurement log (m.low_result_variable ++ "_FALL_at") (-1))
          TRIGGER_TIME)) ∧
    (∀ (m : MeasureObserver) (log : SimLog) (rop : Option OpTrace),
      ¬ getMeasurement log (m.low_result_variable ++ "_FALL_at") (-1) >
        getMeasurement log (m.low_result_variable ++ "_RISE_at") (-1) →
      getMeasurement log (m.high_result_variable ++ "_RISE_at") (-1) >
        getMeasurement log (m.high_result_variable ++ "_FALL_at") (-1) →
      m.observeInternal log rop = .ok (HIGH_VALUE,
        ratSub (getMeasurement log (m.high_result_variable ++ "_RISE_at") (-1))
          TRIGGER_TIME)) ∧
    (∀ (m : MeasureObserver) (log : SimLog) (rop : OpTrace) (iv : ℚ),
      ¬ getMeasurement log (m.low_result_variable ++ "_FALL_at") (-1) >
        getMeasurement log (m.low_result_variable ++ "_RISE_at") (-1) →
      ¬ getMeasurement log (m.high_result_variable ++ "_RISE_at") (-1) >
        getMeasurement log (m.high_result_variable ++ "_FALL_at") (-1) →
      opTraceInitial rop ("V(" ++ m.meas_node ++ ")") = .ok iv →
      iv < m.low_threshold →
      m.observeInternal log (some rop) = .ok (LOW_VALUE, -1)) ∧
    (∀ (m : MeasureObserver) (log : SimLog) (rop : OpTrace) (iv : ℚ),
      ¬ getMeasurement log (m.low_result_variable ++ "_FALL_at") (-1) >
        getMeasurement log (m.low_result_variable ++ "_RISE_at") (-1) →
      ¬ getMeasurement log (m.high_result_variable ++ "_RISE_at") (-1) >
        getMeasurement log (m.high_result_variable ++ "_FALL_at") (-1) →
      opTraceInitial rop ("V(" ++ m.meas_node ++ ")") = .ok iv →
      ¬ iv < m.low_threshold → iv > m.high_threshold →
      m.observeInternal log (some rop) = .ok (HIGH_VALUE, -1)) ∧
    (∀ (m : MeasureObserver) (log : SimLog) (rop : OpTrace) (iv : ℚ),
      ¬ getMeasurement log (m.low_result_variable ++ "_FALL_at") (-1) >
        getMeasurement log (m.low_result_variable ++ "_RISE_at") (-1) →
      ¬ getMeasurement log (m.high_result_variable ++ "_RISE_at") (-1) >
        getMeasurement log (m.high_result_variable ++ "_FALL_at") (-1) →
      opTraceInitial rop ("V(" ++ m.meas_node ++ ")") = .ok iv →
      ¬ iv < m.low_threshold → ¬ iv > m.high_threshold →
      m.observeInternal log (some rop) = .ok (UNCERTAIN_VALUE, -1)) ∧
    (∀ (m : MeasureObserver) (log : SimLog),
      ¬ getMeasurement log (m.low_result_variable ++ "_FALL_at") (-1) >
        getMeasurement log (m.low_result_variable ++ "_RISE_at") (-1) →
      ¬ getMeasurement log (m.high_result_variable ++ "_RISE_at") (-1) >
        getMeasurement log (m.high_result_variable ++ "_FALL_at") (-1) →
      m.observeInternal log none = .ok (UNCERTAIN_VALUE, -1)) ∧
    ((MeasureObserver.make "out" 1 2).observeInternal
        [("out_observe_low_fall_at", [mkRat 1 200000000])] none =
      .ok (LOW_VALUE, mkRat (-1) 200000000)) ∧
    ((MeasureObserver.make "out" 1 2).observeInternal [] (some [("V(out)", 3)]) =
      .ok (HIGH_VALUE, -1)) ∧
    ((MeasureObserver.make "out" 1 2).observeInternal [] none =
      .ok (UNCERTAIN_VALUE, -1)) :=
  ⟨fun m log rop h => observeInternal_low rop h,
   fun m log rop h1 h2 => observeInternal_high rop h1 h2,
   fun m log rop iv h1 h2 hiv hlt => observeInternal_op_low h1 h2 hiv hlt,
   fun m log rop iv h1 h2 hiv hlt hgt => observeInternal_op_high h1 h2 hiv hlt hgt,
   fun m log rop iv h1 h2 hiv hlt hgt => observeInternal_op_uncertain h1 h2 hiv hlt hgt,
   fun m log h1 h2 => observeInternal_no_op h1 h2,
   rfl, rfl, rfl⟩

/-- Witness for C4: the LOW rule applied at the specification's concrete
input (low-fall 5e-9, the other three timestamps defaulting to −1,
trigger 10e-9). -/
theorem claim_C4_witness :
    (MeasureObserver.make "out" 1 2).observeInternal
        [("out_observe_low_fall_at", [mkRat 1 200000000])] none =
      .ok (LOW_VALUE,
        ratSub (getMeasurement [("out_observe_low_fall_at", [mkRat 1 200000000])]
          ((MeasureObserver.make "out" 1 2).low_result_variable ++ "_FALL_at") (-1))
          TRIGGER_TIME) :=
  claim_C4_classification.1 (MeasureObserver.make "out" 1 2)
    [("out_observe_low_fall_at", [mkRat 1 200000000])] none (by decide)

/-- C5: `MeasureObserver.observe` raises `observerExpectationUnknown`
whenever it is called with no recorded expectation; once an expectation
exists and the classification succeeds, it returns the pair
(observed classification equals expected, singleton list of observed
offset minus expected offset) and raises no error. -/
theorem claim_C5_observe :
    (∀ (m : MeasureObserver) (log : SimLog) (rop : Option OpTrace),
      m.expectation = none →
      m.observe log rop = .error .observerExpectationUnknown) ∧
    (∀ (m : MeasureObserver) (exp o : Int × ℚ) (log : SimLog) (rop : Option OpTrace),
      m.expectation = some exp → m.observeInternal log rop = .ok o →
      m.observe log rop = .ok (o.1 == exp.1, [ratSub o.2 exp.2])) :=
  ⟨fun m log rop h => observe_no_expectation h log rop,
   fun m exp o log rop hexp hobs => observe_with_expectation hexp hobs⟩

/-- Witness for C5: a fresh observer's `observe` fails with the
unknown-expectation error, and an observer carrying the expectation
(LOW, 0) returns the comparison pair on an empty log. -/
theorem claim_C5_witness :
    (MeasureObserver.make "out" 1 2).observe [] none =
      .error .observerExpectationUnknown ∧
    (⟨UState.active, "out", 1, 2, some (LOW_VALUE, 0)⟩ : MeasureObserver).observe [] none =
      .ok (UNCERTAIN_VALUE == LOW_VALUE, [ratSub (-1) 0]) :=
  ⟨claim_C5_observe.1 _ [] none rfl,
   claim_C5_observe.2 _ (LOW_VALUE, 0) (UNCERTAIN_VALUE, -1) [] none rfl rfl⟩

/-- C6 (corrected): the allocator's first call for a kind scans the store
from index 1 up to the first unused reference and caches that index, and
every subsequent call increments the cached index with no re-scan;
requesting N consecutive transistor references from an empty store yields
exactly M1..MN in order. The no-reuse part of the claim fails: a
subsequent call's incremented index can name a reference still present in
the store (see the counterexample). -/
theorem claim_C6_allocator :
    (∀ n : NetList, n.fetIdx = -1 →
      n.get_next_fet_descriptor_index =
        (scanFree "M" n.get_components 1 (n.get_components.length + 1),
         { n with
            fetIdx :=
              (scanFree "M" n.get_components 1 (n.get_components.length + 1) : Int) }) ∧
      refName "M" (scanFree "M" n.get_components 1 (n.get_components.length + 1)) ∉
        n.get_components ∧
      1 ≤ scanFree "M" n.get_components 1 (n.get_components.length + 1) ∧
      ∀ j, 1 ≤ j → j < scanFree "M" n.get_components 1 (n.get_components.length + 1) →
        refName "M" j ∈ n.get_components) ∧
    (∀ n : NetList, n.fetIdx ≠ -1 →
      n.get_next_fet_descriptor_index =
        ((n.fetIdx + 1).toNat, { n with fetIdx := n.fetIdx + 1 })) ∧
    (∀ (d g s model : String) (N : Nat),
      ∃ n2, insertFets d g s model N emptyNet =
        .ok ((List.range' 1 N).map (refName "M"), n2)) :=
  ⟨fun n h => get_next_fet_first h,
   fun n h => get_next_fet_cached h,
   fun d g s model N => insertFets_emptyNet d g s model N⟩

/-- Witness for C6: three consecutive transistor insertions into the empty
store yield exactly M1, M2, M3 in order, and on `gapNet1` (cached index 2)
the next call returns index 3 without re-scanning. -/
theorem claim_C6_witness :
    (∃ n2, insertFets "d" "g" "s" "BSS123" 3 emptyNet =
      .ok ((List.range' 1 3).map (refName "M"), n2)) ∧
    gapNet1.get_next_fet_descriptor_index =
      ((gapNet1.fetIdx + 1).toNat, { gapNet1 with fetIdx := gapNet1.fetIdx + 1 }) :=
  ⟨claim_C6_allocator.2.2 "d" "g" "s" "BSS123" 3,
   claim_C6_allocator.2.1 gapNet1 (by decide)⟩

/-- Counterexample for C6 as stated: on `gapNet` (store holding M1 and M3),
the first allocation scans to the gap and yields M2 with cached index 2;
the next call increments the cache to 3, whose reference M3 is still
present in the store — the allocator hands out a live reference, and the
insertion collides with it. -/
theorem claim_C6_counterexample :
    gapNet.insert_fet "x" "y" "z" "BSS123" = .ok ("M2", gapNet1) ∧
    (gapNet1.get_next_fet_descriptor_index).1 = 3 ∧
    refName "M" 3 ∈ gapNet1.get_components ∧
    gapNet1.insert_fet "x" "y" "z" "BSS123" = .error .duplicateReference :=
  ⟨rfl, rfl, by decide, rfl⟩

/-- C7: a drain-open fault captures the transistor's four ports at
construction; `inject` renames the drain port to the synthetic node
`<drain>_<ref>_open` via `update_fet_ports` and inserts a resistor of
`OPEN_RESISTANCE` (1e11 Ω) whose two terminals are (synthetic-drain,
original-drain); `eject` restores the original four ports exactly as
captured and removes that resistor. -/
theorem claim_C7_drain_open :
    (∀ (n : NetList) (c : String) (f : DrainOpenFault),
      DrainOpenFault.make n c = .ok f →
      ∃ old, n.get_component c = some old ∧ f = ⟨c, .notInjected, none, old.ports⟩) ∧
    (∀ (f : DrainOpenFault) (n : NetList), f.state = .notInjected →
      (f.inject n).err = none →
      ∃ p0 rest n1 r n2,
        f.fault_free_ports = p0 :: rest ∧
        n.update_fet_ports f.component
          ((p0 ++ "_" ++ f.component ++ "_open") :: rest) = .ok n1 ∧
        n1.insert_resistor (p0 ++ "_" ++ f.component ++ "_open") p0
          (.num OPEN_RESISTANCE) = .ok (r, n2) ∧
        f.inject n = ⟨none, { f with state := .injected, open_resistor := some r }, n2⟩ ∧
        n2.components = n1.components ++
          [⟨r, [p0 ++ "_" ++ f.component ++ "_open", p0], .num OPEN_RESISTANCE⟩]) ∧
    (∀ (f : DrainOpenFault) (n n1 : NetList) (r : String) (n2 : NetList),
      n.update_fet_ports f.component f.fault_free_ports = .ok n1 →
      f.open_resistor = some r → n1.remove_component r = .ok n2 →
      f.state = .injected →
      f.eject n = ⟨none, { f with state := .notInjected }, n2⟩) := by
  refine ⟨fun n c f h => drainOpenFault_make_ok h, ?_, ?_⟩
  · intro f n hst herr
    obtain ⟨p0, rest, n1, r, n2, hports, hupd, hins, hinj⟩ :=
      drainOpenFault_inject_ok hst herr
    exact ⟨p0, rest, n1, r, n2, hports, hupd, hins, hinj, (insert_resistor_ok hins).1⟩
  · intro f n n1 r n2 hupd hr hrem hst
    exact drainOpenFault_eject_eval hupd hr hrem hst

/-- Witness for C7: the drain-open fault constructed on `exampleNet` at M1
captures M1's ports, and its injection renames the drain to
`d_M1_open` and inserts the 1e11 Ω resistor between `d_M1_open` and `d`. -/
theorem claim_C7_witness :
    (∃ old, exampleNet.get_component "M1" = some old ∧
      (⟨"M1", .notInjected, none, ["d", "g", "s", "b"]⟩ : DrainOpenFault) =
        ⟨"M1", .notInjected, none, old.ports⟩) ∧
    (∃ p0 rest n1 r n2,
      (["d", "g", "s", "b"] : List String) = p0 :: rest ∧
      exampleNet.update_fet_ports "M1" ((p0 ++ "_" ++ "M1" ++ "_open") :: rest) = .ok n1 ∧
      n1.insert_resistor (p0 ++ "_" ++ "M1" ++ "_open") p0 (.num OPEN_RESISTANCE) =
        .ok (r, n2) ∧
      (⟨"M1", .notInjected, none, ["d", "g", "s", "b"]⟩ : DrainOpenFault).inject
          exampleNet =
        ⟨none, ⟨"M1", .injected, some r, ["d", "g", "s", "b"]⟩, n2⟩ ∧
      n2.components = n1.components ++
        [⟨r, [p0 ++ "_" ++ "M1" ++ "_open", p0], .num OPEN_RESISTANCE⟩]) :=
  ⟨claim_C7_drain_open.1 exampleNet "M1" _ rfl,
   claim_C7_drain_open.2.1 ⟨"M1", .notInjected, none, ["d", "g", "s", "b"]⟩
     exampleNet rfl rfl⟩

/-- C8: a measurement that never triggered yields the sentinel default −1
(`getMeasurement` returns the default on an empty measurement list), so
`observeInternal` never fails on never-triggered measurements — with no
operating-point trace it always classifies, and with one whose node trace
is present it always classifies as well. -/
theorem claim_C8_sentinel_defaults :
    (∀ (log : SimLog) (name : String) (d : ℚ), simLogLookup log name = [] →
      getMeasurement log name d = d) ∧
    (∀ (m : MeasureObserver) (log : SimLog),
      ∃ v, m.observeInternal log none = .ok v) ∧
    (∀ (m : MeasureObserver) (log : SimLog) (rop : OpTrace) (iv : ℚ),
      opTraceInitial rop ("V(" ++ m.meas_node ++ ")") = .ok iv →
      ∃ v, m.observeInternal log (some rop) = .ok v) :=
  ⟨fun log name d h => getMeasurement_default log name d h,
   fun m log => observeInternal_total_no_op m log,
   fun m log rop iv hiv => observeInternal_total_some hiv⟩

/-- Witness for C8: on the empty log, the low-fall measurement of the
observer at `out` defaults to −1, and `observeInternal` still classifies
(to UNCERTAIN) instead of failing. -/
theorem claim_C8_witness :
    getMeasurement []
      ((MeasureObserver.make "out" 1 2).low_result_variable ++ "_FALL_at") (-1) = -1 ∧
    (∃ v, (MeasureObserver.make "out" 1 2).observeInternal [] none = .ok v) :=
  ⟨claim_C8_sentinel_defaults.1 []
     ((MeasureObserver.make "out" 1 2).low_result_variable ++ "_FALL_at") (-1) rfl,
   claim_C8_sentinel_defaults.2.1 (MeasureObserver.make "out" 1 2) []⟩

/-- C9: when `observe_expected` classifies UNCERTAIN it raises no error —
the condition is only reported on the log (the PANIC line) — and the
UNCERTAIN expectation is still recorded for subsequent `observe` calls. -/
theorem claim_C9_uncertain_expected :
    ∀ (m : MeasureObserver) (log : SimLog) (rop : Option OpTrace) (o : Int × ℚ),
      m.observeInternal log rop = .ok o → o.1 = UNCERTAIN_VALUE →
      m.observe_expected log rop = ⟨none, { m with expectation := some o }, true⟩ :=
  fun m log rop o h1 h2 => observe_expected_uncertain h1 h2

/-- Witness for C9: on the empty log with no operating-point trace, the
fresh observer at `out` classifies UNCERTAIN; `observe_expected` raises no
error, records the UNCERTAIN expectation, and logs the PANIC line. -/
theorem claim_C9_witness :
    (MeasureObserver.make "out" 1 2).observe_expected [] none =
      ⟨none, ⟨UState.notInjected, "out", 1, 2, some (UNCERTAIN_VALUE, -1)⟩, true⟩ :=
  claim_C9_uncertain_expected (MeasureObserver.make "out" 1 2) [] none
    (UNCERTAIN_VALUE, -1) rfl rfl

/-- C10: every transistor inserted through `NetList.insert_fet` has port
list exactly [drain, gate, source, source] — the bulk terminal tied to the
source — and consequently the pull transistor created by
`InjectionPoint.inject` and both inverter transistors created by
`InverterObserver.inject` have their bulk node equal to their source
node. -/
theorem claim_C10_bulk_source :
    (∀ (n : NetList) (d g s model r : String) (n2 : NetList),
      n.insert_fet d g s model = .ok (r, n2) →
      n2.components = n.components ++ [⟨r, [d, g, s, s], .str model⟩]) ∧
    (∀ (ip : InjectionPoint) (n : NetList), ip.state = .notInjected →
      (ip.inject n).err = none →
      ∃ (src : String) (n1 : NetList) (f : String) (n2 : NetList),
        ip.inject n =
          ⟨none, { ip with state := .injected, fet := some f, source := some src }, n2⟩ ∧
        n2.components = n1.components ++
          [⟨f, [ip.node,
              ip.node ++ (if ip.pull_up then PMOS_GATE_NODE_TAG else NMOS_GATE_NODE_TAG),
              if ip.pull_up then n.supply_node else n.ground_node,
              if ip.pull_up then n.supply_node else n.ground_node],
            .str (if ip.pull_up then PMOS_MODEL else NMOS_MODEL)⟩]) ∧
    (∀ (o : InverterObserver) (n : NetList), o.meas.state = .notInjected →
      (o.inject n).err = none →
      ∃ (p : String) (n1 : NetList) (q : String) (n2 : NetList),
        (o.inject n).net = n2 ∧
        n1.components = n.components ++
          [⟨p, [o.observer_node ++ INVERTER_NODE_TAG, o.observer_node, n.supply_node,
            n.supply_node], .str PMOS_MODEL⟩] ∧
        n2.components = n1.components ++
          [⟨q, [o.observer_node ++ INVERTER_NODE_TAG, o.observer_node, n.ground_node,
            n.ground_node], .str NMOS_MODEL⟩]) := by
  refine ⟨fun n d g s model r n2 h => (insert_fet_ok h).1, ?_, ?_⟩
  · intro ip n hst herr
    obtain ⟨src, n1, f, n2, hf1, hf2, hinj⟩ := injectionPoint_inject_ok hst herr
    exact ⟨src, n1, f, n2, hinj, (insert_fet_ok hf2).1⟩
  · intro o n hst herr
    obtain ⟨p, n1, q, n2, hf1, hf2, hinj⟩ := inverterObserver_inject_ok hst herr
    exact ⟨p, n1, q, n2, congrArg StepR.net hinj,
      (insert_fet_ok hf1).1, (insert_fet_ok hf2).1⟩

/-- Witness for C10: inserting a transistor into the empty store appends a
component whose third and fourth ports are both the source node. -/
theorem claim_C10_witness :
    ({ emptyNet with
        fetIdx := 1,
        components := [⟨"M1", ["d", "g", "s", "s"], .str "BSS123"⟩] } :
      NetList).components =
      emptyNet.components ++ [⟨"M1", ["d", "g", "s", "s"], .str "BSS123"⟩] :=
  claim_C10_bulk_source.1 emptyNet "d" "g" "s" "BSS123" "M1" _ rfl
